import Mathlib

/-!
# flesnet, `lib/fles_libfabric`: the input channel sender

A shallow embedding of `InputChannelSender` (`InputChannelSender.cpp`,
`InputChannelSender.hpp`) and of the collaborators it calls, followed by the
properties of the sender that the design document states.

Conventions of the embedding.

* `uint64_t` values are natural numbers; every C++ operation that can leave the
  64-bit range is written with an explicit `% UINT64_MOD`.
* A member function becomes a function from the object's state to its new state.
  Calls on external collaborators that only have an effect outside the sender
  (`set_read_index`, `send_data`) are recorded, in call order, in the fields
  `read_index_calls` and `submitted` of the sender state.
* A C++ run that has no defined result (an exception, a failed `assert`, an index
  outside `conn_`, a loop that does not stop) is a `Fault`.
-/

namespace tl_libfabric

/-! ## Data model -/

/-- The modulus of `uint64_t` arithmetic. -/
def UINT64_MOD : Nat := 2 ^ 64

/-- The fields of `fles::MicrosliceDescriptor` the sender reads: the byte index
of the microslice in the data stream and its length. -/
structure MicrosliceDescriptor where
  offset : Nat
  size : Nat
deriving DecidableEq, Repr

/-- A pair of cursors, one into the descriptor stream and one into the data stream
(the argument of `set_read_index`, the result of `get_write_index`). -/
structure DualIndex where
  desc : Nat
  data : Nat
deriving DecidableEq, Repr

/-- Modelled from the spec: `RingBuffer.hpp` and `DualRingBuffer.hpp` are not among
the sources. A ring buffer has `size` a power of two, `mask = size - 1`, and `at(i)`
reads the element at logical index `i` mod size (design 3, 4.A). `buf` gives the
content of each slot. -/
structure RingBuffer (α : Type) where
  size_exponent : Nat
  buf : Nat → α

/-- Number of slots. -/
def RingBuffer.size {α : Type} (r : RingBuffer α) : Nat := 2 ^ r.size_exponent

/-- The mask `size - 1` that maps a logical index to its slot. -/
def RingBuffer.size_mask {α : Type} (r : RingBuffer α) : Nat := r.size - 1

/-- The slot of logical index `n`: `n & size_mask`. -/
def RingBuffer.slot {α : Type} (r : RingBuffer α) (n : Nat) : Nat := n &&& r.size_mask

/-- Read access `at(n)`. -/
def RingBuffer.at_ {α : Type} (r : RingBuffer α) (n : Nat) : α := r.buf (r.slot n)

/-- Write access `at(n) = v`. -/
def RingBuffer.assign {α : Type} (r : RingBuffer α) (n : Nat) (v : α) : RingBuffer α :=
  { r with buf := fun j => if j = r.slot n then v else r.buf j }

/-- Modelled from the spec: the ack ring `RingBuffer<uint64_t, true>` after
`alloc_with_size`, a zero-filled ring; the capacity `2 ^ size_exponent` that
`alloc_with_size` chooses is left as the parameter `size_exponent`. -/
def RingBuffer.cleared (size_exponent : Nat) : RingBuffer Nat :=
  { size_exponent := size_exponent, buf := fun _ => 0 }

/-- Modelled from the spec: `InputBufferReadInterface` (`DualRingBuffer.hpp`, not among
the sources) as the sender sees it at one moment: the descriptor and data rings, the
send buffers the gather list points into, and the producer's write index. -/
structure InputBufferReadInterface where
  desc_buffer : RingBuffer MicrosliceDescriptor
  data_buffer : RingBuffer Nat
  desc_send_buffer : RingBuffer MicrosliceDescriptor
  data_send_buffer : RingBuffer Nat
  write_index : DualIndex

/-- The request identifiers stored in the low byte of a work-request id.
`RequestIdentifier.hpp` is not among the sources, so the three values the sender
dispatches on are parameters. -/
structure RequestIdentifier where
  ID_WRITE_DESC : Nat
  ID_RECEIVE_STATUS : Nat
  ID_SEND_STATUS : Nat
deriving DecidableEq, Repr

/-- One entry of the gather list (`struct iovec`): `iov_base` is the slot the
segment starts at, counted in elements from `ptr()` of the send buffer it points
into, and `iov_len` is its length in bytes. -/
structure iovec where
  iov_base : Nat
  iov_len : Nat
deriving DecidableEq, Repr

/-- The arguments of one `send_data` call, with the connection it was made on and
the work-request id the connection assigns (design 4.E). -/
structure WriteRequest where
  cn : Nat
  wr_id : Nat
  sge : List iovec
  num_desc_sge : Nat
  timeslice : Nat
  desc_length : Nat
  data_length : Nat
  skip : Nat
deriving DecidableEq, Repr

/-- The fields of `ComputeNodeStatusMessage` that `on_complete_recv` consumes. -/
structure ComputeNodeStatusMessage where
  ack : DualIndex
  request_abort : Bool
  final : Bool
deriving DecidableEq, Repr

/-- Modelled from the spec: `InputChannelConnection.hpp` is not among the sources.
The connection state of design 3 as far as the sender uses it: the write credits
(`in_flight_writes`, `max_pending_writes`), the peer buffer (`peer_buffer_capacity`,
`peer_write_cursor`, `peer_ack_cursor`) and the flags `done`, `abort_requested`. -/
structure InputChannelConnection where
  index : Nat
  max_pending_writes : Nat
  in_flight_writes : Nat
  peer_buffer_capacity : DualIndex
  peer_write_cursor : DualIndex
  peer_ack_cursor : DualIndex
  done : Bool
  abort_requested : Bool
deriving DecidableEq, Repr

/-- Modelled from the spec: `write_request_available()` is true iff
`in_flight_writes < max_pending_writes` (design 4.E). -/
def InputChannelConnection.write_request_available (c : InputChannelConnection) : Bool :=
  decide (c.in_flight_writes < c.max_pending_writes)

/-- Modelled from the spec: `skip_required(len)`: if `len` bytes placed at the peer's
current write cursor would straddle the wrap of the peer buffer, the number of bytes
up to the beginning of the buffer, else 0 (design 4.E). -/
def InputChannelConnection.skip_required (c : InputChannelConnection) (len : Nat) : Nat :=
  let databuf_wp := c.peer_write_cursor.data % c.peer_buffer_capacity.data
  if databuf_wp + len ≤ c.peer_buffer_capacity.data then 0
  else c.peer_buffer_capacity.data - databuf_wp

/-- Modelled from the spec: `check_for_buffer_space(len, descs)`: the peer buffer has
both `len` bytes and `descs` descriptor slots free (design 4.E). -/
def InputChannelConnection.check_for_buffer_space (c : InputChannelConnection)
    (len descs : Nat) : Bool :=
  decide (c.peer_write_cursor.data - c.peer_ack_cursor.data + len
            ≤ c.peer_buffer_capacity.data) &&
  decide (c.peer_write_cursor.desc - c.peer_ack_cursor.desc + descs
            ≤ c.peer_buffer_capacity.desc)

/-- Modelled from the spec: `inc_write_pointers(len, descs)` advances the peer write
cursor by `len` bytes and `descs` descriptors. -/
def InputChannelConnection.inc_write_pointers (c : InputChannelConnection)
    (len descs : Nat) : InputChannelConnection :=
  { c with peer_write_cursor :=
      { desc := (c.peer_write_cursor.desc + descs) % UINT64_MOD,
        data := (c.peer_write_cursor.data + len) % UINT64_MOD } }

/-- Modelled from the spec: the effect of `send_data` on the connection:
`in_flight_writes` is incremented (design 4.E). The counter is an `unsigned int`,
as the `max_pending_write_requests` passed by `create_input_node_connection`. -/
def InputChannelConnection.send_data (c : InputChannelConnection) : InputChannelConnection :=
  { c with in_flight_writes := (c.in_flight_writes + 1) % 2 ^ 32 }

/-- Modelled from the spec: `on_complete_write()`: `in_flight_writes -= 1`
(design 4.E), in `unsigned int` arithmetic. -/
def InputChannelConnection.on_complete_write (c : InputChannelConnection) :
    InputChannelConnection :=
  { c with in_flight_writes := (c.in_flight_writes + 2 ^ 32 - 1) % 2 ^ 32 }

/-- Modelled from the spec: `on_complete_recv()` consumes the status message received
from the peer: it takes over the peer's ack cursor and abort flag, and a final message
marks the connection done (design 4.E). -/
def InputChannelConnection.on_complete_recv (c : InputChannelConnection)
    (msg : ComputeNodeStatusMessage) : InputChannelConnection :=
  { c with peer_ack_cursor := msg.ack,
           abort_requested := msg.request_abort,
           done := c.done || msg.final }

/-- Accessor `request_abort_flag()`. -/
def InputChannelConnection.request_abort_flag (c : InputChannelConnection) : Bool :=
  c.abort_requested

/-- The work-request id `send_data` assigns:
`(T << 24) | (conn_idx << 8) | ID_WRITE_DESC` in `uint64_t` (design 4.E). -/
def write_desc_wr_id (ids : RequestIdentifier) (timeslice conn_idx : Nat) : Nat :=
  ((timeslice <<< 24) % UINT64_MOD) ||| ((conn_idx <<< 8) % UINT64_MOD) ||| ids.ID_WRITE_DESC

/-- The state of an `InputChannelSender`: its data members (names as in
`InputChannelSender.hpp`; `conn_`, `connections_done_`, `all_done_` are inherited from
`ConnectionGroup`), and the two call records `submitted` (every `send_data` call) and
`read_index_calls` (every `data_source_.set_read_index` call). -/
structure InputChannelSender where
  timeslice_size_ : Nat
  overlap_size_ : Nat
  max_timeslice_number_ : Nat
  min_acked_desc_ : Nat
  min_acked_data_ : Nat
  ack_ : RingBuffer Nat
  acked_desc_ : Nat
  acked_data_ : Nat
  sent_desc_ : Nat
  sent_data_ : Nat
  cached_acked_data_ : Nat
  cached_acked_desc_ : Nat
  write_index_desc_ : Nat
  abort_ : Bool
  conn_ : List InputChannelConnection
  connections_done_ : Nat
  all_done_ : Bool
  submitted : List WriteRequest
  read_index_calls : List DualIndex

/-- The ways a call can end without a result. -/
inductive Fault where
  | unknown_wr_id
  | no_such_connection
  | assertion_failed
  | division_by_zero
  | no_return
deriving DecidableEq, Repr

/-- The constructor `InputChannelSender::InputChannelSender` together with the default
member initialisers of the header; `conn` is the connection table that `connect()`
builds and `ack_size_exponent` the capacity `alloc_with_size(min_ack_buffer_size)`
chooses for the ack ring. -/
def InputChannelSender.init (data_source : InputBufferReadInterface)
    (timeslice_size overlap_size max_timeslice_number : Nat)
    (ack_size_exponent : Nat) (conn : List InputChannelConnection) : InputChannelSender :=
  { timeslice_size_ := timeslice_size,
    overlap_size_ := overlap_size,
    max_timeslice_number_ := max_timeslice_number,
    min_acked_desc_ := data_source.desc_buffer.size / 4,
    min_acked_data_ := data_source.data_buffer.size / 4,
    ack_ := RingBuffer.cleared ack_size_exponent,
    acked_desc_ := 0,
    acked_data_ := 0,
    sent_desc_ := 0,
    sent_data_ := 0,
    cached_acked_data_ := 0,
    cached_acked_desc_ := 0,
    write_index_desc_ := 0,
    abort_ := false,
    conn_ := conn,
    connections_done_ := 0,
    all_done_ := false,
    submitted := [],
    read_index_calls := [] }

/-- The size `min_ack_buffer_size` the constructor asks of `alloc_with_size`. -/
def min_ack_buffer_size (data_source : InputBufferReadInterface) (timeslice_size : Nat) : Nat :=
  data_source.desc_buffer.size / timeslice_size + 1

/-! ## `on_completion` -/

/-- The loop `do ++acked_ts; while (ack_.at(acked_ts) > ts);` of `on_completion`,
started at `acked_ts`. The slots the loop visits repeat after `ack.size` steps, so
the loop stops within `ack.size` iterations or never: with `fuel = ack.size` the
result `none` means that it does not stop. -/
def ack_walk (ack : RingBuffer Nat) (ts : Nat) : Nat → Nat → Option Nat
  | 0, _ => none
  | fuel + 1, acked_ts =>
    let next := (acked_ts + 1) % UINT64_MOD
    if ack.at_ next > ts then ack_walk ack ts fuel next else some next

/-- The function `InputChannelSender::on_completion(wr_id)`. `data_source` is the input
buffer at the time of the call and `recv_status` the status message in the receive
buffer of the connection the completion is for (read by `on_complete_recv`). -/
def on_completion (ids : RequestIdentifier) (data_source : InputBufferReadInterface)
    (recv_status : ComputeNodeStatusMessage) (s : InputChannelSender) (wr_id : Nat) :
    Except Fault InputChannelSender :=
  if wr_id &&& 0xFF = ids.ID_WRITE_DESC then
    let ts := wr_id >>> 24
    let cn := (wr_id >>> 8) &&& 0xFFFF
    match s.conn_[cn]? with
    | none => .error .no_such_connection
    | some c =>
      if s.timeslice_size_ = 0 then .error .division_by_zero
      else
        let acked_ts := s.acked_desc_ / s.timeslice_size_
        let walked : Option (Nat × RingBuffer Nat) :=
          if ts = acked_ts then
            (ack_walk s.ack_ ts s.ack_.size acked_ts).map (fun a => (a, s.ack_))
          else some (acked_ts, s.ack_.assign ts ts)
        match walked with
        | none => .error .no_return
        | some (acked_ts, ack) =>
          let acked_desc := (acked_ts * s.timeslice_size_) % UINT64_MOD
          let acked_data := (data_source.desc_buffer.at_ acked_desc).offset
          let s1 : InputChannelSender :=
            { s with conn_ := s.conn_.set cn c.on_complete_write,
                     ack_ := ack,
                     acked_data_ := acked_data,
                     acked_desc_ := acked_desc }
          if acked_data ≥ (s.cached_acked_data_ + s.min_acked_data_) % UINT64_MOD ∨
              acked_desc ≥ (s.cached_acked_desc_ + s.min_acked_desc_) % UINT64_MOD then
            .ok { s1 with cached_acked_data_ := acked_data,
                          cached_acked_desc_ := acked_desc,
                          read_index_calls :=
                            s.read_index_calls ++ [{ desc := acked_desc, data := acked_data }] }
          else .ok s1
  else if wr_id &&& 0xFF = ids.ID_RECEIVE_STATUS then
    let cn := (wr_id >>> 8) % 2 ^ 32
    match s.conn_[cn]? with
    | none => .error .no_such_connection
    | some c =>
      let c1 := c.on_complete_recv recv_status
      let s1 : InputChannelSender :=
        { s with conn_ := s.conn_.set cn c1,
                 abort_ := s.abort_ || c1.request_abort_flag }
      if c1.done then
        .ok { s1 with connections_done_ := s.connections_done_ + 1,
                      all_done_ := decide (s.connections_done_ + 1 = s.conn_.length) }
      else .ok s1
  else if wr_id &&& 0xFF = ids.ID_SEND_STATUS then .ok s
  else .error .unknown_wr_id

/-- A sequence of completions handled one after the other by `on_completion`; each
comes with the input buffer and the received status message of its moment. The run
stops at the first call without a result. -/
def on_completions (ids : RequestIdentifier) (s : InputChannelSender) :
    List (InputBufferReadInterface × ComputeNodeStatusMessage × Nat) →
    Except Fault InputChannelSender
  | [] => .ok s
  | (data_source, recv_status, wr_id) :: rest =>
    match on_completion ids data_source recv_status s wr_id with
    | .error e => .error e
    | .ok s1 => on_completions ids s1 rest

/-! ## `post_send_data` and `try_send_timeslice` -/

/-- Addition `a + b` in `uint64_t`. -/
def u64_add (a b : Nat) : Nat := (a + b) % UINT64_MOD

/-- Subtraction `a - b` in `uint64_t` (for `a, b < 2^64`). -/
def u64_sub (a b : Nat) : Nat := (a + UINT64_MOD - b) % UINT64_MOD

/-- Multiplication `a * b` in `uint64_t`. -/
def u64_mul (a b : Nat) : Nat := (a * b) % UINT64_MOD

/-- The `// descriptors` block of `post_send_data`: one chunk if the descriptor range
does not wrap in the send buffer, else two chunks. `iov_base` is the slot
(`&at(desc_offset)` or `ptr()`), `iov_len` the length in bytes; `sizeof_MD` stands for
`sizeof(fles::MicrosliceDescriptor)` (`MicrosliceDescriptor.hpp` is not among the
sources). -/
def desc_gather_list (sizeof_MD : Nat) (desc_send_buffer : RingBuffer MicrosliceDescriptor)
    (desc_offset desc_length : Nat) : List iovec :=
  if (desc_offset &&& desc_send_buffer.size_mask) ≤
      ((u64_sub (u64_add desc_offset desc_length) 1) &&& desc_send_buffer.size_mask) then
    -- one chunk
    [{ iov_base := desc_send_buffer.slot desc_offset,
       iov_len := u64_mul sizeof_MD desc_length }]
  else
    -- two chunks
    [{ iov_base := desc_send_buffer.slot desc_offset,
       iov_len := u64_mul sizeof_MD
         (u64_sub desc_send_buffer.size (desc_offset &&& desc_send_buffer.size_mask)) },
     { iov_base := 0,
       iov_len := u64_mul sizeof_MD
         (u64_add (u64_sub desc_length desc_send_buffer.size)
           (desc_offset &&& desc_send_buffer.size_mask)) }]

/-- The `// data` block of `post_send_data`: zero chunks for an empty range, one chunk
if the byte range does not wrap in the send buffer, else two chunks. -/
def data_gather_list (data_send_buffer : RingBuffer Nat)
    (data_offset data_length : Nat) : List iovec :=
  if data_length = 0 then
    -- zero chunks
    []
  else if (data_offset &&& data_send_buffer.size_mask) ≤
      ((u64_sub (u64_add data_offset data_length) 1) &&& data_send_buffer.size_mask) then
    -- one chunk
    [{ iov_base := data_send_buffer.slot data_offset, iov_len := data_length }]
  else
    -- two chunks
    [{ iov_base := data_send_buffer.slot data_offset,
       iov_len := u64_sub data_send_buffer.size
         (data_offset &&& data_send_buffer.size_mask) },
     { iov_base := 0,
       iov_len := u64_add (u64_sub data_length data_send_buffer.size)
         (data_offset &&& data_send_buffer.size_mask) }]

/-- The function `InputChannelSender::post_send_data`: build the gather list
(descriptor chunks, then data chunks) and hand it to `conn_[cn]->send_data`, which
submits the write and takes a write credit. The calls `copy_to_desc_send_buffer` and
`copy_to_data_send_buffer` stage the same chunks inside the data source and leave the
sender unchanged. -/
def post_send_data (ids : RequestIdentifier) (sizeof_MD : Nat)
    (data_source : InputBufferReadInterface) (s : InputChannelSender)
    (timeslice cn desc_offset desc_length data_offset data_length skip : Nat) :
    Except Fault InputChannelSender :=
  let desc_sge := desc_gather_list sizeof_MD data_source.desc_send_buffer desc_offset desc_length
  let num_desc_sge := desc_sge.length
  let sge := desc_sge ++ data_gather_list data_source.data_send_buffer data_offset data_length
  match s.conn_[cn]? with
  | none => .error .no_such_connection
  | some c =>
    .ok { s with
      conn_ := s.conn_.set cn c.send_data,
      submitted := s.submitted ++
        [{ cn := cn, wr_id := write_desc_wr_id ids timeslice c.index, sge := sge,
           num_desc_sge := num_desc_sge, timeslice := timeslice,
           desc_length := desc_length, data_length := data_length, skip := skip }] }

/-- The function `InputChannelSender::target_cn_index`. -/
def target_cn_index (s : InputChannelSender) (timeslice : Nat) : Nat :=
  timeslice % s.conn_.length

/-- The function `InputChannelSender::try_send_timeslice`; the result is the returned
flag and the new sender state. `timeslice_size_ + overlap_size_` is a sum of two
`uint32_t`. -/
def try_send_timeslice (ids : RequestIdentifier) (sizeof_MD : Nat)
    (data_source : InputBufferReadInterface) (s : InputChannelSender) (timeslice : Nat) :
    Except Fault (Bool × InputChannelSender) :=
  -- wait until a complete timeslice is available in the input buffer
  let desc_offset := u64_mul timeslice s.timeslice_size_
  let desc_length := (s.timeslice_size_ + s.overlap_size_) % 2 ^ 32
  let s1 : InputChannelSender :=
    if s.write_index_desc_ < u64_add desc_offset desc_length then
      { s with write_index_desc_ := data_source.write_index.desc }
    else s
  -- check if microslice no. (desc_offset + desc_length - 1) is avail
  if s1.write_index_desc_ ≥ u64_add desc_offset desc_length then
    let data_offset := (data_source.desc_buffer.at_ desc_offset).offset
    let last := data_source.desc_buffer.at_ (u64_sub (u64_add desc_offset desc_length) 1)
    let data_end := u64_add last.offset last.size
    if data_end < data_offset then .error .assertion_failed
    else
      let data_length := u64_sub data_end data_offset
      let total_length := u64_add data_length (u64_mul desc_length sizeof_MD)
      if s1.conn_.length = 0 then .error .division_by_zero
      else
        let cn := target_cn_index s1 timeslice
        match s1.conn_[cn]? with
        | none => .error .no_such_connection
        | some c =>
          if !c.write_request_available then .ok (false, s1)
          else
            -- number of bytes to skip in advance (to avoid buffer wrap)
            let skip := c.skip_required total_length
            let total_length := u64_add total_length skip
            if c.check_for_buffer_space total_length 1 then
              match post_send_data ids sizeof_MD data_source s1 timeslice cn desc_offset
                  desc_length data_offset data_length skip with
              | .error e => .error e
              | .ok s2 =>
                match s2.conn_[cn]? with
                | none => .error .no_such_connection
                | some c2 =>
                  .ok (true,
                    { s2 with conn_ := s2.conn_.set cn (c2.inc_write_pointers total_length 1),
                              sent_desc_ := u64_add desc_offset desc_length,
                              sent_data_ := data_end })
            else .ok (false, s1)
  else .ok (false, s1)

/-! ## The main loop of `operator()` -/

/-- What one iteration of the main loop receives from outside the sender: the input
buffer when `try_send_timeslice` runs, the completions `poll_completion` dispatches to
`on_completion`, and the effect on the connections of the callbacks
(`sync_buffer_positions`, `report_status`) that `scheduler_.timer()` fires. -/
structure LoopEnv where
  data_source : InputBufferReadInterface
  completions : List (InputBufferReadInterface × ComputeNodeStatusMessage × Nat)
  timer : List InputChannelConnection → List InputChannelConnection

/-- The local variable `timeslice` of `operator()` and the sender. -/
structure LoopState where
  timeslice : Nat
  sender : InputChannelSender

/-- The loop condition `timeslice < max_timeslice_number_ && !abort_`. -/
def loop_condition (st : LoopState) : Bool :=
  decide (st.timeslice < st.sender.max_timeslice_number_) && !st.sender.abort_

/-- The body of the main loop. -/
def loop_body (ids : RequestIdentifier) (sizeof_MD : Nat) (env : LoopEnv) (st : LoopState) :
    Except Fault LoopState :=
  match try_send_timeslice ids sizeof_MD env.data_source st.sender st.timeslice with
  | .error e => .error e
  | .ok (sent, s1) =>
    let timeslice := if sent then (st.timeslice + 1) % UINT64_MOD else st.timeslice
    match on_completions ids s1 env.completions with
    | .error e => .error e
    | .ok s2 => .ok { timeslice := timeslice, sender := { s2 with conn_ := env.timer s2.conn_ } }

/-- The main loop `while (timeslice < max_timeslice_number_ && !abort_) ...`, run for
at most one iteration per element of the list; the result is the state at the loop
head that is reached. -/
def main_loop (ids : RequestIdentifier) (sizeof_MD : Nat) :
    List LoopEnv → LoopState → Except Fault LoopState
  | [], st => .ok st
  | env :: rest, st =>
    if loop_condition st then
      match loop_body ids sizeof_MD env st with
      | .error e => .error e
      | .ok st1 => main_loop ids sizeof_MD rest st1
    else .ok st

/-! ## Specification vocabulary -/

/-- The elements a list of data segments reads from a ring, in order (a data element
is one byte, so `iov_len` counts elements). -/
def gathered_bytes (r : RingBuffer Nat) : List iovec → List Nat
  | [] => []
  | g :: rest => (List.range' g.iov_base g.iov_len).map r.buf ++ gathered_bytes r rest

/-- The timeslice a write completion is for: `wr_id >> 24`. -/
def wr_timeslice (wr_id : Nat) : Nat := wr_id >>> 24

/-- The timeslices of a sequence of completions, in order. -/
def completed_timeslices
    (evs : List (InputBufferReadInterface × ComputeNodeStatusMessage × Nat)) : List Nat :=
  evs.map (fun e => wr_timeslice e.2.2)

/-- Search upwards from `k` for the first timeslice that is not in `done`. -/
def first_missing (done : List Nat) : Nat → Nat → Nat
  | 0, k => k
  | fuel + 1, k => if k ∈ done then first_missing done fuel (k + 1) else k

/-- The largest `k` such that the timeslices `0, ..., k-1` are all in `done`. -/
def contiguous_acked (done : List Nat) : Nat := first_missing done (done.length + 1) 0

/-- The relation between the ack ring, `acked_desc_` and the set `done` of completed
timeslices that `on_completion` maintains: `k` is the acked timeslice. -/
structure AckInv (done : List Nat) (ack : RingBuffer Nat) (acked_desc tsz k : Nat) : Prop where
  acked : acked_desc = k * tsz
  nowrap : k * tsz < UINT64_MOD
  below : ∀ i, i < k → i ∈ done
  notin : k ∉ done
  ahead : ∀ t ∈ done, k < t → ack.at_ t = t
  slots : ∀ j, ack.buf j = 0 ∨ (ack.buf j ∈ done ∧ ack.slot (ack.buf j) = j)
  window : ∀ t ∈ done, t < k + ack.size
  range : ∀ t ∈ done, (t + 1) * tsz < UINT64_MOD

/-- The local `desc_offset` of `try_send_timeslice`. -/
def ts_desc_offset (s : InputChannelSender) (timeslice : Nat) : Nat :=
  u64_mul timeslice s.timeslice_size_

/-- The local `desc_length` of `try_send_timeslice`. -/
def ts_desc_length (s : InputChannelSender) : Nat :=
  (s.timeslice_size_ + s.overlap_size_) % 2 ^ 32

/-- The first descriptor index after the timeslice, `desc_offset + desc_length`. -/
def ts_desc_end (s : InputChannelSender) (timeslice : Nat) : Nat :=
  u64_add (ts_desc_offset s timeslice) (ts_desc_length s)

/-- The value of `write_index_desc_` after the first `if` of `try_send_timeslice`: it is
refreshed from the data source when it is less than `desc_offset + desc_length`. -/
def refreshed_write_index (data_source : InputBufferReadInterface) (s : InputChannelSender)
    (timeslice : Nat) : Nat :=
  if s.write_index_desc_ < ts_desc_end s timeslice then data_source.write_index.desc
  else s.write_index_desc_

/-- The local `data_offset` of `try_send_timeslice`. -/
def ts_data_offset (data_source : InputBufferReadInterface) (s : InputChannelSender)
    (timeslice : Nat) : Nat :=
  (data_source.desc_buffer.at_ (ts_desc_offset s timeslice)).offset

/-- The local `data_end` of `try_send_timeslice`. -/
def ts_data_end (data_source : InputBufferReadInterface) (s : InputChannelSender)
    (timeslice : Nat) : Nat :=
  u64_add (data_source.desc_buffer.at_ (u64_sub (ts_desc_end s timeslice) 1)).offset
    (data_source.desc_buffer.at_ (u64_sub (ts_desc_end s timeslice) 1)).size

/-- The local `data_length` of `try_send_timeslice`. -/
def ts_data_length (data_source : InputBufferReadInterface) (s : InputChannelSender)
    (timeslice : Nat) : Nat :=
  u64_sub (ts_data_end data_source s timeslice) (ts_data_offset data_source s timeslice)

/-- The local `total_length` of `try_send_timeslice` before the skip is added. -/
def ts_total_length (sizeof_MD : Nat) (data_source : InputBufferReadInterface)
    (s : InputChannelSender) (timeslice : Nat) : Nat :=
  u64_add (ts_data_length data_source s timeslice) (u64_mul (ts_desc_length s) sizeof_MD)

/-- The local `total_length` of `try_send_timeslice` after `total_length += skip` on
connection `c`. -/
def ts_total_with_skip (sizeof_MD : Nat) (data_source : InputBufferReadInterface)
    (s : InputChannelSender) (timeslice : Nat) (c : InputChannelConnection) : Nat :=
  u64_add (ts_total_length sizeof_MD data_source s timeslice)
    (c.skip_required (ts_total_length sizeof_MD data_source s timeslice))

/-- The write `try_send_timeslice` submits for `timeslice` on connection `c`, through
`post_send_data` and `send_data`. -/
def ts_write_request (ids : RequestIdentifier) (sizeof_MD : Nat)
    (data_source : InputBufferReadInterface) (s : InputChannelSender) (timeslice : Nat)
    (c : InputChannelConnection) : WriteRequest :=
  { cn := target_cn_index s timeslice,
    wr_id := write_desc_wr_id ids timeslice c.index,
    sge := desc_gather_list sizeof_MD data_source.desc_send_buffer
        (ts_desc_offset s timeslice) (ts_desc_length s) ++
      data_gather_list data_source.data_send_buffer (ts_data_offset data_source s timeslice)
        (ts_data_length data_source s timeslice),
    num_desc_sge := (desc_gather_list sizeof_MD data_source.desc_send_buffer
        (ts_desc_offset s timeslice) (ts_desc_length s)).length,
    timeslice := timeslice,
    desc_length := ts_desc_length s,
    data_length := ts_data_length data_source s timeslice,
    skip := c.skip_required (ts_total_length sizeof_MD data_source s timeslice) }

/-- One step of the sender: a call of `try_send_timeslice` (for any timeslice, with
any state of the input buffer), a write completion handled by `on_completion` for a
connection that has a write in flight, or any other completion handled by
`on_completion`. -/
inductive SenderStep (ids : RequestIdentifier) (sizeof_MD : Nat) :
    InputChannelSender → InputChannelSender → Prop where
  | try_send (ds : InputBufferReadInterface) (s : InputChannelSender) (timeslice : Nat)
      (b : Bool) (s' : InputChannelSender)
      (h : try_send_timeslice ids sizeof_MD ds s timeslice = .ok (b, s')) :
      SenderStep ids sizeof_MD s s'
  | write_completion (ds : InputBufferReadInterface) (msg : ComputeNodeStatusMessage)
      (s : InputChannelSender) (wr_id : Nat) (c : InputChannelConnection)
      (s' : InputChannelSender)
      (h_kind : wr_id &&& 0xFF = ids.ID_WRITE_DESC)
      (h_conn : s.conn_[(wr_id >>> 8) &&& 0xFFFF]? = some c)
      (h_in_flight : 0 < c.in_flight_writes)
      (h : on_completion ids ds msg s wr_id = .ok s') :
      SenderStep ids sizeof_MD s s'
  | other_completion (ds : InputBufferReadInterface) (msg : ComputeNodeStatusMessage)
      (s : InputChannelSender) (wr_id : Nat) (s' : InputChannelSender)
      (h_kind : wr_id &&& 0xFF ≠ ids.ID_WRITE_DESC)
      (h : on_completion ids ds msg s wr_id = .ok s') :
      SenderStep ids sizeof_MD s s'

/-- The credit state of a connection is consistent: no more writes in flight than
`max_pending_writes`, which is an `unsigned int`. -/
def credit_ok (c : InputChannelConnection) : Prop :=
  c.in_flight_writes ≤ c.max_pending_writes ∧ c.max_pending_writes < 2 ^ 32

/-- The order on read indices: both components are non-decreasing. -/
def read_index_le (p q : DualIndex) : Prop := p.desc ≤ q.desc ∧ p.data ≤ q.data

/-- Along a run of completions, every write completion finds the descriptor of the
stream in the ring: the descriptor `desc_buffer().at(acked_desc_)` it reads, at the
new `acked_desc_`, is the descriptor `stream acked_desc_` of the descriptor stream. -/
def reads_stream (ids : RequestIdentifier) (stream : Nat → MicrosliceDescriptor)
    (s : InputChannelSender) :
    List (InputBufferReadInterface × ComputeNodeStatusMessage × Nat) → Bool
  | [] => true
  | (data_source, recv_status, wr_id) :: rest =>
    match on_completion ids data_source recv_status s wr_id with
    | .error _ => true
    | .ok s1 =>
      decide (wr_id &&& 0xFF = ids.ID_WRITE_DESC →
        data_source.desc_buffer.at_ s1.acked_desc_ = stream s1.acked_desc_) &&
      reads_stream ids stream s1 rest

/-- What `on_completion` maintains about the published read indices: `acked_desc_` is a
multiple of the timeslice size inside the 64-bit range, the published indices are
non-decreasing, and the last one is not ahead of `acked_desc_` and carries the offset
of its descriptor in the stream. -/
structure ReadIndexInv (stream : Nat → MicrosliceDescriptor) (s : InputChannelSender) :
    Prop where
  dvd : s.timeslice_size_ ∣ s.acked_desc_
  lt : s.acked_desc_ < UINT64_MOD
  chain : List.Chain' read_index_le s.read_index_calls
  last : ∀ p ∈ s.read_index_calls.getLast?,
    p.desc ≤ s.acked_desc_ ∧ p.data = (stream p.desc).offset

/-- The ring-wrap predicate of `post_send_data`: the range of `len` elements at
`offset` is sent as a single chunk when
`(offset & mask) <= ((offset + len - 1) & mask)`, in `uint64_t` arithmetic. -/
def single_chunk (mask offset len : Nat) : Prop :=
  (offset &&& mask) ≤ ((u64_sub (u64_add offset len) 1) &&& mask)

instance (mask offset len : Nat) : Decidable (single_chunk mask offset len) :=
  inferInstanceAs (Decidable (_ ≤ _))

/-! ## Scenarios -/

/-- Request identifiers used in the scenarios (any three different bytes do). -/
def scenario_ids : RequestIdentifier :=
  { ID_WRITE_DESC := 3, ID_RECEIVE_STATUS := 5, ID_SEND_STATUS := 4 }

/-- A status message with no request. -/
def scenario_status : ComputeNodeStatusMessage :=
  { ack := { desc := 0, data := 0 }, request_abort := false, final := false }

/-- An input buffer with a descriptor ring of 1024 and a data ring of 65536 slots, in
which the microslice in slot `j` has 100 bytes at offset `100 * j` and the data byte
in slot `j` is `j % 256`. -/
def scenario_data_source : InputBufferReadInterface :=
  { desc_buffer := { size_exponent := 10, buf := fun j => { offset := 100 * j, size := 100 } },
    data_buffer := { size_exponent := 16, buf := fun j => j % 256 },
    desc_send_buffer :=
      { size_exponent := 10, buf := fun j => { offset := 100 * j, size := 100 } },
    data_send_buffer := { size_exponent := 16, buf := fun j => j % 256 },
    write_index := { desc := 1024, data := 102400 } }

/-- A connection with `in_flight` writes in flight out of at most 4. -/
def scenario_connection (index in_flight : Nat) : InputChannelConnection :=
  { index := index, max_pending_writes := 4, in_flight_writes := in_flight,
    peer_buffer_capacity := { desc := 16, data := 65536 },
    peer_write_cursor := { desc := 0, data := 0 },
    peer_ack_cursor := { desc := 0, data := 0 },
    done := false, abort_requested := false }

/-- The completion of the write of timeslice `ts` on connection `cn`. -/
def scenario_completion (ts cn : Nat) :
    InputBufferReadInterface × ComputeNodeStatusMessage × Nat :=
  (scenario_data_source, scenario_status, write_desc_wr_id scenario_ids ts cn)

/-- S1: one connection without a write in flight, timeslices of 100 microslices with
an overlap of 1, an ack ring of 16 slots. -/
def S1_sender : InputChannelSender :=
  InputChannelSender.init scenario_data_source 100 1 1000 4 [scenario_connection 0 0]

/-- S5: three connections with one write in flight each, timeslices of 100
microslices, an ack ring of 4 slots. -/
def S5_sender : InputChannelSender :=
  InputChannelSender.init scenario_data_source 100 1 1000 2
    [scenario_connection 0 1, scenario_connection 1 1, scenario_connection 2 1]

/-- S5: the writes complete in the order T=2, T=0, T=1. -/
def S5_completions : List (InputBufferReadInterface × ComputeNodeStatusMessage × Nat) :=
  [scenario_completion 2 2, scenario_completion 0 0, scenario_completion 1 1]

/-- The descriptor stream of the scenarios: microslice `i` has 100 bytes at offset
`100 * i`. -/
def scenario_stream (i : Nat) : MicrosliceDescriptor := { offset := 100 * i, size := 100 }

/-- The completions of S5 followed by those of the timeslices 3 and 4. -/
def S5_then_two_more : List (InputBufferReadInterface × ComputeNodeStatusMessage × Nat) :=
  S5_completions ++ [scenario_completion 3 0, scenario_completion 4 1]

/-- S4: one connection whose 4 write credits are all taken. -/
def S4_sender : InputChannelSender :=
  InputChannelSender.init scenario_data_source 100 1 1000 4 [scenario_connection 0 4]

/-- S4: the sender after the write of timeslice 0 has completed on connection 0. -/
def S4_after_completion : InputChannelSender :=
  match on_completion scenario_ids scenario_data_source scenario_status S4_sender
      (write_desc_wr_id scenario_ids 0 0) with
  | .ok s => s
  | .error _ => S4_sender

/-- S1: the input buffer of scenario S1 for a given content `desc` of the descriptor
ring: a descriptor ring of 1024 and a data ring of 65536 slots, 101 descriptors and
10100 bytes written. -/
def S1_source (desc : Nat → MicrosliceDescriptor) : InputBufferReadInterface :=
  { desc_buffer := { size_exponent := 10, buf := desc },
    data_buffer := { size_exponent := 16, buf := fun j => j % 256 },
    desc_send_buffer := { size_exponent := 10, buf := desc },
    data_send_buffer := { size_exponent := 16, buf := fun j => j % 256 },
    write_index := { desc := 101, data := 10100 } }

/-- S1: the sender the constructor builds on `S1_source desc`: timeslices of 100
microslices with an overlap of 1, one connection. -/
def S1_init (desc : Nat → MicrosliceDescriptor) : InputChannelSender :=
  InputChannelSender.init (S1_source desc) 100 1 1000 4 [scenario_connection 0 0]

/-- S1 with 101 microslices of 100 bytes each: the sender after
`try_send_timeslice(0)`. -/
def S1_after_send : InputChannelSender :=
  match try_send_timeslice scenario_ids 32 (S1_source scenario_stream)
      (S1_init scenario_stream) 0 with
  | .ok (_, s) => s
  | .error _ => S1_init scenario_stream

/-- S1 with 101 microslices of 100 bytes each: the sender after the completion of the
write of timeslice 0. -/
def S1_after_completion : InputChannelSender :=
  match on_completion scenario_ids (S1_source scenario_stream) scenario_status S1_after_send
      (write_desc_wr_id scenario_ids 0 0) with
  | .ok s => s
  | .error _ => S1_after_send

/-- Two iterations of the main loop: nothing arrives in the first one, the completion
of the write of timeslice 0 arrives in the second one. -/
def scenario_loop_envs : List LoopEnv :=
  [{ data_source := scenario_data_source, completions := [], timer := fun conn => conn },
   { data_source := scenario_data_source, completions := [scenario_completion 0 0],
     timer := fun conn => conn }]

/-- The loop state after the two iterations of `scenario_loop_envs`, started on the
sender of S1. -/
def scenario_loop_result : LoopState :=
  match main_loop scenario_ids 32 scenario_loop_envs
      { timeslice := 0, sender := S1_sender } with
  | .ok st => st
  | .error _ => { timeslice := 0, sender := S1_sender }

/-! ### Further notions for the properties of the sender -/

/-- The descriptor indices `desc_offset, ..., desc_offset + desc_length - 1` that
`try_send_timeslice` waits for and sends for `timeslice`. -/
def ts_desc_range (s : InputChannelSender) (timeslice : Nat) : List Nat :=
  List.range' (ts_desc_offset s timeslice) (ts_desc_length s)

/-- Along a run of completions, every `ID_RECEIVE_STATUS` completion is for a
connection that was not done before it: no connection reports done more than once. -/
def reports_done_once (ids : RequestIdentifier) (s : InputChannelSender) :
    List (InputBufferReadInterface × ComputeNodeStatusMessage × Nat) → Bool
  | [] => true
  | (data_source, recv_status, wr_id) :: rest =>
    (decide (wr_id &&& 0xFF ≠ ids.ID_RECEIVE_STATUS) ||
      (s.conn_[(wr_id >>> 8) % 2 ^ 32]?).all (fun c => !c.done)) &&
    match on_completion ids data_source recv_status s wr_id with
    | .error _ => true
    | .ok s1 => reports_done_once ids s1 rest

/-- A final status message of a compute node. -/
def scenario_final_status : ComputeNodeStatusMessage :=
  { ack := { desc := 0, data := 0 }, request_abort := false, final := true }

/-- The final status messages of connections 0 and 1, in this order: the `wr_id` of a
received status message is `(cn << 8) | ID_RECEIVE_STATUS`. -/
def scenario_final_completions :
    List (InputBufferReadInterface × ComputeNodeStatusMessage × Nat) :=
  [(scenario_data_source, scenario_final_status, (0 <<< 8) ||| scenario_ids.ID_RECEIVE_STATUS),
   (scenario_data_source, scenario_final_status, (1 <<< 8) ||| scenario_ids.ID_RECEIVE_STATUS)]

/-! ## `InputIntervalInfo`: the pacing of an interval

Time points of `std::chrono::high_resolution_clock` are counts of clock ticks (`Int`);
`ticks_per_us` is the number of ticks in a microsecond (the period of the clock is
implementation defined). The arithmetic of the clock itself is exact: signed overflow
of time points is undefined in C++ and outside the model. Every call of
`high_resolution_clock::now()` is an input. -/

/-- The conversion of a `uint64_t` value to `int64_t` (two's complement). -/
def to_int64 (x : Nat) : Int :=
  if x % UINT64_MOD < 2 ^ 63 then ((x % UINT64_MOD : Nat) : Int)
  else ((x % UINT64_MOD : Nat) : Int) - 2 ^ 64

/-- The conversion of an `int64_t` value to `uint64_t`. -/
def u64_of_int (x : Int) : Nat := (x % 2 ^ 64).toNat

/-- The count of `std::chrono::duration_cast<std::chrono::microseconds>(t1 - t0)`:
the ticks from `t0` to `t1` in whole microseconds, rounded towards zero. -/
def elapsed_microseconds (ticks_per_us : Nat) (t0 t1 : Int) : Int :=
  Int.tdiv (t1 - t0) (ticks_per_us : Int)

/-- The struct `InputIntervalInfo`; the last three fields are its private members. -/
structure InputIntervalInfo where
  index : Nat
  start_ts : Nat
  end_ts : Nat
  proposed_start_time : Int
  proposed_duration : Nat
  actual_start_time : Int
  actual_duration : Nat
  count_sent_ts : Nat
  count_acked_ts : Nat
  count_rounds : Nat
  cb_blocked : Bool
  cb_blocked_start_time : Int
  cb_blocked_duration : Nat
  ib_blocked : Bool
  ib_blocked_start_time : Int
  ib_blocked_duration : Nat
  duration_per_ts : Nat
  duration_per_round : Nat
  num_ts_per_round : Nat
deriving DecidableEq, Repr

/-- The expression `end_ts - start_ts + 1` in `uint64_t`. -/
def InputIntervalInfo.interval_length (info : InputIntervalInfo) : Nat :=
  u64_add (u64_sub info.end_ts info.start_ts) 1

/-- The function `InputIntervalInfo::init_statistical_variables`.
`SCHEDULER_INTERVAL_LENGTH` stands for `ConstVariables::SCHEDULER_INTERVAL_LENGTH`,
which `ConstVariables.hpp` does not define. -/
def InputIntervalInfo.init_statistical_variables (SCHEDULER_INTERVAL_LENGTH : Nat)
    (info : InputIntervalInfo) : Except Fault InputIntervalInfo :=
  if info.duration_per_ts = 0 ∨ info.duration_per_round = 0 then
    if info.interval_length = 0 ∨ SCHEDULER_INTERVAL_LENGTH = 0 then .error .division_by_zero
    else
      .ok { info with
        duration_per_ts := info.proposed_duration / info.interval_length,
        duration_per_round := info.proposed_duration / SCHEDULER_INTERVAL_LENGTH,
        num_ts_per_round := info.interval_length / SCHEDULER_INTERVAL_LENGTH }
  else .ok info

/-- The function `InputIntervalInfo::get_expected_sent_ts`, at clock reading `now`. -/
def InputIntervalInfo.get_expected_sent_ts (ticks_per_us : Nat) (now : Int)
    (info : InputIntervalInfo) : Nat :=
  if info.duration_per_ts = 0 then info.interval_length
  else
    u64_of_int (elapsed_microseconds ticks_per_us info.actual_start_time now) /
      info.duration_per_ts

/-- The function `InputIntervalInfo::get_duration_to_next_round`: the value returned
and the struct after the call. `ack_percentage_reached` is the value of
`is_ack_percentage_reached()`, a comparison of `double`s that reads `count_acked_ts`,
`start_ts`, `end_ts` only; `now_deadline` is the clock reading of the deadline test
(taken when the ack percentage is not reached), `now_elapsed` the one of
`get_expected_sent_ts`. -/
def InputIntervalInfo.get_duration_to_next_round (SCHEDULER_INTERVAL_LENGTH : Nat)
    (ticks_per_us : Nat) (ack_percentage_reached : Bool) (now_deadline now_elapsed : Int)
    (info : InputIntervalInfo) : Except Fault (Nat × InputIntervalInfo) :=
  match info.init_statistical_variables SCHEDULER_INTERVAL_LENGTH with
  | .error e => .error e
  | .ok info1 =>
    if info1.duration_per_ts = 0 then .ok (0, info1)
    -- If the proposed finish time is reached, send as fast as possible.
    else if ack_percentage_reached = false ∧
        info1.proposed_start_time +
          to_int64 info1.proposed_duration * (ticks_per_us : Int) < now_deadline then
      .ok (0, info1)
    else
      let expected_sent_ts := info1.get_expected_sent_ts ticks_per_us now_elapsed
      if expected_sent_ts = info1.count_sent_ts then
        -- on the schedule as expected
        .ok (info1.duration_per_round, info1)
      else if expected_sent_ts < info1.count_sent_ts then
        -- sending faster than proposed
        .ok (u64_add info1.duration_per_round
              (u64_mul (u64_sub (u64_sub info1.count_sent_ts expected_sent_ts) 1)
                info1.duration_per_ts), info1)
      else if u64_sub expected_sent_ts info1.count_sent_ts ≥ info1.num_ts_per_round then
        -- scheduler is at one round behind
        .ok (0, info1)
      else
        let duration : Int := to_int64 (u64_sub info1.duration_per_round
          (u64_mul (u64_sub expected_sent_ts info1.count_sent_ts) info1.duration_per_ts))
        if duration ≥ 0 then .ok (u64_of_int duration, info1)
        else .error .assertion_failed

/-- An interval of 100 timeslices (0 to 99) proposed to take 1000000 microseconds from
time 0 on, started at time 0, of which `count_sent` timeslices are sent; nothing is
cached in the private members. -/
def scenario_interval (count_sent : Nat) : InputIntervalInfo :=
  { index := 0, start_ts := 0, end_ts := 99,
    proposed_start_time := 0, proposed_duration := 1000000,
    actual_start_time := 0, actual_duration := 0,
    count_sent_ts := count_sent, count_acked_ts := 0, count_rounds := 0,
    cb_blocked := false, cb_blocked_start_time := 0, cb_blocked_duration := 0,
    ib_blocked := false, ib_blocked_start_time := 0, ib_blocked_duration := 0,
    duration_per_ts := 0, duration_per_round := 0, num_ts_per_round := 0 }

/-- The function `InputIntervalInfo::get_current_round_index`, at clock reading `now`:
the value returned and the struct after the call. -/
def InputIntervalInfo.get_current_round_index (SCHEDULER_INTERVAL_LENGTH : Nat)
    (ticks_per_us : Nat) (now : Int) (info : InputIntervalInfo) :
    Except Fault (Nat × InputIntervalInfo) :=
  match info.init_statistical_variables SCHEDULER_INTERVAL_LENGTH with
  | .error e => .error e
  | .ok info1 =>
    let expected_sent_ts := info1.get_expected_sent_ts ticks_per_us now
    if info1.num_ts_per_round = 0 then .error .division_by_zero
    else .ok (expected_sent_ts / info1.num_ts_per_round, info1)

/-- The function `InputIntervalInfo::is_ts_within_current_round`. -/
def InputIntervalInfo.is_ts_within_current_round (SCHEDULER_INTERVAL_LENGTH : Nat)
    (ticks_per_us : Nat) (now : Int) (info : InputIntervalInfo) (ts : Nat) :
    Except Fault (Bool × InputIntervalInfo) :=
  match info.get_current_round_index SCHEDULER_INTERVAL_LENGTH ticks_per_us now with
  | .error e => .error e
  | .ok (round_index, info1) =>
    .ok (decide (ts ≤ u64_add (u64_add (u64_mul round_index info1.num_ts_per_round)
              info1.num_ts_per_round) info1.start_ts) &&
          decide (ts ≤ info1.end_ts), info1)

/-- The function `InputIntervalInfo::is_interval_sent_completed`. -/
def InputIntervalInfo.is_interval_sent_completed (info : InputIntervalInfo) : Bool :=
  decide (info.count_sent_ts = info.interval_length)

/-- The function `InputIntervalInfo::is_interval_sent_ack_completed`;
`ack_percentage_reached` is the value of `is_ack_percentage_reached()`. -/
def InputIntervalInfo.is_interval_sent_ack_completed (info : InputIntervalInfo)
    (ack_percentage_reached : Bool) : Bool :=
  info.is_interval_sent_completed && ack_percentage_reached

/-- An interval of 5 timeslices (0 to 4) proposed to take 1000000 microseconds,
nothing cached in the private members. -/
def scenario_short_interval : InputIntervalInfo :=
  { index := 0, start_ts := 0, end_ts := 4,
    proposed_start_time := 0, proposed_duration := 1000000,
    actual_start_time := 0, actual_duration := 0,
    count_sent_ts := 0, count_acked_ts := 0, count_rounds := 0,
    cb_blocked := false, cb_blocked_start_time := 0, cb_blocked_duration := 0,
    ib_blocked := false, ib_blocked_start_time := 0, ib_blocked_duration := 0,
    duration_per_ts := 0, duration_per_round := 0, num_ts_per_round := 0 }

/-- The descriptors a list of descriptor segments reads from a ring, in order; a
segment of `iov_len` bytes holds `iov_len / sizeof_MD` descriptors. -/
def gathered_descriptors (sizeof_MD : Nat) (r : RingBuffer MicrosliceDescriptor) :
    List iovec → List MicrosliceDescriptor
  | [] => []
  | g :: rest =>
    (List.range' g.iov_base (g.iov_len / sizeof_MD)).map r.buf ++
      gathered_descriptors sizeof_MD r rest

/-- The struct `InputChannelSender::SendBufferStatus`; `time` is a time point of
`std::chrono::system_clock` in ticks. -/
structure SendBufferStatus where
  time : Int
  size : Nat
  cached_acked : Nat
  acked : Nat
  sent : Nat
  written : Nat
deriving DecidableEq, Repr

/-- The function `SendBufferStatus::sending`. -/
def SendBufferStatus.sending (st : SendBufferStatus) : Except Fault Int :=
  if st.acked ≤ st.sent then .ok (to_int64 (u64_sub st.sent st.acked))
  else .error .assertion_failed

/-- The function `SendBufferStatus::freeing`. -/
def SendBufferStatus.freeing (st : SendBufferStatus) : Except Fault Int :=
  if st.cached_acked ≤ st.acked then .ok (to_int64 (u64_sub st.acked st.cached_acked))
  else .error .assertion_failed

/-- The two statuses `status_desc`, `status_data` that
`InputChannelSender::report_status` builds at clock reading `now`; the rest of the
function logs them. -/
def report_status (data_source : InputBufferReadInterface) (s : InputChannelSender)
    (now : Int) : SendBufferStatus × SendBufferStatus :=
  -- if data_source.written pointers are lagging behind due to lazy updates,
  -- use sent value instead
  let written_desc :=
    if data_source.write_index.desc < s.sent_desc_ then s.sent_desc_
    else data_source.write_index.desc
  let written_data :=
    if data_source.write_index.data < s.sent_data_ then s.sent_data_
    else data_source.write_index.data
  ({ time := now, size := data_source.desc_buffer.size, cached_acked := s.cached_acked_desc_,
     acked := s.acked_desc_, sent := s.sent_desc_, written := written_desc },
   { time := now, size := data_source.data_buffer.size, cached_acked := s.cached_acked_data_,
     acked := s.acked_data_, sent := s.sent_data_, written := written_data })

/-- The ways a call of the scheduler can end without a result. -/
inductive SchedulerFault where
  | index_out_of_range
  | key_not_found
  | division_by_zero
  | assertion_failed
  | no_return
deriving DecidableEq, Repr

/-- The constant `MINUS_ONE` of `ConstVariables.hpp`: `-1` as `uint64_t`. -/
def MINUS_ONE : Nat := UINT64_MOD - 1

/-- Modelled from the spec: `SizedMap.hpp` is not among the sources. An ordered
key-to-value map of bounded capacity (component B): `map_` holds the entries by
increasing key, `MAX_MAP_SIZE_` is the capacity. -/
structure SizedMap (V : Type) where
  MAX_MAP_SIZE_ : Nat
  map_ : List (Nat × V)
deriving Repr

/-- Modelled from the spec: the empty map of capacity `max_map_size`. -/
def SizedMap.empty {V : Type} (max_map_size : Nat) : SizedMap V :=
  { MAX_MAP_SIZE_ := max_map_size, map_ := [] }

/-- Modelled from the spec: `get(key)`, the value of `key` if it has one. -/
def SizedMap.get {V : Type} (m : SizedMap V) (key : Nat) : Option V :=
  (m.map_.find? (fun e => e.1 == key)).map Prod.snd

/-- Modelled from the spec: `contains(key)`. -/
def SizedMap.contains {V : Type} (m : SizedMap V) (key : Nat) : Bool :=
  (m.get key).isSome

/-- Modelled from the spec: `size()`. -/
def SizedMap.size {V : Type} (m : SizedMap V) : Nat := m.map_.length

/-- Insertion of a new key into a list of entries ordered by key. -/
def SizedMap.insert_ordered {V : Type} (key : Nat) (val : V) :
    List (Nat × V) → List (Nat × V)
  | [] => [(key, val)]
  | e :: rest =>
    if key < e.1 then (key, val) :: e :: rest
    else e :: SizedMap.insert_ordered key val rest

/-- Modelled from the spec: `add(key, val)`: nothing happens when the key is there;
otherwise the entry is inserted, after the eviction of the first entry when the map
is at its capacity. -/
def SizedMap.add {V : Type} (m : SizedMap V) (key : Nat) (val : V) : SizedMap V :=
  if m.contains key then m
  else
    { m with
      map_ := SizedMap.insert_ordered key val
        (if m.map_.length = m.MAX_MAP_SIZE_ then m.map_.tail else m.map_) }

/-- Modelled from the spec: `update(key, val)`: the value of an existing key is
replaced. -/
def SizedMap.update {V : Type} (m : SizedMap V) (key : Nat) (val : V) : SizedMap V :=
  { m with map_ := m.map_.map (fun e => if e.1 = key then (e.1, val) else e) }

/-- Modelled from the spec: `get_last_key()`, the greatest key. -/
def SizedMap.get_last_key {V : Type} (m : SizedMap V) : Option Nat :=
  m.map_.getLast?.map Prod.fst

/-- Modelled from the spec: `InputSchedulerData.hpp` is not among the sources. What
the scheduler keeps per input node, as far as `TimesliceScheduler` uses it: the time
of the MPI barrier, the clock offset in microseconds, the sent time and the duration
of each contribution, the least duration reported (`MINUS_ONE` when there is none). -/
structure InputSchedulerData where
  MPI_Barrier_time : Int
  clock_offset : Int
  ts_sent_info_ : SizedMap (Int × Nat)
  min_duration : Nat
deriving Repr

/-- Modelled from the spec: a fresh `InputSchedulerData()`; `history_size` is the
capacity of `ts_sent_info_`. -/
def InputSchedulerData.init (history_size : Nat) : InputSchedulerData :=
  { MPI_Barrier_time := 0, clock_offset := 0, ts_sent_info_ := SizedMap.empty history_size,
    min_duration := MINUS_ONE }

/-- The struct `TimesliceScheduler::TimeSchedulerStatsData`. -/
structure TimeSchedulerStatsData where
  mean : Nat
  median : Nat
  variance : Nat
deriving DecidableEq, Repr

/-- A finite `double`: the number `mantissa * 2 ^ exponent`. The range of the exponent
(overflow to infinity, subnormal numbers) is not modelled. -/
structure Double where
  mantissa : Int
  exponent : Int
deriving DecidableEq, Repr

/-- Rounding of `m * 2 ^ e` to the 53 significant bits of a `double`, to nearest, ties
to even. -/
def Double.round (m e : Int) : Double :=
  if m.natAbs < 2 ^ 53 then { mantissa := m, exponent := e }
  else
    let k := Nat.log2 m.natAbs - 52
    let q := m.natAbs / 2 ^ k
    let r := m.natAbs % 2 ^ k
    let q1 := if 2 ^ (k - 1) < r ∨ (r = 2 ^ (k - 1) ∧ q % 2 = 1) then q + 1 else q
    { mantissa := m.sign * (q1 : Int), exponent := e + (k : Int) }

/-- The conversion of a `uint64_t` to `double`. -/
def Double.of_u64 (x : Nat) : Double := Double.round (x : Int) 0

/-- The product of two `double`s. -/
def Double.mul (x y : Double) : Double :=
  Double.round (x.mantissa * y.mantissa) (x.exponent + y.exponent)

/-- The sum of two `double`s. -/
def Double.add (x y : Double) : Double :=
  let e := min x.exponent y.exponent
  Double.round (x.mantissa * 2 ^ (x.exponent - e).toNat +
    y.mantissa * 2 ^ (y.exponent - e).toNat) e

/-- The comparison `x < y` of two `double`s. -/
def Double.lt (x y : Double) : Bool :=
  let e := min x.exponent y.exponent
  decide (x.mantissa * 2 ^ (x.exponent - e).toNat < y.mantissa * 2 ^ (y.exponent - e).toNat)

/-- The conversion of a `double` to `uint64_t`: the fraction is discarded; there is no
result when the value is outside the type (undefined behaviour in C++). -/
def Double.to_u64 (x : Double) : Option Nat :=
  let t : Int :=
    if 0 ≤ x.exponent then x.mantissa * 2 ^ x.exponent.toNat
    else Int.tdiv x.mantissa (2 ^ (-x.exponent).toNat)
  if 0 ≤ t ∧ t < 2 ^ 64 then some t.toNat else none

/-- The `double` literal `0.1`. -/
def Double.tenth : Double := { mantissa := 7205759403792794, exponent := -56 }

/-- The `double` literal `-0.1`. -/
def Double.minus_tenth : Double := { mantissa := -7205759403792794, exponent := -56 }

/-- The `double` zero. -/
def Double.zero : Double := { mantissa := 0, exponent := 0 }

/-- The class `TimesliceScheduler`. The maps `proposed_actual_times_log_`,
`durations_log_` and `proposed_times_log_`, which are written for the log files only,
are left out; `interval_duration_log_` is a `std::map` from the interval index to
the pair (taken duration, proposed duration), here a list of entries. -/
structure TimesliceScheduler where
  MAX_DURATION_HISTORY : Nat
  INTERVAL_LENGTH : Nat
  compute_index_ : Nat
  compute_MPI_time_ : Int
  input_node_count_ : Nat
  sender_info_ : List InputSchedulerData
  ts_duration_ : SizedMap Nat
  ts_duration_stats_ : SizedMap TimeSchedulerStatsData
  acked_ts_count_ : SizedMap Nat
  theta_percentage_ : Double
  alpha_percentage_ : List Double
  completed_ts_ : Bool
  min_interval_duration_ : Nat
  min_ts_duration_ : Nat
  interval_duration_log_ : List (Nat × (Nat × Nat))
deriving Repr

/-- The constructor `TimesliceScheduler::TimesliceScheduler` with the default member
initialisers; `SCHEDULER_INTERVAL_LENGTH` stands for the constant of that name, which
`ConstVariables.hpp` does not define, and `history_size` for the capacity of the map
of a fresh `InputSchedulerData`. -/
def TimesliceScheduler.init (SCHEDULER_INTERVAL_LENGTH history_size : Nat)
    (compute_index input_node_count interval_length : Nat) : TimesliceScheduler :=
  { MAX_DURATION_HISTORY := 100,
    INTERVAL_LENGTH := interval_length,
    compute_index_ := compute_index,
    compute_MPI_time_ := 0,
    input_node_count_ := input_node_count,
    sender_info_ := List.replicate input_node_count (InputSchedulerData.init history_size),
    ts_duration_ := SizedMap.empty 100,
    ts_duration_stats_ := SizedMap.empty SCHEDULER_INTERVAL_LENGTH,
    acked_ts_count_ := SizedMap.empty 100,
    theta_percentage_ := Double.zero,
    alpha_percentage_ := List.replicate input_node_count Double.zero,
    completed_ts_ := false,
    min_interval_duration_ := MINUS_ONE,
    min_ts_duration_ := MINUS_ONE,
    interval_duration_log_ := [] }

/-- The loop of `calculate_total_ts_duration`: the sum over the inputs
`i, i + 1, ...` of the duration each reported for `timeslice`, in `uint64_t`. -/
def total_duration_loop (timeslice : Nat) :
    List InputSchedulerData → Nat → Except SchedulerFault Nat
  | [], total_duration => .ok total_duration
  | d :: rest, total_duration =>
    match d.ts_sent_info_.get timeslice with
    | none => .error .key_not_found
    | some p => total_duration_loop timeslice rest (u64_add total_duration p.2)

/-- The function `TimesliceScheduler::calculate_total_ts_duration`. -/
def TimesliceScheduler.calculate_total_ts_duration (s : TimesliceScheduler)
    (timeslice : Nat) : Except SchedulerFault TimesliceScheduler :=
  match total_duration_loop timeslice (s.sender_info_.take s.input_node_count_) 0 with
  | .error e => .error e
  | .ok total_duration =>
    if s.sender_info_.length < s.input_node_count_ then .error .index_out_of_range
    else
      .ok { s with
        ts_duration_ := s.ts_duration_.add timeslice total_duration,
        min_ts_duration_ :=
          if s.min_ts_duration_ = MINUS_ONE ∨ total_duration < s.min_ts_duration_ then
            total_duration
          else s.min_ts_duration_,
        completed_ts_ := true }

/-- The function `TimesliceScheduler::increament_acked_ts`; the counter is a
`uint32_t`. -/
def TimesliceScheduler.increament_acked_ts (s : TimesliceScheduler) (timeslice : Nat) :
    Except SchedulerFault TimesliceScheduler :=
  let count : Nat :=
    match s.acked_ts_count_.get timeslice with
    | some c => (c + 1) % 2 ^ 32
    | none => 1
  let s1 : TimesliceScheduler :=
    { s with
      acked_ts_count_ :=
        if s.acked_ts_count_.contains timeslice then s.acked_ts_count_.update timeslice count
        else s.acked_ts_count_.add timeslice count }
  if count = s.input_node_count_ then s1.calculate_total_ts_duration timeslice
  else .ok s1

/-- The function `TimesliceScheduler::add_input_ts_info` without its logging block;
`sent_time` is a time point in ticks, `proposed_time` is only logged. -/
def TimesliceScheduler.add_input_ts_info (s : TimesliceScheduler)
    (input_index timeslice : Nat) (sent_time : Int) (duration : Double) :
    Except SchedulerFault TimesliceScheduler :=
  match s.sender_info_[input_index]? with
  | none => .error .index_out_of_range
  | some d =>
    if d.ts_sent_info_.contains timeslice then .ok s
    else
      match duration.to_u64 with
      | none => .error .assertion_failed
      | some stored =>
        let d1 : InputSchedulerData :=
          { d with
            ts_sent_info_ := d.ts_sent_info_.add timeslice (sent_time, stored),
            min_duration :=
              if d.min_duration = MINUS_ONE ∨ duration.lt (Double.of_u64 d.min_duration) then
                stored
              else d.min_duration }
        TimesliceScheduler.increament_acked_ts
          { s with sender_info_ := s.sender_info_.set input_index d1 } timeslice

/-- The function `TimesliceScheduler::get_last_complete_ts`. -/
def TimesliceScheduler.get_last_complete_ts (s : TimesliceScheduler) : Nat :=
  match s.ts_duration_.get_last_key with
  | none => MINUS_ONE
  | some key => key

/-- A sequence of calls of `add_input_ts_info`, each with its input index, timeslice,
sent time and duration. -/
def TimesliceScheduler.add_input_ts_infos (s : TimesliceScheduler) :
    List (Nat × Nat × Int × Double) → Except SchedulerFault TimesliceScheduler
  | [] => .ok s
  | (input_index, timeslice, sent_time, duration) :: rest =>
    match s.add_input_ts_info input_index timeslice sent_time duration with
    | .error e => .error e
    | .ok s1 => s1.add_input_ts_infos rest

/-! ### Specification vocabulary for the history of contributions

A contribution is a call of `add_input_ts_info` as it is stored: the input index, the
timeslice, the sent time and the duration in whole microseconds. -/

/-- Input `i` has contributed timeslice `T` in the calls `evs`. -/
def contributed (evs : List (Nat × Nat × Int × Nat)) (i T : Nat) : Bool :=
  evs.any (fun e => e.1 == i && e.2.1 == T)

/-- The duration input `i` reported for timeslice `T` in its first contribution of `T`
among the calls `evs` (0 if there is none). -/
def reported_duration (evs : List (Nat × Nat × Int × Nat)) (i T : Nat) : Nat :=
  match evs.find? (fun e => e.1 == i && e.2.1 == T) with
  | some e => e.2.2.2
  | none => 0

/-- The number of inputs among `0, ..., N - 1` that have contributed timeslice `T`. -/
def contributors (evs : List (Nat × Nat × Int × Nat)) (N T : Nat) : Nat :=
  (List.range N).countP (fun i => contributed evs i T)

/-- The sum of the durations the `N` inputs reported for timeslice `T`, in
`uint64_t`. -/
def total_reported (evs : List (Nat × Nat × Int × Nat)) (N T : Nat) : Nat :=
  ((List.range N).map (fun i => reported_duration evs i T)).sum % UINT64_MOD

/-- The arguments of the calls of `add_input_ts_info` for a list of contributions. -/
def contribution_calls (evs : List (Nat × Nat × Int × Nat)) :
    List (Nat × Nat × Int × Double) :=
  evs.map (fun e => (e.1, e.2.1, e.2.2.1, Double.of_u64 e.2.2.2))

/-- What the calls of `add_input_ts_info` maintain, after the contributions `evs` to a
scheduler of `N` inputs whose timeslices are among `all_ts`: every input's map holds
the contributions of that input, `acked_ts_count_` counts the contributors of each
timeslice, `ts_duration_` holds the total of each timeslice that all `N` inputs have
contributed, and the keys of the maps are distinct timeslices of `all_ts`. -/
structure HistoryInv (N history_size : Nat) (all_ts : List Nat)
    (evs : List (Nat × Nat × Int × Nat)) (s : TimesliceScheduler) : Prop where
  count_eq : s.input_node_count_ = N
  len : s.sender_info_.length = N
  sent : ∀ (i : Nat) (d : InputSchedulerData) (T : Nat), s.sender_info_[i]? = some d →
    (d.ts_sent_info_.get T).map Prod.snd =
      if contributed evs i T then some (reported_duration evs i T) else none
  sent_keys : ∀ (i : Nat) (d : InputSchedulerData), s.sender_info_[i]? = some d →
    (d.ts_sent_info_.map_.map Prod.fst).Nodup ∧
    (∀ k ∈ d.ts_sent_info_.map_.map Prod.fst, k ∈ all_ts) ∧
    d.ts_sent_info_.MAX_MAP_SIZE_ = history_size
  acked : ∀ T, s.acked_ts_count_.get T =
    if contributors evs N T = 0 then none else some (contributors evs N T)
  acked_keys : (s.acked_ts_count_.map_.map Prod.fst).Nodup ∧
    (∀ k ∈ s.acked_ts_count_.map_.map Prod.fst, k ∈ all_ts) ∧
    s.acked_ts_count_.MAX_MAP_SIZE_ = 100
  complete : ∀ T, s.ts_duration_.get T =
    if contributors evs N T = N then some (total_reported evs N T) else none
  complete_keys : (s.ts_duration_.map_.map Prod.fst).Nodup ∧
    (∀ k ∈ s.ts_duration_.map_.map Prod.fst, k ∈ all_ts) ∧
    s.ts_duration_.MAX_MAP_SIZE_ = 100

/-- Three contributions to a scheduler of two inputs: both inputs contribute timeslice
7, then input 0 repeats its contribution with another duration. -/
def scenario_contributions : List (Nat × Nat × Int × Nat) :=
  [(0, 7, 1000, 30), (1, 7, 1100, 50), (0, 7, 1000, 99)]

/-- The local `last_input_node` of `get_sent_time` and `get_next_interval_sent_time`:
`(compute_index_ - 1) % input_node_count_`, computed in `uint64_t` and stored in a
`uint32_t`. -/
def TimesliceScheduler.last_input_node (s : TimesliceScheduler) :
    Except SchedulerFault Nat :=
  if s.input_node_count_ = 0 then .error .division_by_zero
  else .ok ((u64_sub s.compute_index_ 1 % s.input_node_count_) % 2 ^ 32)

/-- The loop `for (uint32_t i = ...; i != input_index; i = ((i+1) % input_node_count_))
sum_needed_duration += sender_info_[i].min_duration` of `get_sent_time` and
`get_next_interval_sent_time`, from the index `i` and the sum `sum_needed_duration`
on. The fuel counts the tests of `i != input_index`. -/
def TimesliceScheduler.gap_loop (s : TimesliceScheduler) (input_index : Nat) :
    Nat → Nat → Nat → Except SchedulerFault Nat
  | 0, _, _ => .error .no_return
  | fuel + 1, i, sum_needed_duration =>
    if i = input_index then .ok sum_needed_duration
    else
      match s.sender_info_[i]? with
      | none => .error .index_out_of_range
      | some d =>
        if s.input_node_count_ = 0 then .error .division_by_zero
        else
          TimesliceScheduler.gap_loop s input_index fuel
            (((i + 1) % 2 ^ 32) % s.input_node_count_)
            (u64_add sum_needed_duration d.min_duration)

/-- The local `sum_needed_duration` of `get_sent_time` and
`get_next_interval_sent_time` after the loop and after
`sum_needed_duration += (sum_needed_duration * alpha_percentage_[input_index])`. The
loop starts at `compute_index_` as a `uint32_t`; after its first step `i` runs
through `0, ..., input_node_count_ - 1` cyclically, so `input_node_count_ + 1` tests
decide whether it ever ends. -/
def TimesliceScheduler.sum_needed_duration (s : TimesliceScheduler) (input_index : Nat) :
    Except SchedulerFault Nat :=
  match s.gap_loop input_index (s.input_node_count_ + 1) (s.compute_index_ % 2 ^ 32) 0 with
  | .error e => .error e
  | .ok sum_needed_duration =>
    match s.alpha_percentage_[input_index]? with
    | none => .error .index_out_of_range
    | some alpha =>
      match (Double.add (Double.of_u64 sum_needed_duration)
          (Double.mul (Double.of_u64 sum_needed_duration) alpha)).to_u64 with
      | none => .error .assertion_failed
      | some scaled => .ok scaled

/-- The function `TimesliceScheduler::get_timeslice_interval`; the product and the
result are `uint32_t`. -/
def TimesliceScheduler.get_timeslice_interval (s : TimesliceScheduler) (timeslice : Nat) :
    Except SchedulerFault Nat :=
  if (s.INTERVAL_LENGTH * s.input_node_count_) % 2 ^ 32 = 0 then .error .division_by_zero
  else .ok ((timeslice / ((s.INTERVAL_LENGTH * s.input_node_count_) % 2 ^ 32)) % 2 ^ 32)

/-- The function `TimesliceScheduler::calculate_stats_data`: the statistics and the
scheduler after the call. The iterator walks from the entry of `timeslice` towards
the beginning of `ts_duration_`; `SCHEDULER_INTERVAL_LENGTH` stands for the constant
of that name. The caller has checked that `timeslice` is in `ts_duration_`. -/
def TimesliceScheduler.calculate_stats_data (SCHEDULER_INTERVAL_LENGTH : Nat)
    (s : TimesliceScheduler) (timeslice : Nat) :
    Except SchedulerFault (TimeSchedulerStatsData × TimesliceScheduler) :=
  match s.ts_duration_stats_.get timeslice with
  | some stats => .ok (stats, s)
  | none =>
    if s.ts_duration_.contains timeslice = false then .error .key_not_found
    else
      -- get values of up to an interval and calculate the sum
      let values : List Nat :=
        (((s.ts_duration_.map_.filter (fun e => e.1 ≤ timeslice)).reverse).map
          Prod.snd).take SCHEDULER_INTERVAL_LENGTH
      let sum : Nat := values.foldl u64_add 0
      let sorted := values.insertionSort (fun a b => a ≤ b)
      if sorted.length = 0 then .error .division_by_zero
      else
        let mean := sum / sorted.length
        let median := sorted.getD (sorted.length / 2) 0
        -- calculate variance
        let variance := (sorted.foldl (fun v x => u64_add v (u64_sub x mean)) 0) / sorted.length
        let stats : TimeSchedulerStatsData :=
          { mean := mean, median := median, variance := variance }
        .ok (stats, { s with ts_duration_stats_ := s.ts_duration_stats_.add timeslice stats })

/-- The function `TimesliceScheduler::get_variance_ts_duration`. -/
def TimesliceScheduler.get_variance_ts_duration (SCHEDULER_INTERVAL_LENGTH : Nat)
    (s : TimesliceScheduler) (timeslice : Nat) :
    Except SchedulerFault (Nat × TimesliceScheduler) :=
  if s.ts_duration_.contains timeslice = false then .ok (MINUS_ONE, s)
  else
    match s.calculate_stats_data SCHEDULER_INTERVAL_LENGTH timeslice with
    | .error e => .error e
    | .ok (stats, s1) => .ok (stats.variance, s1)

/-- The variance in the words of the specification: the mean of the squared deviations
from the mean, in integer arithmetic. -/
def spec_variance (values : List Nat) : Nat :=
  let mean := values.sum / values.length
  (values.map (fun x => (x - mean) ^ 2 + (mean - x) ^ 2)).sum / values.length

/-- A scheduler of one input (`INTERVAL_LENGTH = 1`) after the contributions of
timeslices 0 and 1 with durations 1 and 3: both timeslices are complete. -/
def scenario_two_durations : TimesliceScheduler :=
  match (TimesliceScheduler.init 10 100 0 1 1).add_input_ts_infos
      (contribution_calls [(0, 0, 0, 1), (0, 1, 0, 3)]) with
  | .ok s => s
  | .error _ => TimesliceScheduler.init 10 100 0 1 1

/-- A scheduler of three inputs for compute node 0. -/
def scenario_three_inputs : TimesliceScheduler := TimesliceScheduler.init 10 100 0 3 5

/-- The lookup `interval_duration_log_.find(interval_index)`: the pair (taken duration,
proposed duration) logged for the interval, if any. -/
def TimesliceScheduler.find_interval_log (s : TimesliceScheduler) (interval_index : Nat) :
    Option (Nat × Nat) :=
  (s.interval_duration_log_.find? (fun e => e.1 == interval_index)).map Prod.snd

/-- The function `TimesliceScheduler::get_actual_interval_duration`: the duration and
the scheduler after the call. `interval_index`, `start_ts` and `last_ts` are
`uint32_t`. The loop walks the iterator of `ts_duration_` from the entry of `start_ts`
up to the entry of `last_ts`; when `last_ts` is before `start_ts` it never meets it. -/
def TimesliceScheduler.get_actual_interval_duration (s : TimesliceScheduler)
    (interval_index : Nat) : Except SchedulerFault (Nat × TimesliceScheduler) :=
  let interval_it := s.find_interval_log interval_index
  match interval_it.filter (fun p => p.1 != MINUS_ONE) with
  | some p => .ok (p.1, s)
  | none =>
    -- the first ts in this interval_index
    let start_ts :=
      (u64_add ((interval_index * ((s.INTERVAL_LENGTH * s.input_node_count_) % 2 ^ 32)) %
        2 ^ 32) s.compute_index_) % 2 ^ 32
    -- the last ts in this interval_index
    let last_ts := (start_ts + (s.INTERVAL_LENGTH * s.input_node_count_) % 2 ^ 32) % 2 ^ 32
    if s.ts_duration_.contains start_ts = false ∨ s.ts_duration_.contains last_ts = false then
      .ok (MINUS_ONE, s)
    else if last_ts < start_ts then .error .no_return
    else
      let sum : Nat :=
        ((s.ts_duration_.map_.filter (fun e => start_ts ≤ e.1 ∧ e.1 ≤ last_ts)).map
          Prod.snd).foldl u64_add 0
      .ok (sum,
        { s with
          interval_duration_log_ :=
            match interval_it with
            | none => s.interval_duration_log_ ++ [(interval_index, (sum, MINUS_ONE))]
            | some _ =>
              s.interval_duration_log_.map
                (fun e => if e.1 = interval_index then (e.1, (sum, e.2.2)) else e),
          min_interval_duration_ :=
            if s.min_interval_duration_ = MINUS_ONE ∨ sum < s.min_interval_duration_ then sum
            else s.min_interval_duration_ })

/-- The function `TimesliceScheduler::get_adjusted_theta`: the theta and the scheduler
after the call. The argument of `get_actual_interval_duration` is narrowed to
`uint32_t`. -/
def TimesliceScheduler.get_adjusted_theta (s : TimesliceScheduler)
    (current_interval_index : Nat) : Except SchedulerFault (Double × TimesliceScheduler) :=
  if current_interval_index ≤ 1 then .ok (Double.zero, s)
  else
    match s.get_actual_interval_duration (u64_sub current_interval_index 1 % 2 ^ 32) with
    | .error e => .error e
    | .ok (prev_interval_duration, s1) =>
      -- previous interval is incomplete
      if prev_interval_duration ≠ MINUS_ONE then .ok (Double.zero, s1)
      else
        match s1.get_actual_interval_duration (u64_sub current_interval_index 2 % 2 ^ 32) with
        | .error e => .error e
        | .ok (pre_prev_interval_duration, s2) =>
          if prev_interval_duration ≤ pre_prev_interval_duration then
            .ok (Double.minus_tenth, s2)
          else .ok (Double.tenth, s2)

/-- The function `TimesliceScheduler::get_adjusted_ts_duration`: the adjusted duration
and the scheduler after the call. The sum `d + (d * theta)` is computed in `double` and
converted back to `uint64_t`. -/
def TimesliceScheduler.get_adjusted_ts_duration (SCHEDULER_INTERVAL_LENGTH : Nat)
    (s : TimesliceScheduler) (timeslice : Nat) :
    Except SchedulerFault (Nat × TimesliceScheduler) :=
  if s.ts_duration_.contains timeslice = false then .ok (MINUS_ONE, s)
  else
    match s.get_timeslice_interval timeslice with
    | .error e => .error e
    | .ok interval =>
      let it := s.find_interval_log (interval + 1)
      match it.filter (fun p => p.2 != MINUS_ONE) with
      | some p => .ok (p.2, s)
      | none =>
        let base : Except SchedulerFault (Nat × TimesliceScheduler) :=
          if s.min_ts_duration_ = MINUS_ONE then
            match s.calculate_stats_data SCHEDULER_INTERVAL_LENGTH timeslice with
            | .error e => .error e
            | .ok (stats_data, s1) => .ok (stats_data.median, s1)
          else .ok (s.min_ts_duration_, s)
        match base with
        | .error e => .error e
        | .ok (d, s1) =>
          match s1.get_adjusted_theta interval with
          | .error e => .error e
          | .ok (theta, s2) =>
            match (Double.add (Double.of_u64 d) (Double.mul (Double.of_u64 d) theta)).to_u64 with
            | none => .error .assertion_failed
            | some adjusted_duration =>
              .ok (adjusted_duration,
                { s2 with
                  interval_duration_log_ :=
                    match it with
                    | none =>
                      s2.interval_duration_log_ ++
                        [(interval + 1, (MINUS_ONE, adjusted_duration))]
                    | some _ =>
                      s2.interval_duration_log_.map
                        (fun e =>
                          if e.1 = interval + 1 then (e.1, (e.2.1, adjusted_duration))
                          else e) })

/-- A scheduler of one input for compute node 0 (`INTERVAL_LENGTH = 1`) after the
contributions of timeslices 0, 1 and 2 with the durations 100, 100 and 50, so that
the intervals 0 (timeslices 0 to 1) and 1 (timeslices 1 to 2) are complete and the
interval 2 (timeslices 2 to 3) is not. -/
def scenario_three_durations : TimesliceScheduler :=
  match (TimesliceScheduler.init 10 100 0 1 1).add_input_ts_infos
      (contribution_calls [(0, 0, 0, 100), (0, 1, 0, 100), (0, 2, 0, 50)]) with
  | .ok s => s
  | .error _ => TimesliceScheduler.init 10 100 0 1 1

/-! ### The cursors of the sender along a run of the main loop -/

/-- A state of the main loop of `operator()`: the local variable `timeslice` (the
timeslices below it have been submitted), the sender, and the producer's descriptor
write index as the data source showed it last. -/
structure RunState where
  timeslice : Nat
  sender : InputChannelSender
  written : Nat

/-- The state in which the main loop starts: `timeslice = 0` and the sender as the
constructor builds it. -/
def RunState.init (data_source : InputBufferReadInterface)
    (timeslice_size overlap_size max_timeslice_number : Nat)
    (ack_size_exponent : Nat) (conn : List InputChannelConnection) : RunState :=
  { timeslice := 0,
    sender := InputChannelSender.init data_source timeslice_size overlap_size
      max_timeslice_number ack_size_exponent conn,
    written := 0 }

/-- The data source holds the descriptor stream between the read index published last
(`cached_acked_desc_`) and its write index: `desc_buffer().at(i)` is microslice `i` of
the stream for every such `i`. -/
def shows_stream (stream : Nat → MicrosliceDescriptor) (ds : InputBufferReadInterface)
    (s : InputChannelSender) : Prop :=
  ∀ i, s.cached_acked_desc_ ≤ i → i < ds.write_index.desc → ds.desc_buffer.at_ i = stream i

/-- One step of a run of the main loop on the descriptor stream `stream`. The data
source of each step shows the stream, and its write index is not behind the one seen
before. A step is: the call `try_send_timeslice(timeslice)` of the loop body, after
which `timeslice` is incremented if the call returned true; a write completion for a
timeslice that has been submitted, handled by `on_completion`; or any other completion
handled by `on_completion`. -/
inductive RunStep (ids : RequestIdentifier) (sizeof_MD : Nat)
    (stream : Nat → MicrosliceDescriptor) : RunState → RunState → Prop where
  | send (ds : InputBufferReadInterface) (st st' : RunState) (b : Bool)
      (h_loop : st.timeslice < st.sender.max_timeslice_number_)
      (h_producer : st.written ≤ ds.write_index.desc)
      (h_ring : shows_stream stream ds st.sender)
      (h : try_send_timeslice ids sizeof_MD ds st.sender st.timeslice = .ok (b, st'.sender))
      (h_timeslice :
        st'.timeslice = if b then (st.timeslice + 1) % UINT64_MOD else st.timeslice)
      (h_written : st'.written = ds.write_index.desc) :
      RunStep ids sizeof_MD stream st st'
  | write_completion (ds : InputBufferReadInterface) (msg : ComputeNodeStatusMessage)
      (st st' : RunState) (wr_id : Nat)
      (h_kind : wr_id &&& 0xFF = ids.ID_WRITE_DESC)
      (h_submitted : wr_id >>> 24 < st.timeslice)
      (h_producer : st.written ≤ ds.write_index.desc)
      (h_ring : shows_stream stream ds st.sender)
      (h : on_completion ids ds msg st.sender wr_id = .ok st'.sender)
      (h_timeslice : st'.timeslice = st.timeslice)
      (h_written : st'.written = ds.write_index.desc) :
      RunStep ids sizeof_MD stream st st'
  | other_completion (ds : InputBufferReadInterface) (msg : ComputeNodeStatusMessage)
      (st st' : RunState) (wr_id : Nat)
      (h_kind : wr_id &&& 0xFF ≠ ids.ID_WRITE_DESC)
      (h : on_completion ids ds msg st.sender wr_id = .ok st'.sender)
      (h_timeslice : st'.timeslice = st.timeslice)
      (h_written : st'.written = st.written) :
      RunStep ids sizeof_MD stream st st'

/-- What a run of the main loop maintains about the descriptor cursors: `acked_desc_`
is the beginning of a timeslice that is not after `timeslice`, `sent_desc_` is the end
of the last submitted timeslice, which the producer had written, and every non-zero
entry of the ack ring is a submitted timeslice in its own slot. -/
structure CursorInv (st : RunState) : Prop where
  tsz_pos : 1 ≤ st.sender.timeslice_size_
  h32 : st.sender.timeslice_size_ + st.sender.overlap_size_ < 2 ^ 32
  h64 : st.sender.max_timeslice_number_ * st.sender.timeslice_size_ +
    st.sender.overlap_size_ < UINT64_MOD
  ack_range : st.sender.max_timeslice_number_ + st.sender.ack_.size < UINT64_MOD
  le_max : st.timeslice ≤ st.sender.max_timeslice_number_
  acked : ∃ k, k ≤ st.timeslice ∧ st.sender.acked_desc_ = k * st.sender.timeslice_size_
  sent : (st.timeslice = 0 ∧ st.sender.sent_desc_ = 0) ∨
    (1 ≤ st.timeslice ∧ st.sender.sent_desc_ =
      st.timeslice * st.sender.timeslice_size_ + st.sender.overlap_size_)
  avail : st.sender.sent_desc_ ≤ st.sender.write_index_desc_
  seen : st.sender.write_index_desc_ ≤ st.written
  cached : st.sender.cached_acked_desc_ ≤ st.sender.acked_desc_
  slots : ∀ j, st.sender.ack_.buf j ≠ 0 →
    st.sender.ack_.buf j < st.timeslice ∧ st.sender.ack_.slot (st.sender.ack_.buf j) = j

/-- What a run of the main loop maintains about the data cursors on the stream
`stream`, when the overlap is at least one microslice and the microslices of the
timeslices below `max_timeslice_number_` end inside the 64-bit range. -/
structure DataInv (stream : Nat → MicrosliceDescriptor) (st : RunState) : Prop where
  ovl_pos : 1 ≤ st.sender.overlap_size_
  range : ∀ i, i < st.sender.max_timeslice_number_ * st.sender.timeslice_size_ +
    st.sender.overlap_size_ → (stream i).offset + (stream i).size < UINT64_MOD
  cached : st.sender.cached_acked_data_ ≤ st.sender.acked_data_
  acked : st.sender.acked_data_ ≤ st.sender.sent_data_
  acked_le : st.sender.acked_data_ ≤ (stream st.sender.acked_desc_).offset
  sent_eq : 1 ≤ st.timeslice →
    st.sender.sent_data_ =
      (stream (st.timeslice * st.sender.timeslice_size_ +
        st.sender.overlap_size_ - 1)).offset +
      (stream (st.timeslice * st.sender.timeslice_size_ +
        st.sender.overlap_size_ - 1)).size

/-- A descriptor stream with gaps: microslice `i` has 10 bytes at offset `50 * i`. -/
def gap_stream (i : Nat) : MicrosliceDescriptor := { offset := 50 * i, size := 10 }

/-- An input buffer with a descriptor ring of 16 slots that holds the first
microslices of `gap_stream`, three of them written. -/
def gap_source : InputBufferReadInterface :=
  { desc_buffer := { size_exponent := 4, buf := gap_stream },
    data_buffer := { size_exponent := 16, buf := fun j => j % 256 },
    desc_send_buffer := { size_exponent := 4, buf := gap_stream },
    data_send_buffer := { size_exponent := 16, buf := fun j => j % 256 },
    write_index := { desc := 3, data := 110 } }

/-- The start of a run on `gap_source`: timeslices of one microslice with the overlap
`overlap_size`, at most 10 timeslices, an ack ring of 4 slots, one connection. -/
def gap_init (overlap_size : Nat) : RunState :=
  RunState.init gap_source 1 overlap_size 10 2 [scenario_connection 0 0]

/-- The run on `gap_source` after `try_send_timeslice(0)`. -/
def gap_after_send (overlap_size : Nat) : RunState :=
  match try_send_timeslice scenario_ids 32 gap_source (gap_init overlap_size).sender 0 with
  | .ok (b, s) => { timeslice := if b then 1 else 0, sender := s, written := 3 }
  | .error _ => gap_init overlap_size

/-- The run on `gap_source` after the completion of the write of timeslice 0. -/
def gap_after_completion (overlap_size : Nat) : RunState :=
  match on_completion scenario_ids gap_source scenario_status
      (gap_after_send overlap_size).sender (write_desc_wr_id scenario_ids 0 0) with
  | .ok s => { gap_after_send overlap_size with sender := s }
  | .error _ => gap_after_send overlap_size

/-! ### The acknowledgement threshold of an interval -/

/-- The `double` literal `1.0`. -/
def Double.one : Double := { mantissa := 1, exponent := 0 }

/-- The `double` literal `0.7`: the `double` nearest to 7/10, which is
`6305039478318694 * 2 ^ -53`. -/
def Double.seven_tenths : Double := { mantissa := 6305039478318694, exponent := -53 }

/-- The quotient `x / y` of two `double`s, rounded to nearest, ties to even; there is no
finite result when `y` is zero. The quotient of the mantissas is computed with 128
more bits and a sticky bit for the remainder, which is enough for mantissas of at
most 64 bits. -/
def Double.div (x y : Double) : Option Double :=
  if y.mantissa = 0 then none
  else
    let n := x.mantissa.natAbs * 2 ^ 128
    let q := n / y.mantissa.natAbs
    let sticky := if n % y.mantissa.natAbs = 0 then 0 else 1
    some (Double.round (x.mantissa.sign * y.mantissa.sign * ((2 * q + sticky : Nat) : Int))
      (x.exponent - y.exponent - 129))

/-- The comparison `x <= y` of two `double`s. -/
def Double.le (x y : Double) : Bool :=
  let e := min x.exponent y.exponent
  decide (x.mantissa * 2 ^ (x.exponent - e).toNat ≤ y.mantissa * 2 ^ (y.exponent - e).toNat)

/-- The function `InputIntervalInfo::is_ack_percentage_reached`:
`(count_acked_ts*1.0)/((end_ts-start_ts+1)*1.0) >= 0.7`. When the divisor is zero the
quotient is an infinity, which is at least 0.7, unless `count_acked_ts` is zero too:
then it is not a number and the comparison is false. -/
def InputIntervalInfo.is_ack_percentage_reached (info : InputIntervalInfo) : Bool :=
  match Double.div (Double.mul (Double.of_u64 info.count_acked_ts) Double.one)
      (Double.mul (Double.of_u64 info.interval_length) Double.one) with
  | some ratio => Double.le Double.seven_tenths ratio
  | none => decide (info.count_acked_ts ≠ 0)

/-- The interval of `scenario_short_interval` after all its 5 timeslices have been
sent and `count_acked` of them acknowledged. -/
def scenario_acked_interval (count_acked : Nat) : InputIntervalInfo :=
  { scenario_short_interval with count_sent_ts := 5, count_acked_ts := count_acked }

/-! ### Scenarios at the ends of the integer ranges -/

/-- A sender whose `timeslice_size_ + overlap_size_` does not fit into `uint32_t`:
timeslices of 4294967295 microslices with an overlap of 2, one connection. -/
def scenario_wrap_sender : InputChannelSender :=
  InputChannelSender.init scenario_data_source 4294967295 2 1000 4 [scenario_connection 0 0]

/-- The scenario input buffer when the producer has written a single descriptor. -/
def scenario_wrap_source : InputBufferReadInterface :=
  { scenario_data_source with write_index := { desc := 1, data := 100 } }

/-- An input buffer with a descriptor ring of 4 slots in which the producer has written
three microslices of 100 bytes, at the offsets 100, 200 and 300; the fourth slot has
not been written yet. -/
def scenario_short_source : InputBufferReadInterface :=
  { desc_buffer :=
      { size_exponent := 2,
        buf := fun j => if j < 3 then { offset := 100 * (j + 1), size := 100 }
          else { offset := 0, size := 0 } },
    data_buffer := { size_exponent := 16, buf := fun j => j % 256 },
    desc_send_buffer :=
      { size_exponent := 2,
        buf := fun j => if j < 3 then { offset := 100 * (j + 1), size := 100 }
          else { offset := 0, size := 0 } },
    data_send_buffer := { size_exponent := 16, buf := fun j => j % 256 },
    write_index := { desc := 3, data := 400 } }

/-- The sender the constructor builds on `scenario_short_source`: timeslices of one
microslice without overlap, an ack ring of 4 slots, one connection. -/
def scenario_short_sender : InputChannelSender :=
  InputChannelSender.init scenario_short_source 1 0 1000 2 [scenario_connection 0 0]

/-- Three iterations of the main loop on `scenario_short_source`: iteration `T` sends
timeslice `T`, and the completion of its write arrives in the same iteration. -/
def scenario_short_envs : List LoopEnv :=
  [{ data_source := scenario_short_source,
     completions :=
       [(scenario_short_source, scenario_status, write_desc_wr_id scenario_ids 0 0)],
     timer := fun conn => conn },
   { data_source := scenario_short_source,
     completions :=
       [(scenario_short_source, scenario_status, write_desc_wr_id scenario_ids 1 0)],
     timer := fun conn => conn },
   { data_source := scenario_short_source,
     completions :=
       [(scenario_short_source, scenario_status, write_desc_wr_id scenario_ids 2 0)],
     timer := fun conn => conn }]

/-- An interval of `2^52` timeslices (0 to `2^52 - 1`), all of them sent and
3152519739159347 of them acknowledged. -/
def scenario_huge_interval : InputIntervalInfo :=
  { scenario_short_interval with
    end_ts := 4503599627370495,
    count_sent_ts := 4503599627370496,
    count_acked_ts := 3152519739159347 }

/-- The contributions as `add_input_ts_info` stores them: the duration of each call
converted to `uint64_t`, which discards its fraction (0 stands in when the `double`
is outside `uint64_t` and the conversion is undefined). -/
def stored_contributions (calls : List (Nat × Nat × Int × Double)) :
    List (Nat × Nat × Int × Nat) :=
  calls.map (fun c => (c.1, c.2.1, c.2.2.1, (c.2.2.2.to_u64).getD 0))

/-- Two inputs contribute timeslice 7, each with a duration of 1.5 microseconds. -/
def scenario_fractional_calls : List (Nat × Nat × Int × Double) :=
  [(0, 7, 1000, { mantissa := 3, exponent := -1 }),
   (1, 7, 1100, { mantissa := 3, exponent := -1 })]

/-- An input buffer with a descriptor ring of 8 slots in which the producer has written
`written` microslices of 100 bytes, at the offsets 100, 200, ...; the other slots have
not been written yet. -/
def scenario_lazy_source (written : Nat) : InputBufferReadInterface :=
  { desc_buffer :=
      { size_exponent := 3,
        buf := fun j => if j < written then { offset := 100 * (j + 1), size := 100 }
          else { offset := 0, size := 0 } },
    data_buffer := { size_exponent := 16, buf := fun j => j % 256 },
    desc_send_buffer :=
      { size_exponent := 3,
        buf := fun j => if j < written then { offset := 100 * (j + 1), size := 100 }
          else { offset := 0, size := 0 } },
    data_send_buffer := { size_exponent := 16, buf := fun j => j % 256 },
    write_index := { desc := written, data := 100 * (written + 1) } }

/-- The sender the constructor builds on `scenario_lazy_source`: timeslices of one
microslice without overlap, an ack ring of 16 slots, one connection; the read index
is published every second descriptor. -/
def scenario_lazy_sender : InputChannelSender :=
  InputChannelSender.init (scenario_lazy_source 3) 1 0 1000 4 [scenario_connection 0 0]

/-- An iteration of the main loop that sends `timeslice` when the producer has written
`written` microslices; the completion of the write arrives in the same iteration. -/
def scenario_lazy_env (written timeslice : Nat) : LoopEnv :=
  { data_source := scenario_lazy_source written,
    completions :=
      [(scenario_lazy_source written, scenario_status,
        write_desc_wr_id scenario_ids timeslice 0)],
    timer := fun conn => conn }

/-! ## Properties -/

theorem RingBuffer.slot_eq_mod {α : Type} (r : RingBuffer α) (n : Nat) :
    r.slot n = n % r.size := by
  simp [RingBuffer.slot, RingBuffer.size_mask, RingBuffer.size]

theorem RingBuffer.size_pos {α : Type} (r : RingBuffer α) : 0 < r.size := by
  simp [RingBuffer.size]

/-- Two numbers with the same residue that are less than the modulus apart are equal. -/
theorem eq_of_mod_eq_of_close {c x y : Nat} (h : x % c = y % c) (hxy : x ≤ y)
    (hlt : y < x + c) : x = y := by
  have h0 : (y - x) % c = 0 := Nat.sub_mod_eq_zero_of_mod_eq h.symm
  have hd : c ∣ y - x := Nat.dvd_of_mod_eq_zero h0
  by_contra hne
  have hpos : 0 < y - x := by omega
  have := Nat.le_of_dvd hpos hd
  omega

theorem first_missing_spec (done : List Nat) :
    ∀ fuel k, (∀ i, i < k → i ∈ done) →
      (∀ i, i < first_missing done fuel k → i ∈ done) ∧
      (first_missing done fuel k ∉ done ∨ first_missing done fuel k = k + fuel) := by
  intro fuel
  induction fuel with
  | zero => intro k hk; exact ⟨by simpa [first_missing] using hk, Or.inr (by simp [first_missing])⟩
  | succ fuel ih =>
    intro k hk
    by_cases hmem : k ∈ done
    · have hk1 : ∀ i, i < k + 1 → i ∈ done := by
        intro i hi
        rcases Nat.lt_succ_iff_lt_or_eq.mp hi with h | h
        · exact hk i h
        · exact h ▸ hmem
      have := ih (k + 1) hk1
      simp only [first_missing, hmem, if_true]
      refine ⟨this.1, ?_⟩
      rcases this.2 with h | h
      · exact Or.inl h
      · exact Or.inr (by omega)
    · have hfm : first_missing done (fuel + 1) k = k := by simp [first_missing, hmem]
      rw [hfm]
      exact ⟨hk, Or.inl hmem⟩

/-- The timeslices `0 .. n-1` cannot all be in a list of fewer than `n` elements. -/
theorem not_all_below_mem (done : List Nat) (n : Nat) (h : ∀ i, i < n → i ∈ done) :
    n ≤ done.length := by
  have hsub : Finset.range n ⊆ done.toFinset := by
    intro i hi
    exact List.mem_toFinset.mpr (h i (Finset.mem_range.mp hi))
  have h1 := Finset.card_le_card hsub
  have h2 := List.toFinset_card_le done
  simp at h1
  omega

theorem contiguous_acked_below (done : List Nat) :
    ∀ i, i < contiguous_acked done → i ∈ done :=
  (first_missing_spec done (done.length + 1) 0 (by intro i hi; omega)).1

theorem contiguous_acked_not_mem (done : List Nat) : contiguous_acked done ∉ done := by
  have hs := first_missing_spec done (done.length + 1) 0 (by intro i hi; omega)
  rcases hs.2 with h | h
  · exact h
  · have := not_all_below_mem done _ hs.1
    rw [h] at this
    omega

/-- The number `contiguous_acked done` is the only `k` with `0 .. k-1` in `done` and
`k` not in `done`. -/
theorem contiguous_acked_unique (done : List Nat) (k : Nat) (hb : ∀ i, i < k → i ∈ done)
    (hn : k ∉ done) : k = contiguous_acked done := by
  rcases Nat.lt_trichotomy k (contiguous_acked done) with h | h | h
  · exact absurd (contiguous_acked_below done k h) hn
  · exact h
  · exact absurd (hb _ h) (contiguous_acked_not_mem done)


theorem ack_walk_collapse {done : List Nat} {ack : RingBuffer Nat} {k : Nat}
    (ahead : ∀ t ∈ done, k < t → ack.at_ t = t)
    (slots : ∀ j, ack.buf j = 0 ∨ (ack.buf j ∈ done ∧ ack.slot (ack.buf j) = j))
    (window : ∀ t ∈ done, t < k + ack.size)
    (small : ∀ t ∈ done, t + 1 < UINT64_MOD) (hk : k + 1 < UINT64_MOD) :
    ∀ fuel a, k ≤ a → (∀ i, k < i → i ≤ a → i ∈ done) → k + ack.size ≤ a + fuel →
      ∃ k', ack_walk ack k fuel a = some k' ∧ a < k' ∧
        (∀ i, k < i → i < k' → i ∈ done) ∧ k' ∉ done := by
  intro fuel
  have hcap := ack.size_pos
  induction fuel with
  | zero =>
    intro a hka hall hfuel
    have : a ∈ done := hall a (by omega) (le_refl a)
    have := window a this
    omega
  | succ fuel ih =>
    intro a hka hall hfuel
    have ha1 : a + 1 < UINT64_MOD := by
      rcases Nat.eq_or_lt_of_le hka with h | h
      · omega
      · exact small a (hall a h (le_refl a))
    have ha2 : a < k + ack.size := by
      rcases Nat.eq_or_lt_of_le hka with h | h
      · omega
      · exact window a (hall a h (le_refl a))
    have hnext : (a + 1) % UINT64_MOD = a + 1 := Nat.mod_eq_of_lt ha1
    by_cases hgt : ack.at_ (a + 1) > k
    · have hw : ack_walk ack k (fuel + 1) a = ack_walk ack k fuel (a + 1) := by
        simp [ack_walk, hnext, hgt]
      rw [hw]
      have hmem : a + 1 ∈ done := by
        have hgt' : k < ack.buf (ack.slot (a + 1)) := hgt
        have hsl := slots (ack.slot (a + 1))
        generalize ack.buf (ack.slot (a + 1)) = v at hgt' hsl
        rcases hsl with h0 | ⟨hv, hs⟩
        · omega
        · have hvw := window _ hv
          rw [RingBuffer.slot_eq_mod, RingBuffer.slot_eq_mod] at hs
          rcases Nat.eq_or_lt_of_le (show a + 1 ≤ k + ack.size by omega) with he | hl
          · rw [he, Nat.add_mod_right] at hs
            have := eq_of_mod_eq_of_close hs.symm (le_of_lt hgt') hvw
            omega
          · rcases Nat.le_total v (a + 1) with hle | hle
            · have := eq_of_mod_eq_of_close hs hle (by omega)
              rw [← this]; exact hv
            · have := eq_of_mod_eq_of_close hs.symm hle (by omega)
              rw [this]; exact hv
      obtain ⟨k', h1, h2, h3, h4⟩ := ih (a + 1) (by omega)
        (by
          intro i hi hia
          rcases Nat.eq_or_lt_of_le hia with h | h
          · exact h ▸ hmem
          · exact hall i hi (by omega))
        (by omega)
      exact ⟨k', h1, by omega, h3, h4⟩
    · refine ⟨a + 1, by simp [ack_walk, hnext, hgt], by omega, ?_, ?_⟩
      · intro i hi hia
        exact hall i hi (by omega)
      · intro hmem
        have := ahead (a + 1) hmem (by omega)
        omega


/-- The result of `on_completion` on a write completion, field by field. -/
theorem on_completion_write_desc (ids : RequestIdentifier) (ds : InputBufferReadInterface)
    (msg : ComputeNodeStatusMessage) {s : InputChannelSender} {wr_id : Nat}
    {c : InputChannelConnection} {a : Nat} {ack' : RingBuffer Nat}
    (hkind : wr_id &&& 0xFF = ids.ID_WRITE_DESC)
    (hc : s.conn_[(wr_id >>> 8) &&& 0xFFFF]? = some c)
    (htsz : s.timeslice_size_ ≠ 0)
    (hw : (if wr_id >>> 24 = s.acked_desc_ / s.timeslice_size_ then
            (ack_walk s.ack_ (wr_id >>> 24) s.ack_.size
              (s.acked_desc_ / s.timeslice_size_)).map (fun a => (a, s.ack_))
          else some (s.acked_desc_ / s.timeslice_size_,
                     s.ack_.assign (wr_id >>> 24) (wr_id >>> 24))) = some (a, ack')) :
    ∃ s', on_completion ids ds msg s wr_id = .ok s' ∧
      s'.ack_ = ack' ∧
      s'.acked_desc_ = (a * s.timeslice_size_) % UINT64_MOD ∧
      s'.acked_data_ = (ds.desc_buffer.at_ ((a * s.timeslice_size_) % UINT64_MOD)).offset ∧
      s'.conn_ = s.conn_.set ((wr_id >>> 8) &&& 0xFFFF) c.on_complete_write ∧
      s'.timeslice_size_ = s.timeslice_size_ ∧
      s'.overlap_size_ = s.overlap_size_ ∧
      s'.max_timeslice_number_ = s.max_timeslice_number_ ∧
      s'.min_acked_desc_ = s.min_acked_desc_ ∧
      s'.min_acked_data_ = s.min_acked_data_ ∧
      s'.sent_desc_ = s.sent_desc_ ∧
      s'.sent_data_ = s.sent_data_ ∧
      s'.write_index_desc_ = s.write_index_desc_ ∧
      s'.abort_ = s.abort_ ∧
      s'.submitted = s.submitted := by
  unfold on_completion
  simp only [hkind, hc, htsz, hw, if_true, if_false]
  split <;> exact ⟨_, rfl, rfl, rfl, rfl, rfl, rfl, rfl, rfl, rfl, rfl, rfl, rfl, rfl, rfl, rfl⟩

theorem on_completion_ack_step (ids : RequestIdentifier) (ds : InputBufferReadInterface)
    (msg : ComputeNodeStatusMessage) (s : InputChannelSender) (wr_id : Nat)
    (done : List Nat) (k : Nat)
    (hinv : AckInv done s.ack_ s.acked_desc_ s.timeslice_size_ k)
    (htsz : 1 ≤ s.timeslice_size_)
    (hkind : wr_id &&& 0xFF = ids.ID_WRITE_DESC)
    (hcn : (wr_id >>> 8) &&& 0xFFFF < s.conn_.length)
    (hnew : wr_timeslice wr_id ∉ done)
    (hwin : wr_timeslice wr_id < k + s.ack_.size)
    (hrange : (wr_timeslice wr_id + 1) * s.timeslice_size_ < UINT64_MOD) :
    ∃ s' k', on_completion ids ds msg s wr_id = .ok s' ∧
      s'.timeslice_size_ = s.timeslice_size_ ∧
      s'.conn_.length = s.conn_.length ∧
      s'.ack_.size = s.ack_.size ∧
      AckInv (done ++ [wr_timeslice wr_id]) s'.ack_ s'.acked_desc_ s'.timeslice_size_ k' := by
  obtain ⟨c, hc⟩ : ∃ c, s.conn_[(wr_id >>> 8) &&& 0xFFFF]? = some c :=
    ⟨_, List.getElem?_eq_getElem hcn⟩
  have htsz0 : s.timeslice_size_ ≠ 0 := by omega
  have hk : s.acked_desc_ / s.timeslice_size_ = k := by
    rw [hinv.acked]; exact Nat.mul_div_cancel k (by omega)
  have hge : k ≤ wr_timeslice wr_id := by
    by_contra h
    exact hnew (hinv.below _ (by omega))
  have hsmall : ∀ t, (t + 1) * s.timeslice_size_ < UINT64_MOD → t + 1 < UINT64_MOD := by
    intro t ht
    calc t + 1 = (t + 1) * 1 := by ring
      _ ≤ (t + 1) * s.timeslice_size_ := Nat.mul_le_mul_left _ htsz
      _ < UINT64_MOD := ht
  by_cases hts : wr_timeslice wr_id = k
  · -- the completion is for the acked timeslice: collapse
    obtain ⟨k', hwalk, hlt, hall, hnot⟩ :=
      ack_walk_collapse hinv.ahead hinv.slots hinv.window
        (fun t ht => hsmall t (hinv.range t ht)) (hsmall k (hts ▸ hrange))
        s.ack_.size k (le_refl k) (by intro i h1 h2; omega) (le_refl _)
    have hw : (if wr_id >>> 24 = s.acked_desc_ / s.timeslice_size_ then
            (ack_walk s.ack_ (wr_id >>> 24) s.ack_.size
              (s.acked_desc_ / s.timeslice_size_)).map (fun a => (a, s.ack_))
          else some (s.acked_desc_ / s.timeslice_size_,
                     s.ack_.assign (wr_id >>> 24) (wr_id >>> 24))) = some (k', s.ack_) := by
      have h24 : wr_id >>> 24 = k := hts
      rw [hk, h24, if_pos rfl, hwalk]; rfl
    obtain ⟨s', hs', hack, hdesc, -, hconn, htsz', -⟩ :=
      on_completion_write_desc ids ds msg hkind hc htsz0 hw
    have hk'range : k' * s.timeslice_size_ < UINT64_MOD := by
      have hprev : (k' - 1 + 1) * s.timeslice_size_ < UINT64_MOD := by
        rcases Nat.eq_or_lt_of_le (show k ≤ k' - 1 by omega) with h | h
        · rw [← h, ← hts]; exact hrange
        · exact hinv.range _ (hall _ h (by omega))
      have : k' - 1 + 1 = k' := by omega
      rwa [this] at hprev
    refine ⟨s', k', hs', htsz', ?_, by rw [hack], ?_⟩
    · rw [hconn]; simp
    · rw [hack, hdesc, htsz', Nat.mod_eq_of_lt hk'range]
      refine ⟨rfl, hk'range, ?_, ?_, ?_, ?_, ?_, ?_⟩
      · intro i hi
        rcases Nat.lt_trichotomy i k with h | h | h
        · exact List.mem_append_left _ (hinv.below i h)
        · exact List.mem_append_right _ (by simp [h, hts])
        · exact List.mem_append_left _ (hall i h hi)
      · intro hmem
        rcases List.mem_append.mp hmem with h | h
        · exact hnot h
        · simp at h; omega
      · intro t ht hkt
        rcases List.mem_append.mp ht with h | h
        · exact hinv.ahead t h (by omega)
        · simp at h; omega
      · intro j
        rcases hinv.slots j with h | ⟨h1, h2⟩
        · exact Or.inl h
        · exact Or.inr ⟨List.mem_append_left _ h1, h2⟩
      · intro t ht
        rcases List.mem_append.mp ht with h | h
        · have := hinv.window t h; omega
        · simp at h; omega
      · intro t ht
        rcases List.mem_append.mp ht with h | h
        · exact hinv.range t h
        · simp at h; rw [h]; exact hrange
  · -- the completion is ahead of the acked timeslice: record it
    have hgt : k < wr_timeslice wr_id := by omega
    have hw : (if wr_id >>> 24 = s.acked_desc_ / s.timeslice_size_ then
            (ack_walk s.ack_ (wr_id >>> 24) s.ack_.size
              (s.acked_desc_ / s.timeslice_size_)).map (fun a => (a, s.ack_))
          else some (s.acked_desc_ / s.timeslice_size_,
                     s.ack_.assign (wr_id >>> 24) (wr_id >>> 24))) =
        some (k, s.ack_.assign (wr_id >>> 24) (wr_id >>> 24)) := by
      have h24 : ¬ wr_id >>> 24 = k := hts
      rw [hk, if_neg h24]
    obtain ⟨s', hs', hack, hdesc, -, hconn, htsz', -⟩ :=
      on_completion_write_desc ids ds msg hkind hc htsz0 hw
    refine ⟨s', k, hs', htsz', ?_, by rw [hack]; rfl, ?_⟩
    · rw [hconn]; simp
    · rw [hack, hdesc, htsz', Nat.mod_eq_of_lt hinv.nowrap]
      refine ⟨rfl, hinv.nowrap, ?_, ?_, ?_, ?_, ?_, ?_⟩
      · intro i hi
        exact List.mem_append_left _ (hinv.below i hi)
      · intro hmem
        rcases List.mem_append.mp hmem with h | h
        · exact hinv.notin h
        · simp at h; omega
      · intro t ht hkt
        show (if s.ack_.slot t = s.ack_.slot (wr_id >>> 24) then wr_id >>> 24
              else s.ack_.buf (s.ack_.slot t)) = t
        rcases List.mem_append.mp ht with h | h
        · by_cases hslot : s.ack_.slot t = s.ack_.slot (wr_id >>> 24)
          · rw [if_pos hslot]
            have hw1 := hinv.window t h
            rw [RingBuffer.slot_eq_mod, RingBuffer.slot_eq_mod] at hslot
            have h24 : wr_id >>> 24 = wr_timeslice wr_id := rfl
            rw [h24] at hslot ⊢
            rcases Nat.le_total t (wr_timeslice wr_id) with hle | hle
            · exact (eq_of_mod_eq_of_close hslot hle (by omega)).symm
            · exact eq_of_mod_eq_of_close hslot.symm hle (by omega)
          · rw [if_neg hslot]; exact hinv.ahead t h hkt
        · simp at h
          rw [h]
          have h24 : wr_id >>> 24 = wr_timeslice wr_id := rfl
          simp [h24]
      · intro j
        show (if j = s.ack_.slot (wr_id >>> 24) then wr_id >>> 24 else s.ack_.buf j) = 0 ∨
          ((if j = s.ack_.slot (wr_id >>> 24) then wr_id >>> 24 else s.ack_.buf j) ∈
              done ++ [wr_timeslice wr_id] ∧
            s.ack_.slot (if j = s.ack_.slot (wr_id >>> 24) then wr_id >>> 24
              else s.ack_.buf j) = j)
        by_cases hj : j = s.ack_.slot (wr_id >>> 24)
        · simp only [if_pos hj]
          exact Or.inr ⟨List.mem_append_right _ (by simp [wr_timeslice]), hj.symm⟩
        · simp only [if_neg hj]
          rcases hinv.slots j with h | ⟨h1, h2⟩
          · exact Or.inl h
          · exact Or.inr ⟨List.mem_append_left _ h1, h2⟩
      · intro t ht
        rcases List.mem_append.mp ht with h | h
        · exact hinv.window t h
        · simp at h; rw [h]; exact hwin
      · intro t ht
        rcases List.mem_append.mp ht with h | h
        · exact hinv.range t h
        · simp at h; rw [h]; exact hrange


/-- A run of write completions that respects the ack window keeps `AckInv`. -/
theorem on_completions_ack (ids : RequestIdentifier) :
    ∀ (evs : List (InputBufferReadInterface × ComputeNodeStatusMessage × Nat))
      (s : InputChannelSender) (done : List Nat) (k : Nat),
      AckInv done s.ack_ s.acked_desc_ s.timeslice_size_ k →
      1 ≤ s.timeslice_size_ →
      (∀ e ∈ evs, e.2.2 &&& 0xFF = ids.ID_WRITE_DESC) →
      (∀ e ∈ evs, (e.2.2 >>> 8) &&& 0xFFFF < s.conn_.length) →
      (done ++ completed_timeslices evs).Nodup →
      (∀ n (hn : n < evs.length), wr_timeslice evs[n].2.2 <
        contiguous_acked (done ++ completed_timeslices (evs.take n)) + s.ack_.size) →
      (∀ e ∈ evs, (wr_timeslice e.2.2 + 1) * s.timeslice_size_ < UINT64_MOD) →
      ∃ s' k', on_completions ids s evs = .ok s' ∧
        s'.timeslice_size_ = s.timeslice_size_ ∧
        AckInv (done ++ completed_timeslices evs) s'.ack_ s'.acked_desc_
          s'.timeslice_size_ k' := by
  intro evs
  induction evs with
  | nil =>
    intro s done k hinv _ _ _ _ _ _
    exact ⟨s, k, rfl, rfl, by simpa [completed_timeslices] using hinv⟩
  | cons e rest ih =>
    intro s done k hinv htsz hkind hcn hnodup hwin hrange
    obtain ⟨ds, msg, wr_id⟩ := e
    have hk : k = contiguous_acked done := contiguous_acked_unique done k hinv.below hinv.notin
    have hnew : wr_timeslice wr_id ∉ done := by
      intro hmem
      have := List.disjoint_of_nodup_append hnodup hmem
      exact this (by simp [completed_timeslices])
    have hwin0 := hwin 0 (by simp)
    simp only [List.take_zero, completed_timeslices, List.map_nil, List.append_nil,
      List.getElem_cons_zero] at hwin0
    rw [← hk] at hwin0
    obtain ⟨s1, k1, hs1, htsz1, hlen1, hsize1, hinv1⟩ :=
      on_completion_ack_step ids ds msg s wr_id done k hinv htsz
        (hkind (ds, msg, wr_id) (List.mem_cons_self _ _))
        (hcn (ds, msg, wr_id) (List.mem_cons_self _ _)) hnew hwin0
        (hrange (ds, msg, wr_id) (List.mem_cons_self _ _))
    have happ : ∀ l : List (InputBufferReadInterface × ComputeNodeStatusMessage × Nat),
        done ++ completed_timeslices ((ds, msg, wr_id) :: l) =
        (done ++ [wr_timeslice wr_id]) ++ completed_timeslices l := by
      intro l; simp [completed_timeslices]
    obtain ⟨s', k', hs', htsz', hinv'⟩ :=
      ih s1 (done ++ [wr_timeslice wr_id]) k1 hinv1 (by rw [htsz1]; exact htsz)
        (fun e he => hkind e (List.mem_cons_of_mem _ he))
        (fun e he => by rw [hlen1]; exact hcn e (List.mem_cons_of_mem _ he))
        (by rw [← happ]; exact hnodup)
        (by
          intro n hn
          have := hwin (n + 1) (by simpa using hn)
          rw [hsize1, ← happ]
          simpa using this)
        (fun e he => by rw [htsz1]; exact hrange e (List.mem_cons_of_mem _ he))
    refine ⟨s', k', ?_, by rw [htsz', htsz1], by rw [happ]; exact hinv'⟩
    simp only [on_completions, hs1]
    exact hs'

/-- The state the constructor builds satisfies `AckInv` with nothing completed. -/
theorem init_ack_inv (data_source : InputBufferReadInterface)
    (timeslice_size overlap_size max_timeslice_number ack_size_exponent : Nat)
    (conn : List InputChannelConnection) :
    AckInv [] (InputChannelSender.init data_source timeslice_size overlap_size
        max_timeslice_number ack_size_exponent conn).ack_ 0 timeslice_size 0 := by
  refine ⟨by simp, by simp [UINT64_MOD], ?_, by simp, ?_, ?_, ?_, ?_⟩
  · intro i hi; omega
  · intro t ht; simp at ht
  · intro j; exact Or.inl rfl
  · intro t ht; simp at ht
  · intro t ht; simp at ht

/-- C1 (ack collapse). For every `timeslice_size >= 1` and every sequence of
`ID_WRITE_DESC` completions handled by `on_completion`, starting from the state the
constructor builds, in which each timeslice completes at most once, no completed
timeslice is the ack-ring capacity or more ahead of the acked timeslice at the time
it completes, and the descriptors of every completed timeslice lie in the 64-bit
descriptor index range: after each completion (after every prefix of the sequence)
`on_completion` has returned and `acked_desc_` equals `timeslice_size * k`, where
`k = contiguous_acked done` is the largest number such that the timeslices
`0 .. k-1` have all completed (all of them are in `done`, and `k` is not). -/
theorem ack_collapse (ids : RequestIdentifier) (data_source : InputBufferReadInterface)
    (timeslice_size overlap_size max_timeslice_number ack_size_exponent : Nat)
    (conn : List InputChannelConnection)
    (evs : List (InputBufferReadInterface × ComputeNodeStatusMessage × Nat))
    (h_tsz : 1 ≤ timeslice_size)
    (h_kind : ∀ e ∈ evs, e.2.2 &&& 0xFF = ids.ID_WRITE_DESC)
    (h_conn : ∀ e ∈ evs, (e.2.2 >>> 8) &&& 0xFFFF < conn.length)
    (h_once : (completed_timeslices evs).Nodup)
    (h_window : ∀ n (hn : n < evs.length), wr_timeslice evs[n].2.2 <
      contiguous_acked (completed_timeslices (evs.take n)) + 2 ^ ack_size_exponent)
    (h_range : ∀ e ∈ evs, (wr_timeslice e.2.2 + 1) * timeslice_size < UINT64_MOD) :
    ∀ n, n ≤ evs.length →
      ∃ s, on_completions ids
          (InputChannelSender.init data_source timeslice_size overlap_size
            max_timeslice_number ack_size_exponent conn) (evs.take n) = .ok s ∧
        s.acked_desc_ = timeslice_size * contiguous_acked (completed_timeslices (evs.take n)) ∧
        (∀ i, i < contiguous_acked (completed_timeslices (evs.take n)) →
          i ∈ completed_timeslices (evs.take n)) ∧
        contiguous_acked (completed_timeslices (evs.take n)) ∉
          completed_timeslices (evs.take n) := by
  intro n hn
  have hsub : ∀ e ∈ evs.take n, e ∈ evs := fun e he => List.mem_of_mem_take he
  obtain ⟨s, k, hs, htsz, hinv⟩ :=
    on_completions_ack ids (evs.take n)
      (InputChannelSender.init data_source timeslice_size overlap_size
        max_timeslice_number ack_size_exponent conn) [] 0
      (init_ack_inv data_source timeslice_size overlap_size max_timeslice_number
        ack_size_exponent conn)
      h_tsz (fun e he => h_kind e (hsub e he)) (fun e he => h_conn e (hsub e he))
      (by
        simp only [List.nil_append, completed_timeslices, List.map_take]
        exact List.Nodup.sublist (List.take_sublist _ _) h_once)
      (by
        intro m hm
        have hm' : m < n := by
          rw [List.length_take] at hm; omega
        have := h_window m (by omega)
        simp only [List.nil_append, List.take_take, List.getElem_take]
        rw [Nat.min_eq_left (le_of_lt hm')]
        exact this)
      (fun e he => h_range e (hsub e he))
  simp only [List.nil_append] at hinv
  have hk : k = contiguous_acked (completed_timeslices (evs.take n)) :=
    contiguous_acked_unique _ k hinv.below hinv.notin
  refine ⟨s, hs, ?_, contiguous_acked_below _, contiguous_acked_not_mem _⟩
  rw [hinv.acked, htsz, ← hk]
  exact Nat.mul_comm k timeslice_size

/-- Scenario S5 as an instance of C1: completing T=2, then T=0, then T=1 moves
`acked_desc_` along 0, 100 (the timeslice size), 300. -/
theorem ack_collapse_witness :
    ∃ s1 s2 s3,
      on_completions scenario_ids S5_sender (S5_completions.take 1) = .ok s1 ∧
      on_completions scenario_ids S5_sender (S5_completions.take 2) = .ok s2 ∧
      on_completions scenario_ids S5_sender (S5_completions.take 3) = .ok s3 ∧
      S5_sender.acked_desc_ = 0 ∧ s1.acked_desc_ = 0 ∧ s2.acked_desc_ = 100 ∧
      s3.acked_desc_ = 3 * 100 := by
  have h := ack_collapse scenario_ids scenario_data_source 100 1 1000 2
    [scenario_connection 0 1, scenario_connection 1 1, scenario_connection 2 1]
    S5_completions (by decide) (by decide) (by decide) (by decide)
    (by decide) (by decide)
  obtain ⟨s1, h1, d1, -⟩ := h 1 (by decide)
  obtain ⟨s2, h2, d2, -⟩ := h 2 (by decide)
  obtain ⟨s3, h3, d3, -⟩ := h 3 (by decide)
  exact ⟨s1, s2, s3, h1, h2, h3, rfl, d1, d2, d3⟩

/-! ### The gather list -/

theorem RingBuffer.and_size_mask {α : Type} (r : RingBuffer α) (n : Nat) :
    n &&& r.size_mask = n % r.size := r.slot_eq_mod n

theorem RingBuffer.size_dvd_u64 {α : Type} (r : RingBuffer α) (h : r.size_exponent < 64) :
    r.size ∣ UINT64_MOD := pow_dvd_pow 2 (le_of_lt h)

theorem RingBuffer.size_lt_u64 {α : Type} (r : RingBuffer α) (h : r.size_exponent < 64) :
    r.size < UINT64_MOD := Nat.pow_lt_pow_right (by decide) h

/-- The slot of the last element of a non-empty range, computed in `uint64_t`. -/
theorem last_slot_mod (S off len : Nat) (hS : S ∣ UINT64_MOD) (hlen : 1 ≤ len) :
    (u64_sub (u64_add off len) 1) % S = (off % S + len - 1) % S := by
  have hM : 0 < UINT64_MOD := by decide
  have h1 : (u64_add off len + UINT64_MOD - 1) % UINT64_MOD ≡
      u64_add off len + UINT64_MOD - 1 [MOD S] := Nat.ModEq.of_dvd hS (Nat.mod_modEq _ _)
  have h2 : u64_add off len ≡ off + len [MOD S] := Nat.ModEq.of_dvd hS (Nat.mod_modEq _ _)
  have h3 : off + len ≡ off % S + len [MOD S] := (Nat.mod_modEq off S).symm.add_right len
  have h4 : UINT64_MOD ≡ 0 [MOD S] := (Nat.modEq_zero_iff_dvd).mpr hS
  have key : u64_sub (u64_add off len) 1 + 1 ≡ (off % S + len - 1) + 1 [MOD S] := by
    have e1 : u64_add off len + UINT64_MOD - 1 + 1 = u64_add off len + UINT64_MOD := by omega
    have e2 : off % S + len - 1 + 1 = off % S + len := by omega
    rw [e2]
    calc u64_sub (u64_add off len) 1 + 1
        ≡ u64_add off len + UINT64_MOD - 1 + 1 [MOD S] := h1.add_right 1
      _ = u64_add off len + UINT64_MOD := e1
      _ ≡ (off + len) + 0 [MOD S] := h2.add h4
      _ = off + len := by simp
      _ ≡ off % S + len [MOD S] := h3
  exact Nat.ModEq.add_right_cancel' 1 key

theorem map_range'_eq {α : Type} (a n : Nat) (f g : Nat → α)
    (h : ∀ i, i < n → f (a + i) = g i) :
    (List.range' a n).map f = (List.range n).map g := by
  rw [List.range'_eq_map_range, List.map_map]
  apply List.map_congr_left
  intro i hi
  exact h i (List.mem_range.mp hi)

theorem map_range_add {α : Type} (p q : Nat) (g : Nat → α) :
    (List.range (p + q)).map g =
      (List.range p).map g ++ (List.range q).map (fun i => g (p + i)) := by
  rw [List.range_add, List.map_append, List.map_map]
  rfl

/-- The chunks of `data_gather_list` for a non-empty range that fits the ring. -/
theorem data_gather_list_cases (r : RingBuffer Nat) (data_offset data_length : Nat)
    (h_exp : r.size_exponent < 64) (h_pos : 1 ≤ data_length) (h_len : data_length ≤ r.size) :
    (data_offset % r.size + data_length ≤ r.size ∧
      data_gather_list r data_offset data_length =
        [{ iov_base := data_offset % r.size, iov_len := data_length }]) ∨
    (r.size < data_offset % r.size + data_length ∧
      data_gather_list r data_offset data_length =
        [{ iov_base := data_offset % r.size, iov_len := r.size - data_offset % r.size },
         { iov_base := 0, iov_len := data_length - (r.size - data_offset % r.size) }]) := by
  have hS := r.size_lt_u64 h_exp
  have hm : data_offset % r.size < r.size := Nat.mod_lt _ r.size_pos
  have hlast := last_slot_mod r.size data_offset data_length (r.size_dvd_u64 h_exp) h_pos
  have hne : data_length ≠ 0 := by omega
  unfold data_gather_list
  simp only [hne, if_false, r.and_size_mask, r.slot_eq_mod, hlast]
  by_cases hfit : data_offset % r.size + data_length ≤ r.size
  · left
    have : (data_offset % r.size + data_length - 1) % r.size =
        data_offset % r.size + data_length - 1 := Nat.mod_eq_of_lt (by omega)
    rw [this, if_pos (by omega)]
    exact ⟨hfit, rfl⟩
  · right
    have hz : (data_offset % r.size + data_length - 1) % r.size =
        data_offset % r.size + data_length - 1 - r.size := by
      rw [Nat.mod_eq_sub_mod (by omega)]
      exact Nat.mod_eq_of_lt (by omega)
    rw [hz, if_neg (by omega)]
    refine ⟨by omega, ?_⟩
    have e1 : u64_sub r.size (data_offset % r.size) = r.size - data_offset % r.size := by
      unfold u64_sub UINT64_MOD at *; omega
    have e2 : u64_add (u64_sub data_length r.size) (data_offset % r.size) =
        data_length - (r.size - data_offset % r.size) := by
      unfold u64_add u64_sub UINT64_MOD at *; omega
    rw [e1, e2]

theorem data_gather_list_spec (r : RingBuffer Nat) (data_offset data_length : Nat)
    (h_exp : r.size_exponent < 64) (h_pos : 1 ≤ data_length) (h_len : data_length ≤ r.size) :
    gathered_bytes r (data_gather_list r data_offset data_length) =
      (List.range data_length).map (fun i => r.buf ((data_offset + i) % r.size)) ∧
    ((data_gather_list r data_offset data_length).map iovec.iov_len).sum = data_length := by
  have hm : data_offset % r.size < r.size := Nat.mod_lt _ r.size_pos
  have hslot : ∀ i, (data_offset + i) % r.size = (data_offset % r.size + i) % r.size := by
    intro i
    exact (Nat.mod_modEq data_offset r.size).symm.add_right i
  rcases data_gather_list_cases r data_offset data_length h_exp h_pos h_len with
    ⟨hfit, hl⟩ | ⟨hwrap, hl⟩
  · rw [hl]
    refine ⟨?_, by simp⟩
    simp only [gathered_bytes, List.append_nil]
    apply map_range'_eq
    intro i hi
    rw [hslot i, Nat.mod_eq_of_lt (show data_offset % r.size + i < r.size by omega)]
  · rw [hl]
    refine ⟨?_, by simp; omega⟩
    simp only [gathered_bytes, List.append_nil]
    have hsplit : data_length =
        (r.size - data_offset % r.size) + (data_length - (r.size - data_offset % r.size)) := by
      omega
    conv_rhs => rw [hsplit, map_range_add]
    congr 1
    · apply map_range'_eq
      intro i hi
      rw [hslot i, Nat.mod_eq_of_lt (show data_offset % r.size + i < r.size by omega)]
    · apply map_range'_eq
      intro i hi
      rw [hslot (r.size - data_offset % r.size + i)]
      have : data_offset % r.size + (r.size - data_offset % r.size + i) = i + r.size := by omega
      rw [this, Nat.add_mod_right, Nat.mod_eq_of_lt (show i < r.size by omega)]
      simp


/-- The result of `post_send_data` on an existing connection. -/
theorem post_send_data_ok (ids : RequestIdentifier) (sizeof_MD : Nat)
    (ds : InputBufferReadInterface) (s : InputChannelSender)
    (timeslice cn desc_offset desc_length data_offset data_length skip : Nat)
    (c : InputChannelConnection) (hc : s.conn_[cn]? = some c) :
    post_send_data ids sizeof_MD ds s timeslice cn desc_offset desc_length data_offset
        data_length skip =
      .ok { s with
        conn_ := s.conn_.set cn c.send_data,
        submitted := s.submitted ++
          [{ cn := cn, wr_id := write_desc_wr_id ids timeslice c.index,
             sge := desc_gather_list sizeof_MD ds.desc_send_buffer desc_offset desc_length ++
               data_gather_list ds.data_send_buffer data_offset data_length,
             num_desc_sge :=
               (desc_gather_list sizeof_MD ds.desc_send_buffer desc_offset desc_length).length,
             timeslice := timeslice, desc_length := desc_length,
             data_length := data_length, skip := skip }] } := by
  simp [post_send_data, hc]

/-- C2 (wrap correctness). For every `data_offset` and every `data_length` with
`1 <= data_length <=` size of the data ring (a power of two that fits `size_t`),
`post_send_data` submits one write whose data gather segments (the segments after
the `num_desc_sge` descriptor segments), concatenated in order, are exactly the ring
bytes at the logical positions `data_offset, ..., data_offset + data_length - 1`,
each taken modulo the ring size, and whose lengths sum to `data_length`. -/
theorem wrap_correctness (ids : RequestIdentifier) (sizeof_MD : Nat)
    (ds : InputBufferReadInterface) (s : InputChannelSender)
    (timeslice cn desc_offset desc_length data_offset data_length skip : Nat)
    (h_conn : cn < s.conn_.length)
    (h_exp : ds.data_send_buffer.size_exponent < 64)
    (h_pos : 1 ≤ data_length) (h_len : data_length ≤ ds.data_send_buffer.size) :
    ∃ s' w, post_send_data ids sizeof_MD ds s timeslice cn desc_offset desc_length
        data_offset data_length skip = .ok s' ∧
      s'.submitted = s.submitted ++ [w] ∧
      gathered_bytes ds.data_send_buffer (w.sge.drop w.num_desc_sge) =
        (List.range data_length).map
          (fun i => ds.data_send_buffer.buf ((data_offset + i) % ds.data_send_buffer.size)) ∧
      ((w.sge.drop w.num_desc_sge).map iovec.iov_len).sum = data_length := by
  obtain ⟨c, hc⟩ : ∃ c, s.conn_[cn]? = some c := ⟨_, List.getElem?_eq_getElem h_conn⟩
  refine ⟨_, _, post_send_data_ok ids sizeof_MD ds s timeslice cn desc_offset desc_length
    data_offset data_length skip c hc, rfl, ?_⟩
  simp only [List.drop_left]
  exact data_gather_list_spec ds.data_send_buffer data_offset data_length h_exp h_pos h_len

/-- Scenario S2 as an instance of C2: `data_offset` = ring size - 50 and
`data_length = 200` give two data segments of lengths 50 and 150. -/
theorem wrap_correctness_witness :
    (∃ s' w, post_send_data scenario_ids 32 scenario_data_source S1_sender 0 0 0 101
        (65536 - 50) 200 0 = .ok s' ∧
      s'.submitted = S1_sender.submitted ++ [w] ∧
      gathered_bytes scenario_data_source.data_send_buffer (w.sge.drop w.num_desc_sge) =
        (List.range 200).map
          (fun i => scenario_data_source.data_send_buffer.buf
            ((65536 - 50 + i) % scenario_data_source.data_send_buffer.size)) ∧
      ((w.sge.drop w.num_desc_sge).map iovec.iov_len).sum = 200) ∧
    (data_gather_list scenario_data_source.data_send_buffer (65536 - 50) 200).map
      iovec.iov_len = [50, 150] :=
  ⟨wrap_correctness scenario_ids 32 scenario_data_source S1_sender 0 0 0 101 (65536 - 50)
      200 0 (by decide) (by decide) (by decide) (by decide),
    by decide⟩

/-- C3 (segment count). `post_send_data` always builds between 1 and 4 gather
segments: the descriptor segments followed by the data segments. There are 1 or 2
descriptor segments, a single one exactly when the ring-wrap predicate
`(offset & mask) <= ((offset + len - 1) & mask)` holds for the descriptor range and
two otherwise; there are 0, 1 or 2 data segments: none exactly when `data_length` is
0, and for a non-empty data range a single one exactly when the predicate holds for
the data range and two otherwise; when both ranges are sent in two chunks,
`num_sge == 4`. -/
theorem gather_segment_count (ids : RequestIdentifier) (sizeof_MD : Nat)
    (ds : InputBufferReadInterface) (s : InputChannelSender)
    (timeslice cn desc_offset desc_length data_offset data_length skip : Nat)
    (h_conn : cn < s.conn_.length) :
    ∃ s' w, post_send_data ids sizeof_MD ds s timeslice cn desc_offset desc_length
        data_offset data_length skip = .ok s' ∧
      s'.submitted = s.submitted ++ [w] ∧
      (1 ≤ w.sge.length ∧ w.sge.length ≤ 4) ∧
      w.sge.take w.num_desc_sge =
        desc_gather_list sizeof_MD ds.desc_send_buffer desc_offset desc_length ∧
      w.sge.drop w.num_desc_sge =
        data_gather_list ds.data_send_buffer data_offset data_length ∧
      (w.num_desc_sge = 1 ∨ w.num_desc_sge = 2) ∧
      (w.num_desc_sge = 1 ↔
        single_chunk ds.desc_send_buffer.size_mask desc_offset desc_length) ∧
      (w.num_desc_sge = 2 ↔
        ¬ single_chunk ds.desc_send_buffer.size_mask desc_offset desc_length) ∧
      (w.sge.length - w.num_desc_sge ≤ 2) ∧
      (w.sge.length - w.num_desc_sge = 0 ↔ data_length = 0) ∧
      (data_length ≠ 0 →
        (w.sge.length - w.num_desc_sge = 1 ↔
          single_chunk ds.data_send_buffer.size_mask data_offset data_length) ∧
        (w.sge.length - w.num_desc_sge = 2 ↔
          ¬ single_chunk ds.data_send_buffer.size_mask data_offset data_length)) ∧
      (¬ single_chunk ds.desc_send_buffer.size_mask desc_offset desc_length →
        data_length ≠ 0 →
        ¬ single_chunk ds.data_send_buffer.size_mask data_offset data_length →
        w.sge.length = 4) := by
  obtain ⟨c, hc⟩ : ∃ c, s.conn_[cn]? = some c := ⟨_, List.getElem?_eq_getElem h_conn⟩
  refine ⟨_, _, post_send_data_ok ids sizeof_MD ds s timeslice cn desc_offset desc_length
    data_offset data_length skip c hc, rfl, ?_⟩
  simp only [List.take_left, List.drop_left, List.length_append]
  by_cases hd : single_chunk ds.desc_send_buffer.size_mask desc_offset desc_length <;>
  by_cases h0 : data_length = 0 <;>
  by_cases hb : single_chunk ds.data_send_buffer.size_mask data_offset data_length <;>
  simp [desc_gather_list, data_gather_list, hd, h0, hb,
    show ((desc_offset &&& ds.desc_send_buffer.size_mask) ≤
      ((u64_sub (u64_add desc_offset desc_length) 1) &&& ds.desc_send_buffer.size_mask)) =
      single_chunk ds.desc_send_buffer.size_mask desc_offset desc_length from rfl,
    show ((data_offset &&& ds.data_send_buffer.size_mask) ≤
      ((u64_sub (u64_add data_offset data_length) 1) &&& ds.data_send_buffer.size_mask)) =
      single_chunk ds.data_send_buffer.size_mask data_offset data_length from rfl]

/-- Scenario S3 as an instance of C3: the descriptor range at `desc_ring - 50` and the
data range at `data_ring - 50` both wrap, and the write has 4 segments. -/
theorem gather_segment_count_witness :
    ∃ s' w, post_send_data scenario_ids 32 scenario_data_source S1_sender 0 0
        (1024 - 50) 101 (65536 - 50) 200 0 = .ok s' ∧
      s'.submitted = S1_sender.submitted ++ [w] ∧ w.sge.length = 4 ∧ w.num_desc_sge = 2 := by
  obtain ⟨s', w, h1, h2, -, -, -, -, -, h3, -, -, -, h4⟩ :=
    gather_segment_count scenario_ids 32 scenario_data_source S1_sender 0 0
      (1024 - 50) 101 (65536 - 50) 200 0 (by decide)
  exact ⟨s', w, h1, h2, h4 (by decide) (by decide) (by decide), h3.mpr (by decide)⟩

/-! ### The published read index -/

/-- The loop of `on_completion` moves the acked timeslice forward by at least one and
at most `fuel` timeslices. -/
theorem ack_walk_bound (ack : RingBuffer Nat) (ts : Nat) :
    ∀ fuel a k', ack_walk ack ts fuel a = some k' → a + fuel < UINT64_MOD →
      a < k' ∧ k' ≤ a + fuel := by
  intro fuel
  induction fuel with
  | zero => intro a k' h; simp [ack_walk] at h
  | succ fuel ih =>
    intro a k' h hlt
    have hnext : (a + 1) % UINT64_MOD = a + 1 := Nat.mod_eq_of_lt (by omega)
    simp only [ack_walk, hnext] at h
    split at h
    · have := ih (a + 1) k' h (by omega)
      omega
    · simp at h
      omega

/-- What a returning call of `on_completion` on a write completion went through. -/
theorem on_completion_write_desc_inv (ids : RequestIdentifier) (ds : InputBufferReadInterface)
    (msg : ComputeNodeStatusMessage) {s s' : InputChannelSender} {wr_id : Nat}
    (hkind : wr_id &&& 0xFF = ids.ID_WRITE_DESC)
    (h : on_completion ids ds msg s wr_id = .ok s') :
    ∃ c a ack', s.conn_[(wr_id >>> 8) &&& 0xFFFF]? = some c ∧ s.timeslice_size_ ≠ 0 ∧
      (if wr_id >>> 24 = s.acked_desc_ / s.timeslice_size_ then
            (ack_walk s.ack_ (wr_id >>> 24) s.ack_.size
              (s.acked_desc_ / s.timeslice_size_)).map (fun a => (a, s.ack_))
          else some (s.acked_desc_ / s.timeslice_size_,
                     s.ack_.assign (wr_id >>> 24) (wr_id >>> 24))) = some (a, ack') := by
  unfold on_completion at h
  simp only [hkind, if_true] at h
  split at h
  · exact absurd h (by simp)
  · rename_i c hc
    by_cases htsz : s.timeslice_size_ = 0
    · simp [htsz] at h
    · simp only [htsz, if_false] at h
      split at h
      · exact absurd h (by simp)
      · rename_i a ack' hw
        exact ⟨c, a, ack', hc, htsz, hw⟩

/-- A completion that is not a write completion leaves the ack state and the
published read indices as they are. -/
theorem on_completion_other (ids : RequestIdentifier) (ds : InputBufferReadInterface)
    (msg : ComputeNodeStatusMessage) {s s' : InputChannelSender} {wr_id : Nat}
    (hkind : wr_id &&& 0xFF ≠ ids.ID_WRITE_DESC)
    (h : on_completion ids ds msg s wr_id = .ok s') :
    s'.ack_ = s.ack_ ∧ s'.acked_desc_ = s.acked_desc_ ∧ s'.acked_data_ = s.acked_data_ ∧
      s'.cached_acked_desc_ = s.cached_acked_desc_ ∧
      s'.cached_acked_data_ = s.cached_acked_data_ ∧
      s'.read_index_calls = s.read_index_calls ∧
      s'.timeslice_size_ = s.timeslice_size_ ∧
      s'.overlap_size_ = s.overlap_size_ ∧
      s'.max_timeslice_number_ = s.max_timeslice_number_ ∧
      s'.min_acked_desc_ = s.min_acked_desc_ ∧
      s'.min_acked_data_ = s.min_acked_data_ ∧
      s'.sent_desc_ = s.sent_desc_ ∧
      s'.sent_data_ = s.sent_data_ ∧
      s'.write_index_desc_ = s.write_index_desc_ ∧
      s'.submitted = s.submitted ∧
      s'.conn_.length = s.conn_.length := by
  unfold on_completion at h
  simp only [hkind, if_false] at h
  split at h
  · split at h
    · exact absurd h (by simp)
    · split at h <;>
      · injection h with h
        subst h
        simp
  · split at h
    · injection h with h
      subst h
      simp
    · exact absurd h (by simp)

/-- The read indices published by a returning write completion. -/
theorem on_completion_write_desc_calls (ids : RequestIdentifier)
    (ds : InputBufferReadInterface) (msg : ComputeNodeStatusMessage)
    {s s' : InputChannelSender} {wr_id : Nat}
    (hkind : wr_id &&& 0xFF = ids.ID_WRITE_DESC)
    (h : on_completion ids ds msg s wr_id = .ok s') :
    s'.read_index_calls = s.read_index_calls ∨
    s'.read_index_calls =
      s.read_index_calls ++ [{ desc := s'.acked_desc_, data := s'.acked_data_ }] := by
  unfold on_completion at h
  simp only [hkind, if_true] at h
  split at h
  · exact absurd h (by simp)
  · split at h
    · exact absurd h (by simp)
    · split at h
      · exact absurd h (by simp)
      · split at h <;>
        · injection h with h
          subst h
          simp


/-- One returning completion keeps `ReadIndexInv`. -/
theorem on_completion_read_index_step (ids : RequestIdentifier)
    (stream : Nat → MicrosliceDescriptor) (ds : InputBufferReadInterface)
    (msg : ComputeNodeStatusMessage) (s s' : InputChannelSender) (wr_id : Nat)
    (h_stream : ∀ i j, i ≤ j → (stream i).offset ≤ (stream j).offset)
    (hinv : ReadIndexInv stream s)
    (h : on_completion ids ds msg s wr_id = .ok s')
    (h_read : wr_id &&& 0xFF = ids.ID_WRITE_DESC →
      ds.desc_buffer.at_ s'.acked_desc_ = stream s'.acked_desc_)
    (h_range : wr_id &&& 0xFF = ids.ID_WRITE_DESC →
      (wr_timeslice wr_id + s.ack_.size) * s.timeslice_size_ < UINT64_MOD) :
    ReadIndexInv stream s' ∧ s'.timeslice_size_ = s.timeslice_size_ ∧
      s'.ack_.size = s.ack_.size := by
  by_cases hkind : wr_id &&& 0xFF = ids.ID_WRITE_DESC
  · obtain ⟨c, a, ack', hc, htsz, hw⟩ := on_completion_write_desc_inv ids ds msg hkind h
    obtain ⟨s2, hs2, hack, hdesc, hdata, -, htsz', -⟩ :=
      on_completion_write_desc ids ds msg hkind hc htsz hw
    have hss : s' = s2 := by
      rw [h] at hs2; injection hs2 with hs2
    subst hss
    have hcalls := on_completion_write_desc_calls ids ds msg hkind h
    have hr := h_range hkind
    have htpos : 1 ≤ s.timeslice_size_ := by omega
    obtain ⟨k, hk⟩ := hinv.dvd
    have hkdiv : s.acked_desc_ / s.timeslice_size_ = k := by
      rw [hk]; exact Nat.mul_div_cancel_left k (by omega)
    have hcap : wr_timeslice wr_id + s.ack_.size < UINT64_MOD := by
      calc wr_timeslice wr_id + s.ack_.size
          = (wr_timeslice wr_id + s.ack_.size) * 1 := by ring
        _ ≤ (wr_timeslice wr_id + s.ack_.size) * s.timeslice_size_ :=
            Nat.mul_le_mul_left _ htpos
        _ < UINT64_MOD := hr
    -- the new acked timeslice `a`
    have ha : k ≤ a ∧ a * s.timeslice_size_ < UINT64_MOD ∧ ack'.size = s.ack_.size := by
      rw [hkdiv] at hw
      by_cases hts : wr_id >>> 24 = k
      · rw [if_pos hts] at hw
        cases hwalk : ack_walk s.ack_ (wr_id >>> 24) s.ack_.size k with
        | none => rw [hwalk] at hw; simp at hw
        | some a' =>
          rw [hwalk] at hw
          simp only [Option.map_some', Option.some.injEq, Prod.mk.injEq] at hw
          obtain ⟨rfl, rfl⟩ := hw
          have h24 : wr_timeslice wr_id = k := hts
          have hb := ack_walk_bound s.ack_ (wr_id >>> 24) s.ack_.size k a' hwalk
            (by omega)
          refine ⟨by omega, ?_, rfl⟩
          calc a' * s.timeslice_size_
              ≤ (wr_timeslice wr_id + s.ack_.size) * s.timeslice_size_ :=
                Nat.mul_le_mul_right _ (by omega)
            _ < UINT64_MOD := hr
      · rw [if_neg hts] at hw
        simp only [Option.some.injEq, Prod.mk.injEq] at hw
        obtain ⟨rfl, rfl⟩ := hw
        refine ⟨le_refl _, ?_, rfl⟩
        have := hinv.lt
        rw [hk, Nat.mul_comm] at this
        exact this
    obtain ⟨hka, hlt, hsize⟩ := ha
    have hnew : s'.acked_desc_ = a * s.timeslice_size_ := by
      rw [hdesc]; exact Nat.mod_eq_of_lt hlt
    have hmono : s.acked_desc_ ≤ s'.acked_desc_ := by
      rw [hnew, hk, Nat.mul_comm]
      exact Nat.mul_le_mul_right _ hka
    have hnewdata : s'.acked_data_ = (stream s'.acked_desc_).offset := by
      rw [hdata, ← hdesc, h_read hkind]
    refine ⟨⟨?_, ?_, ?_, ?_⟩, htsz', by rw [hack, hsize]⟩
    · rw [htsz', hnew]; exact Dvd.intro_left a rfl
    · rw [hnew]; exact hlt
    · rcases hcalls with hc1 | hc1
      · rw [hc1]; exact hinv.chain
      · rw [hc1, List.chain'_append]
        refine ⟨hinv.chain, List.chain'_singleton _, ?_⟩
        intro p hp q hq
        simp only [List.head?_cons, Option.mem_def, Option.some.injEq] at hq
        subst hq
        obtain ⟨hp1, hp2⟩ := hinv.last p hp
        refine ⟨by simp only; omega, ?_⟩
        simp only
        rw [hp2, hnewdata]
        exact h_stream _ _ (by omega)
    · rcases hcalls with hc1 | hc1
      · rw [hc1]
        intro p hp
        obtain ⟨hp1, hp2⟩ := hinv.last p hp
        exact ⟨by omega, hp2⟩
      · rw [hc1]
        intro p hp
        have hp' : p = { desc := s'.acked_desc_, data := s'.acked_data_ } := by
          simpa [List.getLast?_append, eq_comm] using hp
        subst hp'
        exact ⟨le_refl _, hnewdata⟩
  · obtain ⟨hack, hdesc, -, -, -, hcalls, htsz, -⟩ := on_completion_other ids ds msg hkind h
    refine ⟨⟨?_, ?_, ?_, ?_⟩, htsz, by rw [hack]⟩
    · rw [htsz, hdesc]; exact hinv.dvd
    · rw [hdesc]; exact hinv.lt
    · rw [hcalls]; exact hinv.chain
    · rw [hcalls, hdesc]; exact hinv.last

/-- A returning run of completions keeps `ReadIndexInv`. -/
theorem on_completions_read_index (ids : RequestIdentifier)
    (stream : Nat → MicrosliceDescriptor)
    (h_stream : ∀ i j, i ≤ j → (stream i).offset ≤ (stream j).offset) :
    ∀ (evs : List (InputBufferReadInterface × ComputeNodeStatusMessage × Nat))
      (s s' : InputChannelSender),
      ReadIndexInv stream s →
      reads_stream ids stream s evs = true →
      (∀ e ∈ evs, e.2.2 &&& 0xFF = ids.ID_WRITE_DESC →
        (wr_timeslice e.2.2 + s.ack_.size) * s.timeslice_size_ < UINT64_MOD) →
      on_completions ids s evs = .ok s' →
      ReadIndexInv stream s' := by
  intro evs
  induction evs with
  | nil =>
    intro s s' hinv _ _ h
    simp only [on_completions] at h
    injection h with h
    exact h ▸ hinv
  | cons e rest ih =>
    intro s s' hinv hreads hrange h
    obtain ⟨ds, msg, wr_id⟩ := e
    simp only [on_completions] at h
    simp only [reads_stream] at hreads
    cases hstep : on_completion ids ds msg s wr_id with
    | error e => rw [hstep] at h; exact absurd h (by simp)
    | ok s1 =>
      rw [hstep] at h hreads
      simp only [Bool.and_eq_true, decide_eq_true_eq] at hreads h
      obtain ⟨hinv1, htsz1, hsize1⟩ :=
        on_completion_read_index_step ids stream ds msg s s1 wr_id h_stream hinv hstep
          hreads.1 (hrange (ds, msg, wr_id) (List.mem_cons_self _ _))
      exact ih s1 s' hinv1 hreads.2
        (fun e he hk => by
          rw [htsz1, hsize1]; exact hrange e (List.mem_cons_of_mem _ he) hk)
        h

/-- The read index is monotone when the completions read the stream. Over any
sequence of `on_completion` calls, starting
from the state the constructor builds, the successive arguments `(desc, data)` passed
to `data_source.set_read_index` are non-decreasing in both components, given that
the microslice descriptor offsets are non-decreasing along the descriptor stream, that
each write completion reads the descriptor of that stream at the new `acked_desc_`,
and that the descriptor indices up to one ack ring ahead of each completed timeslice
lie in the 64-bit range. -/
theorem read_index_monotone (ids : RequestIdentifier) (data_source : InputBufferReadInterface)
    (timeslice_size overlap_size max_timeslice_number ack_size_exponent : Nat)
    (conn : List InputChannelConnection)
    (stream : Nat → MicrosliceDescriptor)
    (evs : List (InputBufferReadInterface × ComputeNodeStatusMessage × Nat))
    (s : InputChannelSender)
    (h_stream : ∀ i j, i ≤ j → (stream i).offset ≤ (stream j).offset)
    (h_reads : reads_stream ids stream
      (InputChannelSender.init data_source timeslice_size overlap_size
        max_timeslice_number ack_size_exponent conn) evs = true)
    (h_range : ∀ e ∈ evs, e.2.2 &&& 0xFF = ids.ID_WRITE_DESC →
      (wr_timeslice e.2.2 + 2 ^ ack_size_exponent) * timeslice_size < UINT64_MOD)
    (h_run : on_completions ids
      (InputChannelSender.init data_source timeslice_size overlap_size
        max_timeslice_number ack_size_exponent conn) evs = .ok s) :
    List.Chain' read_index_le s.read_index_calls := by
  have hinit : ReadIndexInv stream
      (InputChannelSender.init data_source timeslice_size overlap_size
        max_timeslice_number ack_size_exponent conn) :=
    ⟨dvd_zero _, by simp [InputChannelSender.init, UINT64_MOD], List.chain'_nil, by intro p hp; simp [InputChannelSender.init] at hp⟩
  exact (on_completions_read_index ids stream h_stream evs _ s hinit h_reads h_range h_run).chain


/-- An instance of the monotone read index: the five completions T=2, 0, 1, 3, 4
publish the read indices
(300, 30000) and (500, 50000), in this order. -/
theorem read_index_monotone_witness :
    ∃ s, on_completions scenario_ids S5_sender S5_then_two_more = .ok s ∧
      s.read_index_calls =
        [{ desc := 300, data := 30000 }, { desc := 500, data := 50000 }] ∧
      List.Chain' read_index_le s.read_index_calls := by
  have hcalls : (on_completions scenario_ids S5_sender S5_then_two_more).toOption.map
      InputChannelSender.read_index_calls =
      some [{ desc := 300, data := 30000 }, { desc := 500, data := 50000 }] := by decide
  cases h : on_completions scenario_ids S5_sender S5_then_two_more with
  | error e => rw [h] at hcalls; simp [Except.toOption] at hcalls
  | ok s =>
    rw [h] at hcalls
    refine ⟨s, rfl, by simpa [Except.toOption] using hcalls, ?_⟩
    exact read_index_monotone scenario_ids scenario_data_source 100 1 1000 2
      [scenario_connection 0 1, scenario_connection 1 1, scenario_connection 2 1]
      scenario_stream S5_then_two_more s
      (by intro i j hij; simp only [scenario_stream]; omega)
      (by decide) (by decide) h

/-! ### `try_send_timeslice` -/

/-- Producer under-run: the refreshed write index does not cover the timeslice. -/
theorem try_send_timeslice_underrun (ids : RequestIdentifier) (sizeof_MD : Nat)
    (ds : InputBufferReadInterface) (s : InputChannelSender) (timeslice : Nat)
    (h : refreshed_write_index ds s timeslice < ts_desc_end s timeslice) :
    try_send_timeslice ids sizeof_MD ds s timeslice =
      .ok (false, { s with write_index_desc_ := refreshed_write_index ds s timeslice }) := by
  unfold refreshed_write_index at h ⊢
  unfold try_send_timeslice
  simp only [ts_desc_end, ts_desc_offset, ts_desc_length] at h ⊢
  split
  · rename_i hlt
    rw [if_pos hlt] at h
    simp only [ge_iff_le]
    rw [if_neg (by omega)]
  · rename_i hlt
    rw [if_neg hlt] at h
    simp only [ge_iff_le]
    rw [if_neg (by omega)]

/-- The timeslice is available and the target connection exists: the result of
`try_send_timeslice` is decided by the credit and by the buffer space. -/
theorem try_send_timeslice_available (ids : RequestIdentifier) (sizeof_MD : Nat)
    (ds : InputBufferReadInterface) (s : InputChannelSender) (timeslice : Nat)
    (c : InputChannelConnection)
    (h_avail : ts_desc_end s timeslice ≤ refreshed_write_index ds s timeslice)
    (h_assert : ts_data_offset ds s timeslice ≤ ts_data_end ds s timeslice)
    (h_conn : s.conn_[target_cn_index s timeslice]? = some c) :
    try_send_timeslice ids sizeof_MD ds s timeslice =
      if c.write_request_available = false then
        .ok (false, { s with write_index_desc_ := refreshed_write_index ds s timeslice })
      else if c.check_for_buffer_space (ts_total_with_skip sizeof_MD ds s timeslice c) 1 then
        .ok (true,
          { s with
            write_index_desc_ := refreshed_write_index ds s timeslice,
            conn_ := s.conn_.set (target_cn_index s timeslice)
              (c.send_data.inc_write_pointers
                (ts_total_with_skip sizeof_MD ds s timeslice c) 1),
            submitted := s.submitted ++ [ts_write_request ids sizeof_MD ds s timeslice c],
            sent_desc_ := ts_desc_end s timeslice,
            sent_data_ := ts_data_end ds s timeslice })
      else
        .ok (false, { s with write_index_desc_ := refreshed_write_index ds s timeslice }) := by
  have hlen : target_cn_index s timeslice < s.conn_.length := by
    by_contra hge
    rw [List.getElem?_eq_none (by omega)] at h_conn
    exact absurd h_conn (by simp)
  have hne : s.conn_.length ≠ 0 := by omega
  unfold refreshed_write_index at h_avail ⊢
  unfold try_send_timeslice
  simp only [ts_desc_end, ts_desc_offset, ts_desc_length, ts_data_offset, ts_data_end,
    ts_total_with_skip, ts_total_length, ts_data_length, ts_write_request,
    target_cn_index] at *
  split
  · rename_i hlt
    rw [if_pos hlt] at h_avail
    simp only [ge_iff_le, if_pos h_avail, if_neg (not_lt.mpr h_assert), hne, if_false,
      target_cn_index, h_conn]
    cases hw : c.write_request_available
    · simp
    · simp only [Bool.not_true, Bool.false_eq_true, if_false]
      split
      · simp only [post_send_data, h_conn, List.getElem?_set_self hlen, List.set_set]
        rfl
      · rfl
  · rename_i hlt
    rw [if_neg hlt] at h_avail
    simp only [ge_iff_le, if_pos h_avail, if_neg (not_lt.mpr h_assert), hne, if_false,
      target_cn_index, h_conn]
    cases hw : c.write_request_available
    · simp
    · simp only [Bool.not_true, Bool.false_eq_true, if_false]
      split
      · simp only [post_send_data, h_conn, List.getElem?_set_self hlen, List.set_set]
        rfl
      · rfl


/-- The timeslice is available but its descriptors are inconsistent: the `assert`
fails. -/
theorem try_send_timeslice_assert (ids : RequestIdentifier) (sizeof_MD : Nat)
    (ds : InputBufferReadInterface) (s : InputChannelSender) (timeslice : Nat)
    (h_avail : ts_desc_end s timeslice ≤ refreshed_write_index ds s timeslice)
    (h_assert : ts_data_end ds s timeslice < ts_data_offset ds s timeslice) :
    try_send_timeslice ids sizeof_MD ds s timeslice = .error .assertion_failed := by
  unfold refreshed_write_index at h_avail
  unfold try_send_timeslice
  simp only [ts_desc_end, ts_desc_offset, ts_desc_length, ts_data_offset, ts_data_end] at *
  split
  · rename_i hlt
    rw [if_pos hlt] at h_avail
    simp only [ge_iff_le, if_pos h_avail, if_pos h_assert]
  · rename_i hlt
    rw [if_neg hlt] at h_avail
    simp only [ge_iff_le, if_pos h_avail, if_pos h_assert]

/-- Inside the 32-bit and 64-bit ranges, the first descriptor after timeslice `T` is
`T * timeslice_size + timeslice_size + overlap_size`. -/
theorem ts_desc_end_eq (s : InputChannelSender) (timeslice : Nat)
    (h32 : s.timeslice_size_ + s.overlap_size_ < 2 ^ 32)
    (h64 : timeslice * s.timeslice_size_ + s.timeslice_size_ + s.overlap_size_ < UINT64_MOD) :
    ts_desc_offset s timeslice = timeslice * s.timeslice_size_ ∧
    ts_desc_length s = s.timeslice_size_ + s.overlap_size_ ∧
    ts_desc_end s timeslice =
      timeslice * s.timeslice_size_ + s.timeslice_size_ + s.overlap_size_ := by
  have h1 : ts_desc_offset s timeslice = timeslice * s.timeslice_size_ :=
    Nat.mod_eq_of_lt (by omega)
  have h2 : ts_desc_length s = s.timeslice_size_ + s.overlap_size_ := Nat.mod_eq_of_lt h32
  refine ⟨h1, h2, ?_⟩
  unfold ts_desc_end u64_add
  rw [h1, h2, Nat.mod_eq_of_lt (by omega)]
  omega

/-- C6 (backpressure). For the target connection `c` of timeslice `T` (and descriptors
that pass the `assert` once available): (1) `try_send_timeslice(T)` returns false,
submits no write and leaves `sent_desc_`, `sent_data_` and the connections, hence the
write pointers of `c`, unchanged whenever `c` has no write request available or
`check_for_buffer_space(total_length, 1)` fails; (2) when all write credits of `c` are
taken, after one write completion on `c` (which runs `on_complete_write`) the next
call for the same `T`, with the timeslice and buffer space available, returns true and
submits exactly one write, for `T`. -/
theorem backpressure (ids : RequestIdentifier) (sizeof_MD : Nat)
    (ds : InputBufferReadInterface) (s : InputChannelSender) (timeslice : Nat)
    (c : InputChannelConnection)
    (h_conn : s.conn_[target_cn_index s timeslice]? = some c) :
    ((ts_desc_end s timeslice ≤ refreshed_write_index ds s timeslice →
        ts_data_offset ds s timeslice ≤ ts_data_end ds s timeslice) →
      (c.write_request_available = false ∨
        c.check_for_buffer_space (ts_total_with_skip sizeof_MD ds s timeslice c) 1 = false) →
      ∃ s', try_send_timeslice ids sizeof_MD ds s timeslice = .ok (false, s') ∧
        s'.submitted = s.submitted ∧ s'.sent_desc_ = s.sent_desc_ ∧
        s'.sent_data_ = s.sent_data_ ∧ s'.conn_ = s.conn_) ∧
    (∀ (ds0 : InputBufferReadInterface) (msg : ComputeNodeStatusMessage) (wr_id : Nat)
        (s1 : InputChannelSender),
      c.in_flight_writes = c.max_pending_writes →
      1 ≤ c.max_pending_writes → c.max_pending_writes < 2 ^ 32 →
      wr_id &&& 0xFF = ids.ID_WRITE_DESC →
      (wr_id >>> 8) &&& 0xFFFF = target_cn_index s timeslice →
      on_completion ids ds0 msg s wr_id = .ok s1 →
      ts_desc_end s1 timeslice ≤ refreshed_write_index ds s1 timeslice →
      ts_data_offset ds s1 timeslice ≤ ts_data_end ds s1 timeslice →
      c.on_complete_write.check_for_buffer_space
        (ts_total_with_skip sizeof_MD ds s1 timeslice c.on_complete_write) 1 = true →
      c.write_request_available = false ∧
      ∃ s2, try_send_timeslice ids sizeof_MD ds s1 timeslice = .ok (true, s2) ∧
        s2.submitted = s1.submitted ++
          [ts_write_request ids sizeof_MD ds s1 timeslice c.on_complete_write] ∧
        (ts_write_request ids sizeof_MD ds s1 timeslice c.on_complete_write).timeslice =
          timeslice) := by
  constructor
  · intro h_assert h_block
    by_cases h_avail : ts_desc_end s timeslice ≤ refreshed_write_index ds s timeslice
    · rw [try_send_timeslice_available ids sizeof_MD ds s timeslice c h_avail
        (h_assert h_avail) h_conn]
      rcases h_block with hb | hb
      · rw [if_pos hb]
        exact ⟨_, rfl, rfl, rfl, rfl, rfl⟩
      · by_cases hw : c.write_request_available = false
        · rw [if_pos hw]
          exact ⟨_, rfl, rfl, rfl, rfl, rfl⟩
        · rw [if_neg hw, hb]
          exact ⟨_, rfl, rfl, rfl, rfl, rfl⟩
    · exact ⟨_, try_send_timeslice_underrun ids sizeof_MD ds s timeslice (by omega),
        rfl, rfl, rfl, rfl⟩
  · intro ds0 msg wr_id s1 h_full h_one h_max h_kind h_cn h_compl h_avail h_assert h_space
    obtain ⟨c0, a, ack', hc0, htsz, hw⟩ :=
      on_completion_write_desc_inv ids ds0 msg h_kind h_compl
    obtain ⟨s1', hs1', -, -, -, hconn1, -⟩ :=
      on_completion_write_desc ids ds0 msg h_kind hc0 htsz hw
    have hs1 : s1 = s1' := by
      rw [h_compl] at hs1'; injection hs1' with hs1'
    subst hs1
    rw [h_cn, h_conn] at hc0
    injection hc0 with hc0
    subst hc0
    rw [h_cn] at hconn1
    have hlen : target_cn_index s timeslice < s.conn_.length := by
      by_contra hge
      rw [List.getElem?_eq_none (by omega)] at h_conn
      exact absurd h_conn (by simp)
    have htarget : target_cn_index s1 timeslice = target_cn_index s timeslice := by
      unfold target_cn_index; rw [hconn1, List.length_set]
    have h_conn1 : s1.conn_[target_cn_index s1 timeslice]? = some c.on_complete_write := by
      rw [htarget, hconn1, List.getElem?_set_self hlen]
    have h_before : c.write_request_available = false := by
      simp [InputChannelConnection.write_request_available, h_full]
    have h_credit : c.on_complete_write.write_request_available = true := by
      unfold InputChannelConnection.write_request_available
        InputChannelConnection.on_complete_write
      rw [decide_eq_true_eq]
      show (c.in_flight_writes + 2 ^ 32 - 1) % 2 ^ 32 < c.max_pending_writes
      omega
    refine ⟨h_before, ?_⟩
    rw [try_send_timeslice_available ids sizeof_MD ds s1 timeslice c.on_complete_write
      h_avail h_assert h_conn1]
    rw [if_neg (by rw [h_credit]; simp), if_pos h_space]
    exact ⟨_, rfl, rfl, rfl⟩


/-- Scenario S4 as an instance of C6: with the 4 write credits taken,
`try_send_timeslice(4)` returns false without submitting; after the completion of
the write of timeslice 0 the next call submits the write of timeslice 4. -/
theorem backpressure_witness :
    (∃ s', try_send_timeslice scenario_ids 32 scenario_data_source S4_sender 4 =
        .ok (false, s') ∧
      s'.submitted = S4_sender.submitted ∧ s'.sent_desc_ = S4_sender.sent_desc_ ∧
      s'.sent_data_ = S4_sender.sent_data_ ∧ s'.conn_ = S4_sender.conn_) ∧
    on_completion scenario_ids scenario_data_source scenario_status S4_sender
      (write_desc_wr_id scenario_ids 0 0) = .ok S4_after_completion ∧
    ∃ s2, try_send_timeslice scenario_ids 32 scenario_data_source S4_after_completion 4 =
        .ok (true, s2) ∧
      s2.submitted = S4_after_completion.submitted ++
        [ts_write_request scenario_ids 32 scenario_data_source S4_after_completion 4
          (scenario_connection 0 4).on_complete_write] ∧
      (ts_write_request scenario_ids 32 scenario_data_source S4_after_completion 4
          (scenario_connection 0 4).on_complete_write).timeslice = 4 := by
  have h := backpressure scenario_ids 32 scenario_data_source S4_sender 4
    (scenario_connection 0 4) (by decide)
  have hc : on_completion scenario_ids scenario_data_source scenario_status S4_sender
      (write_desc_wr_id scenario_ids 0 0) = .ok S4_after_completion := rfl
  exact ⟨h.1 (by decide) (Or.inl (by decide)), hc,
    (h.2 scenario_data_source scenario_status (write_desc_wr_id scenario_ids 0 0)
      S4_after_completion (by decide) (by decide) (by decide) (by decide) (by decide) hc
      (by decide) (by decide) (by decide)).2⟩


/-- What a call of `try_send_timeslice` that returns true went through. -/
theorem try_send_timeslice_true_inv (ids : RequestIdentifier) (sizeof_MD : Nat)
    (ds : InputBufferReadInterface) (s s' : InputChannelSender) (timeslice : Nat)
    (c : InputChannelConnection)
    (h_conn : s.conn_[target_cn_index s timeslice]? = some c)
    (h : try_send_timeslice ids sizeof_MD ds s timeslice = .ok (true, s')) :
    ts_desc_end s timeslice ≤ refreshed_write_index ds s timeslice ∧
    ts_data_offset ds s timeslice ≤ ts_data_end ds s timeslice ∧
    c.write_request_available = true ∧
    c.check_for_buffer_space (ts_total_with_skip sizeof_MD ds s timeslice c) 1 = true ∧
    s' = { s with
      write_index_desc_ := refreshed_write_index ds s timeslice,
      conn_ := s.conn_.set (target_cn_index s timeslice)
        (c.send_data.inc_write_pointers (ts_total_with_skip sizeof_MD ds s timeslice c) 1),
      submitted := s.submitted ++ [ts_write_request ids sizeof_MD ds s timeslice c],
      sent_desc_ := ts_desc_end s timeslice,
      sent_data_ := ts_data_end ds s timeslice } := by
  by_cases h_avail : ts_desc_end s timeslice ≤ refreshed_write_index ds s timeslice
  · by_cases h_assert : ts_data_offset ds s timeslice ≤ ts_data_end ds s timeslice
    · rw [try_send_timeslice_available ids sizeof_MD ds s timeslice c h_avail h_assert
        h_conn] at h
      by_cases hw : c.write_request_available = false
      · rw [if_pos hw] at h
        simp at h
      · rw [if_neg hw] at h
        by_cases hsp :
            c.check_for_buffer_space (ts_total_with_skip sizeof_MD ds s timeslice c) 1 = true
        · rw [if_pos hsp] at h
          injection h with h
          injection h with _ h
          exact ⟨h_avail, h_assert, by simpa using hw, hsp, h.symm⟩
        · rw [if_neg hsp] at h
          simp at h
    · rw [try_send_timeslice_assert ids sizeof_MD ds s timeslice h_avail (by omega)] at h
      simp at h
  · rw [try_send_timeslice_underrun ids sizeof_MD ds s timeslice (by omega)] at h
    simp at h

/-- C8 (amended: successful send inside the integer ranges). When
`try_send_timeslice(T)` returns true, with `c` the
connection `target_cn_index(T)` and all quantities inside their 32-bit and 64-bit
ranges: exactly one write for `T` was submitted, on connection `target_cn_index(T)`,
with `data_offset = desc[desc_offset].offset`,
`data_length = (desc[last].offset + desc[last].size) - data_offset` and
`desc_length = timeslice_size + overlap_size`; the write pointers of `c` were advanced
by exactly `total = data_length + desc_length * sizeof(MD) + skip` bytes and 1
descriptor, the amounts that `check_for_buffer_space` had accepted (after
`write_request_available` had been true); and afterwards
`sent_desc_ = desc_offset + desc_length` and `sent_data_ = data_end`. -/
theorem successful_send (ids : RequestIdentifier) (sizeof_MD : Nat)
    (ds : InputBufferReadInterface) (s s' : InputChannelSender) (timeslice : Nat)
    (c : InputChannelConnection)
    (desc_offset desc_length data_offset data_end data_length skip total : Nat)
    (h_true : try_send_timeslice ids sizeof_MD ds s timeslice = .ok (true, s'))
    (h_conn : s.conn_[target_cn_index s timeslice]? = some c)
    (h_desc_offset : desc_offset = timeslice * s.timeslice_size_)
    (h_desc_length : desc_length = s.timeslice_size_ + s.overlap_size_)
    (h_data_offset : data_offset = (ds.desc_buffer.at_ desc_offset).offset)
    (h_data_end : data_end =
      (ds.desc_buffer.at_ (desc_offset + desc_length - 1)).offset +
      (ds.desc_buffer.at_ (desc_offset + desc_length - 1)).size)
    (h_data_length : data_length = data_end - data_offset)
    (h_skip : skip = c.skip_required (data_length + desc_length * sizeof_MD))
    (h_total : total = data_length + desc_length * sizeof_MD + skip)
    (h_tsz : 1 ≤ s.timeslice_size_)
    (h32 : desc_length < 2 ^ 32)
    (h64 : desc_offset + desc_length < UINT64_MOD)
    (h64_end : data_end < UINT64_MOD)
    (h64_total : total < UINT64_MOD) :
    s'.submitted = s.submitted ++
      [{ cn := timeslice % s.conn_.length,
         wr_id := write_desc_wr_id ids timeslice c.index,
         sge := desc_gather_list sizeof_MD ds.desc_send_buffer desc_offset desc_length ++
           data_gather_list ds.data_send_buffer data_offset data_length,
         num_desc_sge :=
           (desc_gather_list sizeof_MD ds.desc_send_buffer desc_offset desc_length).length,
         timeslice := timeslice, desc_length := desc_length,
         data_length := data_length, skip := skip }] ∧
    data_offset ≤ data_end ∧
    c.write_request_available = true ∧
    c.check_for_buffer_space total 1 = true ∧
    s'.conn_ = s.conn_.set (timeslice % s.conn_.length)
      (c.send_data.inc_write_pointers total 1) ∧
    (c.send_data.inc_write_pointers total 1).peer_write_cursor =
      { desc := (c.peer_write_cursor.desc + 1) % UINT64_MOD,
        data := (c.peer_write_cursor.data + total) % UINT64_MOD } ∧
    s'.sent_desc_ = desc_offset + desc_length ∧
    s'.sent_data_ = data_end := by
  obtain ⟨-, h_assert, h_credit, h_space, hs'⟩ :=
    try_send_timeslice_true_inv ids sizeof_MD ds s s' timeslice c h_conn h_true
  subst h_desc_offset h_desc_length
  obtain ⟨e_off, e_len, e_end⟩ := ts_desc_end_eq s timeslice h32 (by omega)
  have e_last : u64_sub (ts_desc_end s timeslice) 1 =
      timeslice * s.timeslice_size_ + (s.timeslice_size_ + s.overlap_size_) - 1 := by
    rw [e_end]; unfold u64_sub UINT64_MOD at *; omega
  have e_data_offset : ts_data_offset ds s timeslice = data_offset := by
    rw [h_data_offset]; unfold ts_data_offset; rw [e_off]
  have e_data_end : ts_data_end ds s timeslice = data_end := by
    rw [h_data_end]; unfold ts_data_end u64_add
    rw [e_last]
    exact Nat.mod_eq_of_lt (by rw [← h_data_end]; exact h64_end)
  rw [e_data_offset, e_data_end] at h_assert
  have e_data_length : ts_data_length ds s timeslice = data_length := by
    unfold ts_data_length; rw [e_data_offset, e_data_end, h_data_length]
    unfold u64_sub UINT64_MOD at *; omega
  have e_total_length : ts_total_length sizeof_MD ds s timeslice =
      data_length + (s.timeslice_size_ + s.overlap_size_) * sizeof_MD := by
    unfold ts_total_length u64_add u64_mul; rw [e_data_length, e_len]
    have hlt : data_length + (s.timeslice_size_ + s.overlap_size_) * sizeof_MD <
        UINT64_MOD := by omega
    rw [Nat.mod_eq_of_lt (a := (s.timeslice_size_ + s.overlap_size_) * sizeof_MD) (by omega)]
    exact Nat.mod_eq_of_lt hlt
  have e_skip : c.skip_required (ts_total_length sizeof_MD ds s timeslice) = skip := by
    rw [e_total_length, h_skip]
  have e_total : ts_total_with_skip sizeof_MD ds s timeslice c = total := by
    unfold ts_total_with_skip u64_add
    rw [e_skip, e_total_length, h_total]
    exact Nat.mod_eq_of_lt (by omega)
  rw [e_total] at h_space hs'
  have e_w : ts_write_request ids sizeof_MD ds s timeslice c =
      { cn := timeslice % s.conn_.length,
        wr_id := write_desc_wr_id ids timeslice c.index,
        sge := desc_gather_list sizeof_MD ds.desc_send_buffer
            (timeslice * s.timeslice_size_) (s.timeslice_size_ + s.overlap_size_) ++
          data_gather_list ds.data_send_buffer data_offset data_length,
        num_desc_sge := (desc_gather_list sizeof_MD ds.desc_send_buffer
            (timeslice * s.timeslice_size_) (s.timeslice_size_ + s.overlap_size_)).length,
        timeslice := timeslice, desc_length := s.timeslice_size_ + s.overlap_size_,
        data_length := data_length, skip := skip } := by
    unfold ts_write_request
    rw [e_off, e_len, e_data_offset, e_data_length, e_skip]
    rfl
  rw [e_w, e_end, e_data_end] at hs'
  subst hs'
  exact ⟨rfl, h_assert, h_credit, h_space, rfl, rfl, by simp only; omega, rfl⟩


/-- Scenario S1 as an instance of C8: the write of timeslice 0 has 101 descriptors and
10100 data bytes, the write pointers advance by 10100 + 101 * 32 bytes and 1
descriptor, and `sent_desc_ = 101`, `sent_data_ = 10100`. -/
theorem successful_send_witness :
    try_send_timeslice scenario_ids 32 (S1_source scenario_stream)
      (S1_init scenario_stream) 0 = .ok (true, S1_after_send) ∧
    S1_after_send.submitted = (S1_init scenario_stream).submitted ++
      [{ cn := 0 % (S1_init scenario_stream).conn_.length,
         wr_id := write_desc_wr_id scenario_ids 0 (scenario_connection 0 0).index,
         sge := desc_gather_list 32 (S1_source scenario_stream).desc_send_buffer 0 101 ++
           data_gather_list (S1_source scenario_stream).data_send_buffer 0 10100,
         num_desc_sge :=
           (desc_gather_list 32 (S1_source scenario_stream).desc_send_buffer 0 101).length,
         timeslice := 0, desc_length := 101, data_length := 10100, skip := 0 }] ∧
    (0 : Nat) ≤ 10100 ∧
    (scenario_connection 0 0).write_request_available = true ∧
    (scenario_connection 0 0).check_for_buffer_space 13332 1 = true ∧
    S1_after_send.conn_ = (S1_init scenario_stream).conn_.set
      (0 % (S1_init scenario_stream).conn_.length)
      ((scenario_connection 0 0).send_data.inc_write_pointers 13332 1) ∧
    ((scenario_connection 0 0).send_data.inc_write_pointers 13332 1).peer_write_cursor =
      { desc := ((scenario_connection 0 0).peer_write_cursor.desc + 1) % UINT64_MOD,
        data := ((scenario_connection 0 0).peer_write_cursor.data + 13332) % UINT64_MOD } ∧
    S1_after_send.sent_desc_ = 0 + 101 ∧
    S1_after_send.sent_data_ = 10100 :=
  have h : try_send_timeslice scenario_ids 32 (S1_source scenario_stream)
      (S1_init scenario_stream) 0 = .ok (true, S1_after_send) := rfl
  ⟨h, successful_send scenario_ids 32 (S1_source scenario_stream) (S1_init scenario_stream)
    S1_after_send 0 (scenario_connection 0 0) 0 101 0 10100 10100 0 13332 h
    (by decide) (by decide) (by decide) (by decide) (by decide) (by decide) (by decide)
    (by decide) (by decide) (by decide) (by decide) (by decide) (by decide)⟩


/-! ### Scenario S1 -/

/-- With consecutive microslices from data offset 0, the offset of descriptor `k` is the
sum of the sizes of the descriptors before it. -/
theorem offset_eq_sum_sizes (desc : Nat → MicrosliceDescriptor) (n : Nat)
    (h0 : (desc 0).offset = 0)
    (hnext : ∀ i, i < n → (desc (i + 1)).offset = (desc i).offset + (desc i).size) :
    ∀ k, k ≤ n → (desc k).offset = ((List.range k).map (fun i => (desc i).size)).sum := by
  intro k
  induction k with
  | zero => intro _; simpa using h0
  | succ k ih =>
    intro hk
    rw [hnext k (by omega), ih (by omega), List.range_succ, List.map_append,
      List.sum_append]
    simp

/-- C9, as the code has it (scenario S1). Descriptor ring 1024, data ring 65536,
`timeslice_size` 100, `overlap_size` 1, one connection, 101 consecutive descriptors
starting at data offset 0 whose payloads sum to 10100 bytes: `try_send_timeslice(0)`
submits the write, and after its completion has gone through `on_completion`,
`acked_desc_ == 100` and `acked_data_` is the offset of descriptor 100, which is 10100
minus the size of that (overlap) descriptor. -/
theorem S1_acked_after_completion (desc : Nat → MicrosliceDescriptor)
    (h0 : (desc 0).offset = 0)
    (hnext : ∀ i, i < 100 → (desc (i + 1)).offset = (desc i).offset + (desc i).size)
    (hsum : ((List.range 101).map (fun i => (desc i).size)).sum = 10100) :
    ∃ s1 s2, try_send_timeslice scenario_ids 32 (S1_source desc) (S1_init desc) 0 =
        .ok (true, s1) ∧
      s1.submitted.map WriteRequest.wr_id = [write_desc_wr_id scenario_ids 0 0] ∧
      on_completion scenario_ids (S1_source desc) scenario_status s1
        (write_desc_wr_id scenario_ids 0 0) = .ok s2 ∧
      s2.acked_desc_ = 100 ∧
      s2.acked_data_ = (desc 100).offset ∧
      s2.acked_data_ + (desc 100).size = 10100 := by
  have hoff := offset_eq_sum_sizes desc 100 h0 hnext 100 (le_refl _)
  have h101 : ((List.range 101).map (fun i => (desc i).size)).sum =
      ((List.range 100).map (fun i => (desc i).size)).sum + (desc 100).size := by
    rw [List.range_succ, List.map_append, List.sum_append]
    simp
  have hend : (desc 100).offset + (desc 100).size = 10100 := by omega
  have hinit : S1_init desc = S1_sender := rfl
  rw [hinit]
  have h_at : ∀ n, n < 1024 → (S1_source desc).desc_buffer.at_ n = desc n := by
    intro n hn
    show desc ((S1_source desc).desc_buffer.slot n) = desc n
    rw [RingBuffer.slot_eq_mod]
    exact congrArg desc (Nat.mod_eq_of_lt hn)
  have h_dend : ts_desc_end S1_sender 0 = 101 := by decide
  have h_doff : ts_desc_offset S1_sender 0 = 0 := by decide
  have h_last : u64_sub 101 1 = 100 := by decide
  have h_end : ts_data_end (S1_source desc) S1_sender 0 = 10100 := by
    unfold ts_data_end
    rw [h_dend, h_last, h_at 100 (by omega)]
    unfold u64_add
    rw [hend]
    decide
  have h_off : ts_data_offset (S1_source desc) S1_sender 0 = 0 := by
    unfold ts_data_offset
    rw [h_doff, h_at 0 (by omega)]
    exact h0
  have h_total : ts_total_with_skip 32 (S1_source desc) S1_sender 0
      (scenario_connection 0 0) = 13332 := by
    unfold ts_total_with_skip ts_total_length ts_data_length
    rw [h_end, h_off]
    decide
  have h_avail : ts_desc_end S1_sender 0 ≤
      refreshed_write_index (S1_source desc) S1_sender 0 := by
    rw [h_dend]
    show 101 ≤ if S1_sender.write_index_desc_ < ts_desc_end S1_sender 0 then 101
      else S1_sender.write_index_desc_
    rw [h_dend, if_pos (by decide)]
  have h_send := try_send_timeslice_available scenario_ids 32 (S1_source desc) S1_sender 0
    (scenario_connection 0 0) h_avail (by rw [h_end, h_off]; omega) (by decide)
  rw [if_neg (by decide), h_total, if_pos (by decide)] at h_send
  have h_wr : [write_desc_wr_id scenario_ids 0 (scenario_connection 0 0).index] =
      [write_desc_wr_id scenario_ids 0 0] := by decide
  have hinv : AckInv [] S1_sender.ack_ 0 100 0 :=
    init_ack_inv scenario_data_source 100 1 1000 4 [scenario_connection 0 0]
  obtain ⟨s2, k, hs2, htsz2, -, -, hinv2⟩ :=
    on_completion_ack_step scenario_ids (S1_source desc) scenario_status
      { S1_sender with
        write_index_desc_ := refreshed_write_index (S1_source desc) S1_sender 0,
        conn_ := S1_sender.conn_.set (target_cn_index S1_sender 0)
          ((scenario_connection 0 0).send_data.inc_write_pointers 13332 1),
        submitted := S1_sender.submitted ++
          [ts_write_request scenario_ids 32 (S1_source desc) S1_sender 0
            (scenario_connection 0 0)],
        sent_desc_ := ts_desc_end S1_sender 0,
        sent_data_ := ts_data_end (S1_source desc) S1_sender 0 }
      (write_desc_wr_id scenario_ids 0 0) [] 0 hinv
      (by show 1 ≤ 100; decide) (by decide)
      (by show (write_desc_wr_id scenario_ids 0 0 >>> 8) &&& 0xFFFF <
            (S1_sender.conn_.set (target_cn_index S1_sender 0)
              ((scenario_connection 0 0).send_data.inc_write_pointers 13332 1)).length
          decide)
      (by simp)
      (by show wr_timeslice (write_desc_wr_id scenario_ids 0 0) < 0 + S1_sender.ack_.size
          decide)
      (by show (wr_timeslice (write_desc_wr_id scenario_ids 0 0) + 1) * 100 < UINT64_MOD
          decide)
  have hk : k = 1 := by
    rw [contiguous_acked_unique _ k hinv2.below hinv2.notin]
    decide
  have hd : s2.acked_desc_ = 100 := by
    rw [hinv2.acked, htsz2, hk]
    show 1 * 100 = 100
    decide
  have hda : s2.acked_data_ = (desc 100).offset := by
    obtain ⟨c, a, ack', hc, htsz, hw⟩ :=
      on_completion_write_desc_inv scenario_ids (S1_source desc) scenario_status
        (by decide) hs2
    obtain ⟨s3, hs3, -, hdesc, hdata, -⟩ :=
      on_completion_write_desc scenario_ids (S1_source desc) scenario_status
        (by decide) hc htsz hw
    have h23 : s2 = s3 := by
      rw [hs2] at hs3; injection hs3 with hs3
    subst h23
    rw [hdata, ← hdesc, hd]
    exact congrArg MicrosliceDescriptor.offset (h_at 100 (by omega))
  exact ⟨_, s2, h_send, h_wr, hs2, hd, hda, by rw [hda]; exact hend⟩

/-- C9 fails as stated. In scenario S1 with 101 microslices of 100 bytes each (payload
10100 bytes, starting at data offset 0), after the write of timeslice 0 has completed
through `on_completion`, `acked_desc_` is 100 but `acked_data_` is 10000, the offset of
descriptor 100, and not 10100. -/
theorem S1_acked_data_counterexample :
    ((List.range 101).map (fun i => ((S1_source scenario_stream).desc_buffer.at_ i).size)).sum
      = 10100 ∧
    ((S1_source scenario_stream).desc_buffer.at_ 0).offset = 0 ∧
    try_send_timeslice scenario_ids 32 (S1_source scenario_stream)
      (S1_init scenario_stream) 0 = .ok (true, S1_after_send) ∧
    S1_after_send.submitted.map WriteRequest.wr_id = [write_desc_wr_id scenario_ids 0 0] ∧
    on_completion scenario_ids (S1_source scenario_stream) scenario_status S1_after_send
      (write_desc_wr_id scenario_ids 0 0) = .ok S1_after_completion ∧
    S1_after_completion.acked_desc_ = 100 ∧
    S1_after_completion.acked_data_ = 10000 ∧
    ¬ (S1_after_completion.acked_desc_ = 100 ∧ S1_after_completion.acked_data_ = 10100) :=
  ⟨by decide, by decide, rfl, by decide, rfl, by decide, by decide, by decide⟩


/-- An instance of the amended C9: S1 with 101 microslices of 100 bytes each. -/
theorem S1_acked_after_completion_witness :
    ∃ s1 s2, try_send_timeslice scenario_ids 32 (S1_source scenario_stream)
        (S1_init scenario_stream) 0 = .ok (true, s1) ∧
      s1.submitted.map WriteRequest.wr_id = [write_desc_wr_id scenario_ids 0 0] ∧
      on_completion scenario_ids (S1_source scenario_stream) scenario_status s1
        (write_desc_wr_id scenario_ids 0 0) = .ok s2 ∧
      s2.acked_desc_ = 100 ∧
      s2.acked_data_ = (scenario_stream 100).offset ∧
      s2.acked_data_ + (scenario_stream 100).size = 10100 :=
  S1_acked_after_completion scenario_stream (by decide)
    (by intro i _; simp only [scenario_stream]; omega) (by decide)

/-! ### Write credits -/

/-- The timeslice is available but there is no target connection: no result. -/
theorem try_send_timeslice_no_conn (ids : RequestIdentifier) (sizeof_MD : Nat)
    (ds : InputBufferReadInterface) (s : InputChannelSender) (timeslice : Nat)
    (h_avail : ts_desc_end s timeslice ≤ refreshed_write_index ds s timeslice)
    (h_assert : ts_data_offset ds s timeslice ≤ ts_data_end ds s timeslice)
    (h_conn : s.conn_[target_cn_index s timeslice]? = none) :
    ∃ e, try_send_timeslice ids sizeof_MD ds s timeslice = .error e := by
  unfold refreshed_write_index at h_avail
  unfold try_send_timeslice
  simp only [ts_desc_end, ts_desc_offset, ts_desc_length, ts_data_offset, ts_data_end,
    target_cn_index] at *
  split
  · rename_i hlt
    rw [if_pos hlt] at h_avail
    simp only [ge_iff_le, if_pos h_avail, if_neg (not_lt.mpr h_assert), target_cn_index]
    split
    · exact ⟨_, rfl⟩
    · simp only [h_conn]
      exact ⟨_, rfl⟩
  · rename_i hlt
    rw [if_neg hlt] at h_avail
    simp only [ge_iff_le, if_pos h_avail, if_neg (not_lt.mpr h_assert), target_cn_index]
    split
    · exact ⟨_, rfl⟩
    · simp only [h_conn]
      exact ⟨_, rfl⟩

/-- Every returning call of `try_send_timeslice` either returns false and changes at
most `write_index_desc_`, or returns true after the checks of the credit and of the
buffer space and submits one write. -/
theorem try_send_timeslice_inv (ids : RequestIdentifier) (sizeof_MD : Nat)
    (ds : InputBufferReadInterface) (s s' : InputChannelSender) (timeslice : Nat) (b : Bool)
    (h : try_send_timeslice ids sizeof_MD ds s timeslice = .ok (b, s')) :
    (b = false ∧
      s' = { s with write_index_desc_ := refreshed_write_index ds s timeslice }) ∨
    (b = true ∧ ∃ c, s.conn_[target_cn_index s timeslice]? = some c ∧
      c.write_request_available = true ∧
      c.check_for_buffer_space (ts_total_with_skip sizeof_MD ds s timeslice c) 1 = true ∧
      s' = { s with
        write_index_desc_ := refreshed_write_index ds s timeslice,
        conn_ := s.conn_.set (target_cn_index s timeslice)
          (c.send_data.inc_write_pointers (ts_total_with_skip sizeof_MD ds s timeslice c) 1),
        submitted := s.submitted ++ [ts_write_request ids sizeof_MD ds s timeslice c],
        sent_desc_ := ts_desc_end s timeslice,
        sent_data_ := ts_data_end ds s timeslice }) := by
  by_cases h_avail : ts_desc_end s timeslice ≤ refreshed_write_index ds s timeslice
  · by_cases h_assert : ts_data_offset ds s timeslice ≤ ts_data_end ds s timeslice
    · cases hc : s.conn_[target_cn_index s timeslice]? with
      | none =>
        obtain ⟨e, he⟩ :=
          try_send_timeslice_no_conn ids sizeof_MD ds s timeslice h_avail h_assert hc
        rw [he] at h
        simp at h
      | some c =>
        cases b with
        | true =>
          obtain ⟨-, -, h1, h2, h3⟩ :=
            try_send_timeslice_true_inv ids sizeof_MD ds s s' timeslice c hc h
          exact Or.inr ⟨rfl, c, rfl, h1, h2, h3⟩
        | false =>
          left
          rw [try_send_timeslice_available ids sizeof_MD ds s timeslice c h_avail h_assert
            hc] at h
          split at h
          · injection h with h
            injection h with _ h
            exact ⟨rfl, h.symm⟩
          · split at h
            · simp at h
            · injection h with h
              injection h with _ h
              exact ⟨rfl, h.symm⟩
    · rw [try_send_timeslice_assert ids sizeof_MD ds s timeslice h_avail (by omega)] at h
      simp at h
  · rw [try_send_timeslice_underrun ids sizeof_MD ds s timeslice (by omega)] at h
    injection h with h
    injection h with hb h
    exact Or.inl ⟨hb.symm, h.symm⟩

/-- The connections after a completion that is not a write completion: unchanged, or one
connection has consumed its status message. -/
theorem on_completion_other_conn (ids : RequestIdentifier) (ds : InputBufferReadInterface)
    (msg : ComputeNodeStatusMessage) {s s' : InputChannelSender} {wr_id : Nat}
    (hkind : wr_id &&& 0xFF ≠ ids.ID_WRITE_DESC)
    (h : on_completion ids ds msg s wr_id = .ok s') :
    s'.conn_ = s.conn_ ∨
      ∃ cn c, s.conn_[cn]? = some c ∧ s'.conn_ = s.conn_.set cn (c.on_complete_recv msg) := by
  unfold on_completion at h
  simp only [hkind, if_false] at h
  split at h
  · split at h
    · exact absurd h (by simp)
    · rename_i c hc
      right
      refine ⟨_, c, hc, ?_⟩
      split at h <;>
      · injection h with h
        subst h
        rfl
  · split at h
    · injection h with h
      subst h
      exact Or.inl rfl
    · exact absurd h (by simp)

theorem credit_ok_set {l : List InputChannelConnection} {cn : Nat} {c : InputChannelConnection}
    (hl : ∀ x ∈ l, credit_ok x) (hc : credit_ok c) : ∀ x ∈ l.set cn c, credit_ok x := by
  intro x hx
  rcases List.mem_or_eq_of_mem_set hx with h | h
  · exact hl x h
  · exact h ▸ hc

/-- Every step of the sender keeps the credit state of every connection consistent. -/
theorem sender_step_credit (ids : RequestIdentifier) (sizeof_MD : Nat)
    (s s' : InputChannelSender) (hstep : SenderStep ids sizeof_MD s s')
    (hinv : ∀ c ∈ s.conn_, credit_ok c) : ∀ c ∈ s'.conn_, credit_ok c := by
  rcases hstep with ⟨ds, _, timeslice, b, _, h⟩ |
    ⟨ds, msg, _, wr_id, c, _, h_kind, h_conn, h_in_flight, h⟩ |
    ⟨ds, msg, _, wr_id, _, h_kind, h⟩
  · rcases try_send_timeslice_inv ids sizeof_MD ds s s' timeslice b h with
      ⟨-, hs'⟩ | ⟨-, c, hc, havail, -, hs'⟩
    · subst hs'; exact hinv
    · subst hs'
      have hcm : credit_ok c := hinv c (List.getElem?_mem hc)
      apply credit_ok_set hinv
      have hlt : c.in_flight_writes < c.max_pending_writes := by
        simpa [InputChannelConnection.write_request_available] using havail
      have hmax := hcm.2
      refine ⟨?_, hmax⟩
      show (c.in_flight_writes + 1) % 2 ^ 32 ≤ c.max_pending_writes
      omega
  · obtain ⟨c0, a, ack', hc0, htsz, hw⟩ := on_completion_write_desc_inv ids ds msg h_kind h
    obtain ⟨s2, hs2, -, -, -, hconn, -⟩ :=
      on_completion_write_desc ids ds msg h_kind hc0 htsz hw
    have h2 : s' = s2 := by
      rw [h] at hs2; injection hs2 with hs2
    subst h2
    rw [h_conn] at hc0
    injection hc0 with hc0
    subst hc0
    rw [hconn]
    have hcm : credit_ok c := hinv c (List.getElem?_mem h_conn)
    apply credit_ok_set hinv
    have h1 := hcm.1
    have hmax := hcm.2
    unfold credit_ok InputChannelConnection.on_complete_write
    simp only
    constructor
    · omega
    · exact hmax
  · rcases on_completion_other_conn ids ds msg h_kind h with hc | ⟨cn, c, hc, hs'⟩
    · rw [hc]; exact hinv
    · rw [hs']
      exact credit_ok_set hinv (hinv c (List.getElem?_mem hc))

/-- C5 (no over-commit of write credits). With `write_request_available()` true iff
`in_flight_writes < max_pending_writes`, `send_data` incrementing and
`on_complete_write` decrementing `in_flight_writes`: in every state reachable by steps
of `try_send_timeslice` and `on_completion` (a write completion arriving only for a
connection with a write in flight) from a state in which no connection is
over-committed, `in_flight_writes <= max_pending_writes` holds for every connection;
and `try_send_timeslice` submits to the connection `cn` only after
`write_request_available()` has returned true on it. -/
theorem no_over_commit (ids : RequestIdentifier) (sizeof_MD : Nat)
    (s0 s : InputChannelSender)
    (h_init : ∀ c ∈ s0.conn_,
      c.in_flight_writes ≤ c.max_pending_writes ∧ c.max_pending_writes < 2 ^ 32)
    (h_reach : Relation.ReflTransGen (SenderStep ids sizeof_MD) s0 s) :
    (∀ c ∈ s.conn_, c.in_flight_writes ≤ c.max_pending_writes) ∧
    (∀ (ds : InputBufferReadInterface) (timeslice : Nat) (s' : InputChannelSender),
      try_send_timeslice ids sizeof_MD ds s timeslice = .ok (true, s') →
      ∃ c, s.conn_[target_cn_index s timeslice]? = some c ∧
        c.write_request_available = true ∧
        s'.submitted = s.submitted ++ [ts_write_request ids sizeof_MD ds s timeslice c]) := by
  have hinv : ∀ c ∈ s.conn_, credit_ok c := by
    induction h_reach with
    | refl => exact h_init
    | tail _ hstep ih => exact sender_step_credit ids sizeof_MD _ _ hstep ih
  refine ⟨fun c hc => (hinv c hc).1, ?_⟩
  intro ds timeslice s' h
  rcases try_send_timeslice_inv ids sizeof_MD ds s s' timeslice true h with
    ⟨hb, -⟩ | ⟨-, c, hc, havail, -, hs'⟩
  · exact absurd hb (by simp)
  · exact ⟨c, hc, havail, by rw [hs']⟩

/-- An instance of C5: the state of S1 after `try_send_timeslice(0)` is reachable from
the constructed state, and its connection has 1 of at most 4 writes in flight. -/
theorem no_over_commit_witness :
    (∀ c ∈ S1_after_send.conn_, c.in_flight_writes ≤ c.max_pending_writes) ∧
    S1_after_send.conn_.map InputChannelConnection.in_flight_writes = [1] :=
  ⟨(no_over_commit scenario_ids 32 (S1_init scenario_stream) S1_after_send (by decide)
      (Relation.ReflTransGen.single
        (SenderStep.try_send (S1_source scenario_stream) (S1_init scenario_stream) 0 true
          S1_after_send rfl))).1,
    by decide⟩


/-! ### The main loop -/

/-- A returning call of `on_completion` submits nothing and keeps
`max_timeslice_number_`. -/
theorem on_completion_frame (ids : RequestIdentifier) (ds : InputBufferReadInterface)
    (msg : ComputeNodeStatusMessage) {s s' : InputChannelSender} {wr_id : Nat}
    (h : on_completion ids ds msg s wr_id = .ok s') :
    s'.submitted = s.submitted ∧ s'.max_timeslice_number_ = s.max_timeslice_number_ := by
  by_cases hkind : wr_id &&& 0xFF = ids.ID_WRITE_DESC
  · obtain ⟨c, a, ack', hc, htsz, hw⟩ := on_completion_write_desc_inv ids ds msg hkind h
    obtain ⟨s2, hs2, -, -, -, -, -, -, hmax, -, -, -, -, -, -, hsub⟩ :=
      on_completion_write_desc ids ds msg hkind hc htsz hw
    have h2 : s' = s2 := by
      rw [h] at hs2; injection hs2 with hs2
    subst h2
    exact ⟨hsub, hmax⟩
  · obtain ⟨-, -, -, -, -, -, -, -, hmax, -, -, -, -, -, hsub, -⟩ :=
      on_completion_other ids ds msg hkind h
    exact ⟨hsub, hmax⟩

theorem on_completions_frame (ids : RequestIdentifier) :
    ∀ (evs : List (InputBufferReadInterface × ComputeNodeStatusMessage × Nat))
      (s s' : InputChannelSender), on_completions ids s evs = .ok s' →
      s'.submitted = s.submitted ∧ s'.max_timeslice_number_ = s.max_timeslice_number_ := by
  intro evs
  induction evs with
  | nil =>
    intro s s' h
    simp only [on_completions] at h
    injection h with h
    subst h
    exact ⟨rfl, rfl⟩
  | cons e rest ih =>
    intro s s' h
    obtain ⟨ds, msg, wr_id⟩ := e
    simp only [on_completions] at h
    cases hstep : on_completion ids ds msg s wr_id with
    | error e => rw [hstep] at h; exact absurd h (by simp)
    | ok s1 =>
      rw [hstep] at h
      obtain ⟨h1, h2⟩ := on_completion_frame ids ds msg hstep
      obtain ⟨h3, h4⟩ := ih s1 s' h
      exact ⟨h3.trans h1, h4.trans h2⟩

/-- One iteration of the main loop: `timeslice` moves on by one exactly when
`try_send_timeslice` returned true, and then exactly one write, for that timeslice,
has been submitted; otherwise nothing has been submitted. -/
theorem loop_body_spec (ids : RequestIdentifier) (sizeof_MD : Nat) (env : LoopEnv)
    (st st1 : LoopState) (h : loop_body ids sizeof_MD env st = .ok st1) :
    st1.sender.max_timeslice_number_ = st.sender.max_timeslice_number_ ∧
    ∃ b s1, try_send_timeslice ids sizeof_MD env.data_source st.sender st.timeslice =
        .ok (b, s1) ∧
      ((b = true ∧ st1.timeslice = (st.timeslice + 1) % UINT64_MOD ∧
          ∃ w, st1.sender.submitted = st.sender.submitted ++ [w] ∧
            w.timeslice = st.timeslice) ∨
        (b = false ∧ st1.timeslice = st.timeslice ∧
          st1.sender.submitted = st.sender.submitted)) := by
  unfold loop_body at h
  cases hsend :
      try_send_timeslice ids sizeof_MD env.data_source st.sender st.timeslice with
  | error e => rw [hsend] at h; exact absurd h (by simp)
  | ok r =>
    obtain ⟨b, s1⟩ := r
    rw [hsend] at h
    simp only at h
    cases hpoll : on_completions ids s1 env.completions with
    | error e => rw [hpoll] at h; exact absurd h (by simp)
    | ok s2 =>
      rw [hpoll] at h
      simp only at h
      injection h with h
      subst h
      obtain ⟨hsub, hmax⟩ := on_completions_frame ids env.completions s1 s2 hpoll
      rcases try_send_timeslice_inv ids sizeof_MD env.data_source st.sender s1 st.timeslice
          b hsend with ⟨hb, hs1⟩ | ⟨hb, c, -, -, -, hs1⟩
      · subst hb
        refine ⟨?_, false, s1, rfl, Or.inr ⟨rfl, rfl, ?_⟩⟩
        · show s2.max_timeslice_number_ = _
          rw [hmax, hs1]
        · show s2.submitted = _
          rw [hsub, hs1]
      · subst hb
        refine ⟨?_, true, s1, rfl, Or.inl ⟨rfl, rfl,
          ts_write_request ids sizeof_MD env.data_source st.sender st.timeslice c, ?_, rfl⟩⟩
        · show s2.max_timeslice_number_ = _
          rw [hmax, hs1]
        · show s2.submitted = _
          rw [hsub, hs1]

/-- The main loop does nothing when the loop condition fails at the loop head. -/
theorem main_loop_exit (ids : RequestIdentifier) (sizeof_MD : Nat) (envs : List LoopEnv)
    (st : LoopState) (h : loop_condition st = false) :
    main_loop ids sizeof_MD envs st = .ok st := by
  cases envs with
  | nil => rfl
  | cons env rest => simp [main_loop, h]

/-- The loop invariant: the submitted timeslices are `0 .. timeslice-1`, in this order,
and `timeslice` has not passed `max_timeslice_number_`. -/
theorem main_loop_invariant (ids : RequestIdentifier) (sizeof_MD : Nat) (max : Nat)
    (hmax : max < UINT64_MOD) :
    ∀ (envs : List LoopEnv) (st st' : LoopState),
      st.sender.submitted.map WriteRequest.timeslice = List.range st.timeslice →
      st.timeslice ≤ max → st.sender.max_timeslice_number_ = max →
      main_loop ids sizeof_MD envs st = .ok st' →
      st'.sender.submitted.map WriteRequest.timeslice = List.range st'.timeslice ∧
        st'.timeslice ≤ max ∧ st'.sender.max_timeslice_number_ = max := by
  intro envs
  induction envs with
  | nil =>
    intro st st' h1 h2 h3 h
    simp only [main_loop] at h
    injection h with h
    subst h
    exact ⟨h1, h2, h3⟩
  | cons env rest ih =>
    intro st st' h1 h2 h3 h
    simp only [main_loop] at h
    by_cases hcond : loop_condition st = true
    · rw [if_pos hcond] at h
      cases hbody : loop_body ids sizeof_MD env st with
      | error e => rw [hbody] at h; exact absurd h (by simp)
      | ok st1 =>
        rw [hbody] at h
        simp only at h
        have hlt : st.timeslice < max := by
          simp only [loop_condition, Bool.and_eq_true, decide_eq_true_eq] at hcond
          rw [← h3]; exact hcond.1
        obtain ⟨hm, b, s1, -, hcase⟩ := loop_body_spec ids sizeof_MD env st st1 hbody
        rcases hcase with ⟨-, hts, w, hsub, hw⟩ | ⟨-, hts, hsub⟩
        · have hts' : st1.timeslice = st.timeslice + 1 := by
            rw [hts]; exact Nat.mod_eq_of_lt (by omega)
          refine ih st1 st' ?_ (by omega) (by rw [hm]; exact h3) h
          rw [hsub, hts', List.map_append, h1, List.range_succ]
          simp [hw]
        · refine ih st1 st' ?_ (by omega) (by rw [hm]; exact h3) h
          rw [hsub, hts]; exact h1
    · rw [if_neg hcond] at h
      injection h with h
      subst h
      exact ⟨h1, h2, h3⟩

/-- C10 (the main send loop submits each timeslice exactly once, in increasing order).
At every loop head the main loop reaches from `timeslice = 0` and a sender that has
submitted nothing: the submitted timeslices (those for which `try_send_timeslice` has
returned true) are exactly `0, 1, ..., timeslice - 1`, each once and in this order;
`timeslice <= max_timeslice_number_` and no timeslice `>= max_timeslice_number_` has
been submitted; in one more iteration `timeslice` increases by one exactly when
`try_send_timeslice(timeslice)` returns true, and that call submits exactly one write,
for `timeslice`, while a call that returns false submits nothing; and once `abort_` is
set at the loop head the loop runs no further iteration, so nothing is submitted
after it. -/
theorem main_loop_in_order (ids : RequestIdentifier) (sizeof_MD : Nat)
    (envs : List LoopEnv) (s0 : InputChannelSender) (st : LoopState)
    (h_start : s0.submitted = [])
    (h_max : s0.max_timeslice_number_ < UINT64_MOD)
    (h_run : main_loop ids sizeof_MD envs { timeslice := 0, sender := s0 } = .ok st) :
    st.sender.submitted.map WriteRequest.timeslice = List.range st.timeslice ∧
    st.timeslice ≤ s0.max_timeslice_number_ ∧
    (∀ w ∈ st.sender.submitted, w.timeslice < s0.max_timeslice_number_) ∧
    (∀ (env : LoopEnv) (st1 : LoopState), loop_condition st = true →
      loop_body ids sizeof_MD env st = .ok st1 →
      ∃ b s1, try_send_timeslice ids sizeof_MD env.data_source st.sender st.timeslice =
          .ok (b, s1) ∧
        ((b = true ∧ st1.timeslice = st.timeslice + 1 ∧
            ∃ w, st1.sender.submitted = st.sender.submitted ++ [w] ∧
              w.timeslice = st.timeslice) ∨
          (b = false ∧ st1.timeslice = st.timeslice ∧
            st1.sender.submitted = st.sender.submitted))) ∧
    (st.sender.abort_ = true →
      ∀ envs' : List LoopEnv, main_loop ids sizeof_MD envs' st = .ok st) := by
  obtain ⟨hsub, hle, hmax⟩ :=
    main_loop_invariant ids sizeof_MD s0.max_timeslice_number_ h_max envs
      { timeslice := 0, sender := s0 } st (by simp [h_start]) (Nat.zero_le _) rfl h_run
  refine ⟨hsub, hle, ?_, ?_, ?_⟩
  · intro w hw
    have hmem : w.timeslice ∈ st.sender.submitted.map WriteRequest.timeslice :=
      List.mem_map_of_mem _ hw
    rw [hsub] at hmem
    have := List.mem_range.mp hmem
    omega
  · intro env st1 hcond hbody
    obtain ⟨-, b, s1, hsend, hcase⟩ := loop_body_spec ids sizeof_MD env st st1 hbody
    have hlt : st.timeslice < s0.max_timeslice_number_ := by
      simp only [loop_condition, Bool.and_eq_true, decide_eq_true_eq] at hcond
      rw [← hmax]; exact hcond.1
    refine ⟨b, s1, hsend, ?_⟩
    rcases hcase with ⟨hb, hts, hw⟩ | hfalse
    · exact Or.inl ⟨hb, by rw [hts]; exact Nat.mod_eq_of_lt (by omega), hw⟩
    · exact Or.inr hfalse
  · intro habort envs'
    exact main_loop_exit ids sizeof_MD envs' st (by simp [loop_condition, habort])

/-- An instance of C10: two iterations on the sender of S1 submit the timeslices 0 and
1, in this order. -/
theorem main_loop_in_order_witness :
    main_loop scenario_ids 32 scenario_loop_envs { timeslice := 0, sender := S1_sender } =
      .ok scenario_loop_result ∧
    scenario_loop_result.timeslice = 2 ∧
    scenario_loop_result.sender.submitted.map WriteRequest.timeslice = [0, 1] ∧
    scenario_loop_result.sender.submitted.map WriteRequest.timeslice =
      List.range scenario_loop_result.timeslice ∧
    scenario_loop_result.timeslice ≤ S1_sender.max_timeslice_number_ :=
  have h : main_loop scenario_ids 32 scenario_loop_envs
      { timeslice := 0, sender := S1_sender } = .ok scenario_loop_result := rfl
  have hc := main_loop_in_order scenario_ids 32 scenario_loop_envs S1_sender
    scenario_loop_result (by decide) (by decide) h
  ⟨h, by decide, by decide, hc.1, hc.2.1⟩


/-! ### Lazy publication of the read index -/

/-- What a returning write completion does with the cached read index: it is published
and stored exactly when the test of `on_completion` succeeds. -/
theorem on_completion_publish (ids : RequestIdentifier) (ds : InputBufferReadInterface)
    (msg : ComputeNodeStatusMessage) {s s' : InputChannelSender} {wr_id : Nat}
    (hkind : wr_id &&& 0xFF = ids.ID_WRITE_DESC)
    (h : on_completion ids ds msg s wr_id = .ok s') :
    ((s'.acked_data_ ≥ (s.cached_acked_data_ + s.min_acked_data_) % UINT64_MOD ∨
        s'.acked_desc_ ≥ (s.cached_acked_desc_ + s.min_acked_desc_) % UINT64_MOD) →
      s'.read_index_calls =
        s.read_index_calls ++ [{ desc := s'.acked_desc_, data := s'.acked_data_ }] ∧
      s'.cached_acked_desc_ = s'.acked_desc_ ∧ s'.cached_acked_data_ = s'.acked_data_) ∧
    (¬ (s'.acked_data_ ≥ (s.cached_acked_data_ + s.min_acked_data_) % UINT64_MOD ∨
        s'.acked_desc_ ≥ (s.cached_acked_desc_ + s.min_acked_desc_) % UINT64_MOD) →
      s'.read_index_calls = s.read_index_calls ∧
      s'.cached_acked_desc_ = s.cached_acked_desc_ ∧
      s'.cached_acked_data_ = s.cached_acked_data_) := by
  unfold on_completion at h
  simp only [hkind, if_true] at h
  split at h
  · exact absurd h (by simp)
  · split at h
    · exact absurd h (by simp)
    · split at h
      · exact absurd h (by simp)
      · split at h
        · rename_i hcond
          injection h with h
          subst h
          exact ⟨fun _ => ⟨rfl, rfl, rfl⟩, fun hn => absurd hcond hn⟩
        · rename_i hcond
          injection h with h
          subst h
          exact ⟨fun hc => absurd hc hcond, fun _ => ⟨rfl, rfl, rfl⟩⟩

/-- C13 (amended: overlap of consecutive timeslices inside the integer ranges). With
`timeslice_size_ + overlap_size_`
inside `uint32_t` and the indices inside `uint64_t`, `try_send_timeslice` uses for
timeslice `T` the descriptor range `[T * timeslice_size, T * timeslice_size +
timeslice_size + overlap_size)`: a call that returns true has seen the write index at
or after the end of the range, sets `sent_desc_` to that end and submits a write whose
descriptor chunks are those of the range. The ranges of `T` and `T + 1` have exactly
the `overlap_size` indices from `(T + 1) * timeslice_size` on in common, and these are
the last `overlap_size` indices of `T` and the first `overlap_size` indices of
`T + 1`. -/
theorem consecutive_overlap (ids : RequestIdentifier) (sizeof_MD : Nat)
    (ds : InputBufferReadInterface) (s : InputChannelSender) (T : Nat)
    (h32 : s.timeslice_size_ + s.overlap_size_ < 2 ^ 32)
    (h64 : (T + 1) * s.timeslice_size_ + s.timeslice_size_ + s.overlap_size_ < UINT64_MOD) :
    ts_desc_range s T =
      List.range' (T * s.timeslice_size_) (s.timeslice_size_ + s.overlap_size_) ∧
    ts_desc_range s (T + 1) =
      List.range' ((T + 1) * s.timeslice_size_) (s.timeslice_size_ + s.overlap_size_) ∧
    (∀ i, (i ∈ ts_desc_range s T ∧ i ∈ ts_desc_range s (T + 1)) ↔
      ((T + 1) * s.timeslice_size_ ≤ i ∧
        i < (T + 1) * s.timeslice_size_ + s.overlap_size_)) ∧
    (ts_desc_range s T).drop s.timeslice_size_ =
      (ts_desc_range s (T + 1)).take s.overlap_size_ ∧
    ((ts_desc_range s T).drop s.timeslice_size_).length = s.overlap_size_ ∧
    (∀ s', try_send_timeslice ids sizeof_MD ds s T = .ok (true, s') →
      T * s.timeslice_size_ + s.timeslice_size_ + s.overlap_size_ ≤ s'.write_index_desc_ ∧
      s'.sent_desc_ = T * s.timeslice_size_ + s.timeslice_size_ + s.overlap_size_ ∧
      ∃ w, s'.submitted = s.submitted ++ [w] ∧ w.timeslice = T ∧
        w.desc_length = s.timeslice_size_ + s.overlap_size_ ∧
        w.sge.take w.num_desc_sge = desc_gather_list sizeof_MD ds.desc_send_buffer
          (T * s.timeslice_size_) (s.timeslice_size_ + s.overlap_size_)) := by
  have hT1 : (T + 1) * s.timeslice_size_ = T * s.timeslice_size_ + s.timeslice_size_ :=
    Nat.succ_mul T _
  obtain ⟨hoff, hlen, hend⟩ := ts_desc_end_eq s T h32 (by omega)
  obtain ⟨hoff1, -, -⟩ := ts_desc_end_eq s (T + 1) h32 h64
  have hr : ts_desc_range s T =
      List.range' (T * s.timeslice_size_) (s.timeslice_size_ + s.overlap_size_) := by
    unfold ts_desc_range
    rw [hoff, hlen]
  have hr1 : ts_desc_range s (T + 1) =
      List.range' ((T + 1) * s.timeslice_size_) (s.timeslice_size_ + s.overlap_size_) := by
    unfold ts_desc_range
    rw [hoff1, hlen]
  refine ⟨hr, hr1, ?_, ?_, ?_, ?_⟩
  · intro i
    rw [hr, hr1]
    simp only [List.mem_range'_1]
    omega
  · rw [hr, hr1]
    apply List.ext_getElem
    · simp
    · intro n h1 h2
      simp only [List.getElem_drop, List.getElem_take, List.getElem_range'_1]
      omega
  · rw [hr]
    simp
  · intro s' h
    rcases try_send_timeslice_inv ids sizeof_MD ds s s' T true h with
      ⟨hb, -⟩ | ⟨-, c, hc, -, -, -⟩
    · exact absurd hb (by decide)
    · obtain ⟨h_avail, -, -, -, hs'⟩ :=
        try_send_timeslice_true_inv ids sizeof_MD ds s s' T c hc h
      subst hs'
      refine ⟨?_, hend, ts_write_request ids sizeof_MD ds s T c, rfl, rfl, hlen, ?_⟩
      · show T * s.timeslice_size_ + s.timeslice_size_ + s.overlap_size_ ≤
          refreshed_write_index ds s T
        rw [← hend]
        exact h_avail
      · show (desc_gather_list sizeof_MD ds.desc_send_buffer (ts_desc_offset s T)
            (ts_desc_length s) ++ _).take
            (desc_gather_list sizeof_MD ds.desc_send_buffer (ts_desc_offset s T)
              (ts_desc_length s)).length = _
        rw [List.take_left, hoff, hlen]

/-- An instance of C13: in S1 (timeslices of 100 with an overlap of 1) timeslices 0 and
1 share the one descriptor index 100. -/
theorem consecutive_overlap_witness :
    (ts_desc_range (S1_init scenario_stream) 0).drop 100 =
      (ts_desc_range (S1_init scenario_stream) 1).take 1 ∧
    (ts_desc_range (S1_init scenario_stream) 0).drop 100 = [100] :=
  ⟨(consecutive_overlap scenario_ids 32 (S1_source scenario_stream)
      (S1_init scenario_stream) 0 (by decide) (by decide)).2.2.2.1,
    by decide⟩

/-! ### The target connection, the encoding of `wr_id`, the kinds of completions -/

/-- The value of the encoded `wr_id` when the fields do not overlap. -/
theorem write_desc_wr_id_eq (ids : RequestIdentifier) (T c : Nat)
    (hT : T < 2 ^ 40) (hc : c < 2 ^ 16) (h_id : ids.ID_WRITE_DESC < 256) :
    write_desc_wr_id ids T c = T * 2 ^ 24 + c * 2 ^ 8 + ids.ID_WRITE_DESC := by
  unfold write_desc_wr_id UINT64_MOD
  rw [Nat.shiftLeft_eq, Nat.shiftLeft_eq, Nat.mod_eq_of_lt (by omega),
    Nat.mod_eq_of_lt (by omega), Nat.or_assoc]
  have h1 : c * 2 ^ 8 ||| ids.ID_WRITE_DESC = c * 2 ^ 8 + ids.ID_WRITE_DESC := by
    rw [Nat.mul_comm c, ← Nat.mul_add_lt_is_or (show ids.ID_WRITE_DESC < 2 ^ 8 by omega)]
  rw [h1]
  have h2 : T * 2 ^ 24 ||| (c * 2 ^ 8 + ids.ID_WRITE_DESC) =
      T * 2 ^ 24 + (c * 2 ^ 8 + ids.ID_WRITE_DESC) := by
    rw [Nat.mul_comm T, ← Nat.mul_add_lt_is_or
      (show c * 2 ^ 8 + ids.ID_WRITE_DESC < 2 ^ 24 by omega)]
  rw [h2]
  omega

/-- C15 (decoding undoes encoding). For `T < 2^40`, `c < 2^16` and an identifier
`ID_WRITE_DESC` that fits the low byte, the value
`wr_id = (T << 24) | (c << 8) | ID_WRITE_DESC` is a `uint64_t` from which
`on_completion` recovers `ts = wr_id >> 24 = T`, `cn = (wr_id >> 8) & 0xFFFF = c` and
the kind `wr_id & 0xFF = ID_WRITE_DESC`: a returning call gives the credit back on
connection `c` and, when `T` is not the first unacknowledged timeslice, records `T` in
the slot of `T` of the ack ring. -/
theorem wr_id_round_trip (ids : RequestIdentifier) (T c : Nat)
    (hT : T < 2 ^ 40) (hc : c < 2 ^ 16) (h_id : ids.ID_WRITE_DESC < 256) :
    write_desc_wr_id ids T c < UINT64_MOD ∧
    write_desc_wr_id ids T c >>> 24 = T ∧
    (write_desc_wr_id ids T c >>> 8) &&& 0xFFFF = c ∧
    write_desc_wr_id ids T c &&& 0xFF = ids.ID_WRITE_DESC ∧
    (∀ ds msg s s', on_completion ids ds msg s (write_desc_wr_id ids T c) = .ok s' →
      ∃ conn, s.conn_[c]? = some conn ∧
        s'.conn_ = s.conn_.set c conn.on_complete_write ∧
        (T ≠ s.acked_desc_ / s.timeslice_size_ → s'.ack_ = s.ack_.assign T T)) := by
  have hw := write_desc_wr_id_eq ids T c hT hc h_id
  have e1 : (0xFFFF : Nat) = 2 ^ 16 - 1 := by norm_num
  have e2 : (0xFF : Nat) = 2 ^ 8 - 1 := by norm_num
  have h_ts : write_desc_wr_id ids T c >>> 24 = T := by
    rw [hw, Nat.shiftRight_eq_div_pow]
    omega
  have h_cn : (write_desc_wr_id ids T c >>> 8) &&& 0xFFFF = c := by
    rw [hw, e1, Nat.and_pow_two_sub_one_eq_mod, Nat.shiftRight_eq_div_pow]
    omega
  have h_kind : write_desc_wr_id ids T c &&& 0xFF = ids.ID_WRITE_DESC := by
    rw [hw, e2, Nat.and_pow_two_sub_one_eq_mod]
    omega
  refine ⟨?_, h_ts, h_cn, h_kind, ?_⟩
  · rw [hw]
    unfold UINT64_MOD
    omega
  · intro ds msg s s' h
    obtain ⟨conn, a, ack', h_conn, htsz, hwalk⟩ :=
      on_completion_write_desc_inv ids ds msg h_kind h
    obtain ⟨s2, hs2, h_ack, -, -, h_set, -⟩ :=
      on_completion_write_desc ids ds msg h_kind h_conn htsz hwalk
    have h2 : s' = s2 := by
      rw [h] at hs2; injection hs2 with hs2
    subst h2
    rw [h_cn] at h_conn h_set
    refine ⟨conn, h_conn, h_set, ?_⟩
    intro hne
    rw [h_ts, if_neg hne] at hwalk
    injection hwalk with hwalk
    rw [h_ack]
    exact (congrArg Prod.snd hwalk).symm

/-- An instance of C15: timeslice 5 on connection 3 with the identifiers of the
scenarios. -/
theorem wr_id_round_trip_witness :
    write_desc_wr_id scenario_ids 5 3 >>> 24 = 5 ∧
    (write_desc_wr_id scenario_ids 5 3 >>> 8) &&& 0xFFFF = 3 ∧
    write_desc_wr_id scenario_ids 5 3 &&& 0xFF = scenario_ids.ID_WRITE_DESC :=
  ⟨(wr_id_round_trip scenario_ids 5 3 (by decide) (by decide) (by decide)).2.1,
    (wr_id_round_trip scenario_ids 5 3 (by decide) (by decide) (by decide)).2.2.1,
    (wr_id_round_trip scenario_ids 5 3 (by decide) (by decide) (by decide)).2.2.2.1⟩

/-- C16 (kinds of completions). `on_completion(wr_id)` ends with the fatal error for an
unknown completion if and only if the low byte of `wr_id` is none of `ID_WRITE_DESC`,
`ID_RECEIVE_STATUS`, `ID_SEND_STATUS`; for `ID_SEND_STATUS` (an identifier different
from the other two) it returns and changes nothing of the state of the sender. -/
theorem unknown_wr_id_iff (ids : RequestIdentifier) (ds : InputBufferReadInterface)
    (msg : ComputeNodeStatusMessage) (s : InputChannelSender) (wr_id : Nat)
    (h_write : ids.ID_SEND_STATUS ≠ ids.ID_WRITE_DESC)
    (h_recv : ids.ID_SEND_STATUS ≠ ids.ID_RECEIVE_STATUS) :
    (on_completion ids ds msg s wr_id = .error .unknown_wr_id ↔
      (wr_id &&& 0xFF ≠ ids.ID_WRITE_DESC ∧ wr_id &&& 0xFF ≠ ids.ID_RECEIVE_STATUS ∧
        wr_id &&& 0xFF ≠ ids.ID_SEND_STATUS)) ∧
    (wr_id &&& 0xFF = ids.ID_SEND_STATUS → on_completion ids ds msg s wr_id = .ok s) := by
  constructor
  · constructor
    · intro h
      by_cases hW : wr_id &&& 0xFF = ids.ID_WRITE_DESC
      · exfalso
        unfold on_completion at h
        simp only [hW, if_true] at h
        split at h
        · simp at h
        · split at h
          · simp at h
          · split at h
            · simp at h
            · split at h <;> simp at h
      · by_cases hR : wr_id &&& 0xFF = ids.ID_RECEIVE_STATUS
        · exfalso
          unfold on_completion at h
          rw [if_neg hW, if_pos hR] at h
          dsimp only at h
          split at h
          · simp at h
          · split at h <;> simp at h
        · by_cases hS : wr_id &&& 0xFF = ids.ID_SEND_STATUS
          · exfalso
            unfold on_completion at h
            rw [if_neg hW, if_neg hR, if_pos hS] at h
            simp at h
          · exact ⟨hW, hR, hS⟩
    · rintro ⟨hW, hR, hS⟩
      unfold on_completion
      rw [if_neg hW, if_neg hR, if_neg hS]
  · intro hS
    unfold on_completion
    rw [if_neg (by rw [hS]; exact h_write), if_neg (by rw [hS]; exact h_recv), if_pos hS]

/-- An instance of C16: a completion of kind `ID_SEND_STATUS` in S1. -/
theorem unknown_wr_id_iff_witness :
    on_completion scenario_ids (S1_source scenario_stream) scenario_status
      S1_after_send 4 = .ok S1_after_send :=
  (unknown_wr_id_iff scenario_ids (S1_source scenario_stream) scenario_status
    S1_after_send 4 (by decide) (by decide)).2 (by decide)


/-! ### Status messages: abort and done -/

theorem countP_set_balance {α : Type} (p : α → Bool) (a c : α) :
    ∀ (l : List α) (i : Nat), l[i]? = some c →
      (l.set i a).countP p + (if p c then 1 else 0) =
        l.countP p + (if p a then 1 else 0)
  | [], i, h => by simp at h
  | x :: l, 0, h => by
    simp only [List.getElem?_cons_zero, Option.some.injEq] at h
    subst h
    simp only [List.set_cons_zero, List.countP_cons]
    omega
  | x :: l, i + 1, h => by
    simp only [List.getElem?_cons_succ] at h
    have ih := countP_set_balance p a c l i h
    simp only [List.set_cons_succ, List.countP_cons]
    omega

/-- The result of `on_completion` on a status message received, field by field. -/
theorem on_completion_receive_status (ids : RequestIdentifier)
    (ds : InputBufferReadInterface) (msg : ComputeNodeStatusMessage)
    {s : InputChannelSender} {wr_id : Nat} {c : InputChannelConnection}
    (h_write : wr_id &&& 0xFF ≠ ids.ID_WRITE_DESC)
    (h_kind : wr_id &&& 0xFF = ids.ID_RECEIVE_STATUS)
    (h_conn : s.conn_[(wr_id >>> 8) % 2 ^ 32]? = some c) :
    ∃ s', on_completion ids ds msg s wr_id = .ok s' ∧
      s'.conn_ = s.conn_.set ((wr_id >>> 8) % 2 ^ 32) (c.on_complete_recv msg) ∧
      s'.abort_ = (s.abort_ || (c.on_complete_recv msg).request_abort_flag) ∧
      ((c.on_complete_recv msg).done = true →
        s'.connections_done_ = s.connections_done_ + 1 ∧
        s'.all_done_ = decide (s'.connections_done_ = s'.conn_.length)) ∧
      ((c.on_complete_recv msg).done = false →
        s'.connections_done_ = s.connections_done_ ∧ s'.all_done_ = s.all_done_) := by
  unfold on_completion
  rw [if_neg h_write, if_pos h_kind]
  simp only [h_conn]
  split
  · rename_i hd
    refine ⟨_, rfl, rfl, rfl, fun _ => ⟨rfl, ?_⟩, fun hn => ?_⟩
    · simp
    · rw [hd] at hn
      exact absurd hn (by decide)
  · rename_i hd
    exact ⟨_, rfl, rfl, rfl, fun h => absurd h hd, fun _ => ⟨rfl, rfl⟩⟩

/-- A returning write completion keeps the done counter and the done flags. -/
theorem on_completion_write_done (ids : RequestIdentifier) (ds : InputBufferReadInterface)
    (msg : ComputeNodeStatusMessage) {s s' : InputChannelSender} {wr_id : Nat}
    (hkind : wr_id &&& 0xFF = ids.ID_WRITE_DESC)
    (h : on_completion ids ds msg s wr_id = .ok s') :
    s'.connections_done_ = s.connections_done_ ∧ s'.all_done_ = s.all_done_ ∧
    ∃ c, s.conn_[(wr_id >>> 8) &&& 0xFFFF]? = some c ∧
      s'.conn_ = s.conn_.set ((wr_id >>> 8) &&& 0xFFFF) c.on_complete_write := by
  unfold on_completion at h
  simp only [hkind, if_true] at h
  split at h
  · exact absurd h (by simp)
  · rename_i c hc
    split at h
    · exact absurd h (by simp)
    · split at h
      · exact absurd h (by simp)
      · split at h <;>
        · injection h with h
          subst h
          exact ⟨rfl, rfl, c, hc, rfl⟩

/-- What the completions maintain when no connection reports done twice: the counter
`connections_done_` is the number of done connections and `all_done_` tells whether it
is the number of connections. -/
theorem on_completion_done_step (ids : RequestIdentifier) (ds : InputBufferReadInterface)
    (msg : ComputeNodeStatusMessage) (s s' : InputChannelSender) (wr_id : Nat)
    (h_count : s.connections_done_ = s.conn_.countP (fun c => c.done))
    (h_all : s.all_done_ = decide (s.connections_done_ = s.conn_.length))
    (h_once : (decide (wr_id &&& 0xFF ≠ ids.ID_RECEIVE_STATUS) ||
      (s.conn_[(wr_id >>> 8) % 2 ^ 32]?).all (fun c => !c.done)) = true)
    (h : on_completion ids ds msg s wr_id = .ok s') :
    s'.connections_done_ = s'.conn_.countP (fun c => c.done) ∧
    s'.all_done_ = decide (s'.connections_done_ = s'.conn_.length) ∧
    s'.conn_.length = s.conn_.length := by
  by_cases hW : wr_id &&& 0xFF = ids.ID_WRITE_DESC
  · obtain ⟨h1, h2, c, hc, hset⟩ := on_completion_write_done ids ds msg hW h
    have hbal := countP_set_balance (fun c => c.done) c.on_complete_write c s.conn_ _ hc
    have hd : c.on_complete_write.done = c.done := by
      unfold InputChannelConnection.on_complete_write
      rfl
    simp only [hd] at hbal
    rw [h1, h2, hset, List.length_set]
    refine ⟨?_, h_all, rfl⟩
    rw [h_count]
    omega
  · by_cases hR : wr_id &&& 0xFF = ids.ID_RECEIVE_STATUS
    · cases hc : s.conn_[(wr_id >>> 8) % 2 ^ 32]? with
      | none =>
        exfalso
        unfold on_completion at h
        rw [if_neg hW, if_pos hR] at h
        simp only [hc] at h
        simp at h
      | some c =>
        obtain ⟨s2, hs2, hset, -, hdone, hnot⟩ :=
          on_completion_receive_status ids ds msg hW hR hc
        have h2 : s' = s2 := by
          rw [h] at hs2; injection hs2 with hs2
        subst h2
        have hcd : c.done = false := by
          rw [hc] at h_once
          simpa [hR] using h_once
        have hbal := countP_set_balance (fun c => c.done) (c.on_complete_recv msg) c
          s.conn_ _ hc
        simp only [hcd] at hbal
        have hlen : s'.conn_.length = s.conn_.length := by
          rw [hset, List.length_set]
        rw [← hset] at hbal
        cases hd : (c.on_complete_recv msg).done with
        | true =>
          obtain ⟨h1, h2⟩ := hdone hd
          simp only [hd] at hbal
          refine ⟨?_, h2, hlen⟩
          rw [h1, h_count]
          simpa using hbal.symm
        | false =>
          obtain ⟨h1, h2⟩ := hnot hd
          simp only [hd] at hbal
          refine ⟨?_, ?_, hlen⟩
          · rw [h1, h_count]
            simpa using hbal.symm
          · rw [h2, h1, hlen]
            exact h_all
    · unfold on_completion at h
      rw [if_neg hW, if_neg hR] at h
      split at h
      · injection h with h
        subst h
        exact ⟨h_count, h_all, rfl⟩
      · exact absurd h (by simp)

theorem on_completions_done (ids : RequestIdentifier) :
    ∀ (evs : List (InputBufferReadInterface × ComputeNodeStatusMessage × Nat))
      (s s' : InputChannelSender),
      s.connections_done_ = s.conn_.countP (fun c => c.done) →
      s.all_done_ = decide (s.connections_done_ = s.conn_.length) →
      reports_done_once ids s evs = true →
      on_completions ids s evs = .ok s' →
      s'.connections_done_ = s'.conn_.countP (fun c => c.done) ∧
      s'.all_done_ = decide (s'.connections_done_ = s'.conn_.length) ∧
      s'.conn_.length = s.conn_.length
  | [], s, s', h_count, h_all, _, h => by
    simp only [on_completions] at h
    injection h with h
    subst h
    exact ⟨h_count, h_all, rfl⟩
  | (ds, msg, wr_id) :: rest, s, s', h_count, h_all, h_once, h => by
    simp only [on_completions] at h
    simp only [reports_done_once, Bool.and_eq_true] at h_once
    cases h1 : on_completion ids ds msg s wr_id with
    | error e => rw [h1] at h; exact absurd h (by simp)
    | ok s1 =>
      rw [h1] at h
      simp only [h1] at h_once
      obtain ⟨hc1, ha1, hl1⟩ :=
        on_completion_done_step ids ds msg s s1 wr_id h_count h_all h_once.1 h1
      obtain ⟨hc2, ha2, hl2⟩ := on_completions_done ids rest s1 s' hc1 ha1 h_once.2 h
      exact ⟨hc2, ha2, hl2.trans hl1⟩

/-- C17 (abort and done on a status message). On an `ID_RECEIVE_STATUS` completion for
connection `cn = wr_id >> 8` (inside `int`), in any state, `on_completion` lets the
connection consume the message, sets `abort_` when the request-abort flag of that
connection is set, and when the connection is done increments `connections_done_` and
sets `all_done_` to whether `connections_done_` is the number of connections. Hence
after any run of completions from the constructed state with `n >= 1` connections, none
done, in which no connection reports done twice, `connections_done_` is the number of
done connections and `all_done_` is true exactly when `connections_done_` is `n`,
which is exactly when all `n` connections are done. -/
theorem receive_status_all_done (ids : RequestIdentifier)
    (data_source : InputBufferReadInterface)
    (timeslice_size overlap_size max_timeslice_number ack_size_exponent : Nat)
    (conn : List InputChannelConnection)
    (evs : List (InputBufferReadInterface × ComputeNodeStatusMessage × Nat))
    (s : InputChannelSender)
    (h_ids : ids.ID_RECEIVE_STATUS ≠ ids.ID_WRITE_DESC)
    (h_conn : 1 ≤ conn.length)
    (h_fresh : ∀ c ∈ conn, c.done = false)
    (h_once : reports_done_once ids
      (InputChannelSender.init data_source timeslice_size overlap_size
        max_timeslice_number ack_size_exponent conn) evs = true)
    (h_run : on_completions ids
      (InputChannelSender.init data_source timeslice_size overlap_size
        max_timeslice_number ack_size_exponent conn) evs = .ok s) :
    (∀ (s0 : InputChannelSender) (ds : InputBufferReadInterface)
      (msg : ComputeNodeStatusMessage) (wr_id : Nat) (c : InputChannelConnection),
      wr_id &&& 0xFF = ids.ID_RECEIVE_STATUS → wr_id >>> 8 < 2 ^ 31 →
      s0.conn_[wr_id >>> 8]? = some c →
      ∃ s', on_completion ids ds msg s0 wr_id = .ok s' ∧
        s'.conn_ = s0.conn_.set (wr_id >>> 8) (c.on_complete_recv msg) ∧
        s'.abort_ = (s0.abort_ || (c.on_complete_recv msg).request_abort_flag) ∧
        ((c.on_complete_recv msg).done = true →
          s'.connections_done_ = s0.connections_done_ + 1 ∧
          s'.all_done_ = decide (s'.connections_done_ = s'.conn_.length)) ∧
        ((c.on_complete_recv msg).done = false →
          s'.connections_done_ = s0.connections_done_ ∧ s'.all_done_ = s0.all_done_)) ∧
    s.conn_.length = conn.length ∧
    s.connections_done_ = s.conn_.countP (fun c => c.done) ∧
    (s.all_done_ = true ↔ s.connections_done_ = conn.length) ∧
    (s.all_done_ = true ↔ ∀ c ∈ s.conn_, c.done = true) := by
  have h0 : (InputChannelSender.init data_source timeslice_size overlap_size
      max_timeslice_number ack_size_exponent conn).connections_done_ =
      (InputChannelSender.init data_source timeslice_size overlap_size
        max_timeslice_number ack_size_exponent conn).conn_.countP (fun c => c.done) := by
    show 0 = conn.countP (fun c => c.done)
    symm
    rw [List.countP_eq_zero]
    intro c hc
    simp [h_fresh c hc]
  have h1 : (InputChannelSender.init data_source timeslice_size overlap_size
      max_timeslice_number ack_size_exponent conn).all_done_ =
      decide ((InputChannelSender.init data_source timeslice_size overlap_size
        max_timeslice_number ack_size_exponent conn).connections_done_ =
        (InputChannelSender.init data_source timeslice_size overlap_size
          max_timeslice_number ack_size_exponent conn).conn_.length) := by
    show false = decide (0 = conn.length)
    symm
    rw [decide_eq_false_iff_not]
    omega
  obtain ⟨hc, ha, hl⟩ := on_completions_done ids evs _ s h0 h1 h_once h_run
  have hl2 : s.conn_.length = conn.length := hl
  refine ⟨?_, hl2, hc, ?_, ?_⟩
  · intro s0 ds msg wr_id c h_kind h_int h_c
    have hmod : (wr_id >>> 8) % 2 ^ 32 = wr_id >>> 8 :=
      Nat.mod_eq_of_lt (lt_trans h_int (by norm_num))
    have h_write : wr_id &&& 0xFF ≠ ids.ID_WRITE_DESC := by
      rw [h_kind]
      exact h_ids
    rw [← hmod] at h_c
    have h := on_completion_receive_status ids ds msg h_write h_kind h_c
    rw [hmod] at h
    exact h
  · rw [ha, decide_eq_true_eq, hl2]
  · rw [ha, decide_eq_true_eq, hc, List.countP_eq_length]

/-- An instance of C17: two connections, each reports done once; then both are counted
and `all_done_` is true. -/
theorem receive_status_all_done_witness :
    ∃ s, on_completions scenario_ids
        (InputChannelSender.init scenario_data_source 100 1 1000 2
          [scenario_connection 0 0, scenario_connection 1 0])
        scenario_final_completions = .ok s ∧
      s.connections_done_ = 2 ∧ s.all_done_ = true ∧ ∀ c ∈ s.conn_, c.done = true := by
  have hrun : (on_completions scenario_ids
      (InputChannelSender.init scenario_data_source 100 1 1000 2
        [scenario_connection 0 0, scenario_connection 1 0])
      scenario_final_completions).toOption.map
        (fun s => (s.connections_done_, s.all_done_)) = some (2, true) := by decide
  cases h : on_completions scenario_ids
      (InputChannelSender.init scenario_data_source 100 1 1000 2
        [scenario_connection 0 0, scenario_connection 1 0])
      scenario_final_completions with
  | error e => rw [h] at hrun; simp [Except.toOption] at hrun
  | ok s =>
    rw [h] at hrun
    simp only [Except.toOption, Option.map_some', Option.some.injEq, Prod.mk.injEq] at hrun
    have hthm := receive_status_all_done scenario_ids scenario_data_source 100 1 1000 2
      [scenario_connection 0 0, scenario_connection 1 0] scenario_final_completions s
      (by decide) (by decide) (by decide) (by decide) h
    exact ⟨s, rfl, hrun.1, hrun.2, hthm.2.2.2.2.mp hrun.2⟩


/-! ### The pacing rule of `InputIntervalInfo` -/

theorem to_int64_of_lt (x : Nat) (h : x < 2 ^ 63) : to_int64 x = (x : Int) := by
  unfold to_int64 UINT64_MOD
  rw [Nat.mod_eq_of_lt (by omega), if_pos h]

theorem u64_of_int_lt (x : Int) : u64_of_int x < UINT64_MOD := by
  unfold u64_of_int UINT64_MOD
  omega

theorem u64_sub_eq (a b : Nat) (hba : b ≤ a) (ha : a < UINT64_MOD) : u64_sub a b = a - b := by
  unfold u64_sub
  unfold UINT64_MOD at *
  omega

/-- The expression `end_ts - start_ts + 1` for an interval with `start_ts <= end_ts`
whose length lies inside `uint64_t`. -/
theorem interval_length_eq (info : InputIntervalInfo) (h_le : info.start_ts ≤ info.end_ts)
    (h64 : info.end_ts - info.start_ts + 1 < UINT64_MOD) :
    info.interval_length = info.end_ts - info.start_ts + 1 := by
  unfold InputIntervalInfo.interval_length u64_add u64_sub
  unfold UINT64_MOD at *
  omega

/-- With `k` below the number of timeslices per round, `k` timeslice durations fit into
the duration of a round, for the integer quotients of `init_statistical_variables`. -/
theorem round_covers (D n L k : Nat) (hk : k < n / L) : k * (D / n) ≤ D / L := by
  have hL : 0 < L := by
    rcases Nat.eq_zero_or_pos L with h | h
    · subst h; simp at hk
    · exact h
  rw [Nat.le_div_iff_mul_le hL]
  calc k * (D / n) * L ≤ (n / L) * (D / n) * L :=
        Nat.mul_le_mul_right _ (Nat.mul_le_mul_right _ (le_of_lt hk))
    _ = (n / L * L) * (D / n) := by ring
    _ ≤ n * (D / n) := Nat.mul_le_mul_right _ (Nat.div_mul_le_self n L)
    _ ≤ D := Nat.mul_div_le D n

/-- The statistical variables after `init_statistical_variables`. -/
theorem init_statistical_variables_ok (L : Nat) (info : InputIntervalInfo)
    (hL : 1 ≤ L) (hn : info.interval_length ≠ 0) :
    ∃ info1, info.init_statistical_variables L = .ok info1 ∧
      info1.count_sent_ts = info.count_sent_ts ∧
      info1.proposed_start_time = info.proposed_start_time ∧
      info1.proposed_duration = info.proposed_duration ∧
      info1.actual_start_time = info.actual_start_time ∧
      info1.interval_length = info.interval_length ∧
      ((info.duration_per_ts = 0 ∨ info.duration_per_round = 0) →
        info1.duration_per_ts = info.proposed_duration / info.interval_length ∧
        info1.duration_per_round = info.proposed_duration / L ∧
        info1.num_ts_per_round = info.interval_length / L) ∧
      (¬ (info.duration_per_ts = 0 ∨ info.duration_per_round = 0) → info1 = info) := by
  unfold InputIntervalInfo.init_statistical_variables
  by_cases h : info.duration_per_ts = 0 ∨ info.duration_per_round = 0
  · rw [if_pos h, if_neg (by omega)]
    exact ⟨_, rfl, rfl, rfl, rfl, rfl, rfl, fun _ => ⟨rfl, rfl, rfl⟩, fun hn => absurd h hn⟩
  · rw [if_neg h]
    exact ⟨_, rfl, rfl, rfl, rfl, rfl, rfl, fun h' => absurd h' h, fun _ => rfl⟩

/-- The statistical variables after `init_statistical_variables` when they were not
yet computed or were computed from the same interval. -/
theorem init_statistical_variables_stats (L : Nat) (info : InputIntervalInfo)
    (hL : 1 ≤ L)
    (h_le : info.start_ts ≤ info.end_ts)
    (h64 : info.end_ts - info.start_ts + 1 < UINT64_MOD)
    (h_stat : (info.duration_per_ts = 0 ∨ info.duration_per_round = 0) ∨
      (info.duration_per_ts = info.proposed_duration / (info.end_ts - info.start_ts + 1) ∧
        info.duration_per_round = info.proposed_duration / L ∧
        info.num_ts_per_round = (info.end_ts - info.start_ts + 1) / L)) :
    ∃ info1, info.init_statistical_variables L = .ok info1 ∧
      info1.count_sent_ts = info.count_sent_ts ∧
      info1.proposed_start_time = info.proposed_start_time ∧
      info1.proposed_duration = info.proposed_duration ∧
      info1.actual_start_time = info.actual_start_time ∧
      info1.duration_per_ts = info.proposed_duration / (info.end_ts - info.start_ts + 1) ∧
      info1.duration_per_round = info.proposed_duration / L ∧
      info1.num_ts_per_round = (info.end_ts - info.start_ts + 1) / L := by
  have hlen := interval_length_eq info h_le h64
  obtain ⟨info1, h_init, hc, hps, hpd, has, -, hnew, hold⟩ :=
    init_statistical_variables_ok L info hL (by rw [hlen]; omega)
  refine ⟨info1, h_init, hc, hps, hpd, has, ?_⟩
  by_cases h0 : info.duration_per_ts = 0 ∨ info.duration_per_round = 0
  · have := hnew h0
    rw [hlen] at this
    exact this
  · rw [hold h0]
    rcases h_stat with h | h
    · exact absurd h h0
    · exact h

/-- C20 (deadline override). Once the clock reading is past
`proposed_start_time + proposed_duration` (a duration inside `int64_t`) and the ack
threshold is not reached, `get_duration_to_next_round` returns 0, whatever
`count_sent_ts`, the elapsed time and the statistical variables are; when the ack
threshold is reached, the call does not depend on the clock reading of the deadline
test. -/
theorem deadline_override (L ticks_per_us : Nat) (now_deadline now_elapsed : Int)
    (info : InputIntervalInfo)
    (hL : 1 ≤ L)
    (h_le : info.start_ts ≤ info.end_ts)
    (h64 : info.end_ts - info.start_ts + 1 < UINT64_MOD)
    (h_duration : info.proposed_duration < 2 ^ 63) :
    (info.proposed_start_time + (info.proposed_duration : Int) * (ticks_per_us : Int) <
        now_deadline →
      ∃ info1, info.get_duration_to_next_round L ticks_per_us false now_deadline
        now_elapsed = .ok (0, info1)) ∧
    (∀ now_deadline2 : Int,
      info.get_duration_to_next_round L ticks_per_us true now_deadline now_elapsed =
        info.get_duration_to_next_round L ticks_per_us true now_deadline2 now_elapsed) := by
  have hlen := interval_length_eq info h_le h64
  obtain ⟨info1, h_init, hc, hps, hpd, has, -, -, -⟩ :=
    init_statistical_variables_ok L info hL (by rw [hlen]; omega)
  constructor
  · intro h_past
    refine ⟨info1, ?_⟩
    unfold InputIntervalInfo.get_duration_to_next_round
    rw [h_init]
    dsimp only
    by_cases hz : info1.duration_per_ts = 0
    · rw [if_pos hz]
    · rw [if_neg hz,
        if_pos (by rw [hps, hpd, to_int64_of_lt _ h_duration]; exact ⟨rfl, h_past⟩)]
  · intro now_deadline2
    unfold InputIntervalInfo.get_duration_to_next_round
    rw [h_init]
    dsimp only
    by_cases hz : info1.duration_per_ts = 0
    · rw [if_pos hz, if_pos hz]
    · have hn1 : ¬ (true = false ∧ info1.proposed_start_time +
          to_int64 info1.proposed_duration * (ticks_per_us : Int) < now_deadline) :=
        fun h => absurd h.1 (by decide)
      have hn2 : ¬ (true = false ∧ info1.proposed_start_time +
          to_int64 info1.proposed_duration * (ticks_per_us : Int) < now_deadline2) :=
        fun h => absurd h.1 (by decide)
      rw [if_neg hz, if_neg hz, if_neg hn1, if_neg hn2]

/-- An instance of C20: in the interval of the scenario (deadline at 1000000
microseconds) a call after the deadline without the ack threshold returns 0. -/
theorem deadline_override_witness :
    ∃ info1, (scenario_interval 25).get_duration_to_next_round 10 1000 false 1000000001
      300000000 = .ok (0, info1) :=
  (deadline_override 10 1000 1000000001 300000000 (scenario_interval 25) (by decide)
    (by decide) (by decide) (by decide)).1 (by decide)


/-- The assertion of the pacing rule inside `int64_t`. For every interval with
`start_ts <= end_ts`, every `SCHEDULER_INTERVAL_LENGTH >= 1` and every
`proposed_duration`, with the integer quotients of `init_statistical_variables`,
`k * duration_per_ts <= duration_per_round` whenever `k < num_ts_per_round`; so, with
`duration_per_round` inside `int64_t`, the assertion `duration >= 0` of
`get_duration_to_next_round` does not fail: the call returns, for every
`count_sent_ts`, every clock reading and every result of the ack test. -/
theorem assertion_holds (L ticks_per_us : Nat) (ack : Bool)
    (now_deadline now_elapsed : Int) (info : InputIntervalInfo)
    (hL : 1 ≤ L)
    (h_le : info.start_ts ≤ info.end_ts)
    (h64 : info.end_ts - info.start_ts + 1 < UINT64_MOD)
    (h_stat : (info.duration_per_ts = 0 ∨ info.duration_per_round = 0) ∨
      (info.duration_per_ts = info.proposed_duration / (info.end_ts - info.start_ts + 1) ∧
        info.duration_per_round = info.proposed_duration / L ∧
        info.num_ts_per_round = (info.end_ts - info.start_ts + 1) / L))
    (h_round : info.proposed_duration / L < 2 ^ 63) :
    (∀ k, k < (info.end_ts - info.start_ts + 1) / L →
      k * (info.proposed_duration / (info.end_ts - info.start_ts + 1)) ≤
        info.proposed_duration / L) ∧
    ∃ r info1, info.get_duration_to_next_round L ticks_per_us ack now_deadline
      now_elapsed = .ok (r, info1) := by
  refine ⟨fun k hk => round_covers _ _ _ _ hk, ?_⟩
  obtain ⟨info1, h_init, hc, hps, hpd, has, h1, h2, h3⟩ :=
    init_statistical_variables_stats L info hL h_le h64 h_stat
  unfold InputIntervalInfo.get_duration_to_next_round
  rw [h_init]
  dsimp only
  split
  · exact ⟨_, _, rfl⟩
  · rename_i h_dpt
    split
    · exact ⟨_, _, rfl⟩
    · have h_e : info1.get_expected_sent_ts ticks_per_us now_elapsed < UINT64_MOD := by
        unfold InputIntervalInfo.get_expected_sent_ts
        rw [if_neg h_dpt]
        exact lt_of_le_of_lt (Nat.div_le_self _ _) (u64_of_int_lt _)
      generalize info1.get_expected_sent_ts ticks_per_us now_elapsed = e at *
      split
      · exact ⟨_, _, rfl⟩
      · rename_i h_ne
        split
        · exact ⟨_, _, rfl⟩
        · rename_i h_nlt
          split
          · exact ⟨_, _, rfl⟩
          · rename_i h_bh
            have hs1 : u64_sub e info1.count_sent_ts = e - info1.count_sent_ts :=
              u64_sub_eq _ _ (by omega) h_e
            rw [hs1] at h_bh ⊢
            have h4 : (e - info1.count_sent_ts) * info1.duration_per_ts ≤
                info1.duration_per_round := by
              rw [h1, h2]
              rw [h3] at h_bh
              exact round_covers _ _ _ _ (by omega)
            have h_r : info1.duration_per_round < 2 ^ 63 := by
              rw [h2]
              exact h_round
            have hm : u64_mul (e - info1.count_sent_ts) info1.duration_per_ts =
                (e - info1.count_sent_ts) * info1.duration_per_ts := by
              unfold u64_mul
              refine Nat.mod_eq_of_lt (lt_of_le_of_lt h4 ?_)
              unfold UINT64_MOD
              omega
            rw [hm]
            have hs2 : u64_sub info1.duration_per_round
                ((e - info1.count_sent_ts) * info1.duration_per_ts) =
                info1.duration_per_round -
                  (e - info1.count_sent_ts) * info1.duration_per_ts :=
              u64_sub_eq _ _ h4 (by unfold UINT64_MOD; omega)
            rw [hs2]
            have hd : info1.duration_per_round -
                (e - info1.count_sent_ts) * info1.duration_per_ts < 2 ^ 63 := by omega
            rw [to_int64_of_lt _ hd, if_pos (Int.ofNat_nonneg _)]
            exact ⟨_, _, rfl⟩

/-- An instance of the assertion inside `int64_t`: in the interval of the scenario,
300000 microseconds after the
start with 25 timeslices sent, the call passes the assertion and returns. -/
theorem assertion_holds_witness :
    ∃ r info1, (scenario_interval 25).get_duration_to_next_round 10 1000 true 0
      300000000 = .ok (r, info1) :=
  (assertion_holds 10 1000 true 0 300000000 (scenario_interval 25) (by decide) (by decide)
    (by decide) (Or.inl (Or.inl rfl)) (by decide)).2

/-- C29 (code at the failing input). With an interval of 5 timeslices and
`SCHEDULER_INTERVAL_LENGTH = 10`, `init_statistical_variables` sets
`num_ts_per_round = 5 / 10 = 0`, and `get_current_round_index` (and with it
`is_ts_within_current_round`) divides `expected_sent_ts` by zero. -/
theorem current_round_index_divides_by_zero :
    ((scenario_short_interval.init_statistical_variables 10).toOption.map
      InputIntervalInfo.num_ts_per_round = some 0) ∧
    scenario_short_interval.get_current_round_index 10 1000 0 =
      .error .division_by_zero ∧
    scenario_short_interval.is_ts_within_current_round 10 1000 0 3 =
      .error .division_by_zero :=
  ⟨by decide, rfl, rfl⟩


/-! ### The descriptor chunks of `post_send_data`, the buffer status -/

/-- The chunks of `desc_gather_list` for a non-empty range that fits the ring. -/
theorem desc_gather_list_cases (sizeof_MD : Nat) (r : RingBuffer MicrosliceDescriptor)
    (desc_offset desc_length : Nat)
    (h_exp : r.size_exponent < 64) (h_pos : 1 ≤ desc_length) (h_len : desc_length ≤ r.size)
    (h_bytes : sizeof_MD * desc_length < UINT64_MOD) :
    (desc_offset % r.size + desc_length ≤ r.size ∧
      desc_gather_list sizeof_MD r desc_offset desc_length =
        [{ iov_base := desc_offset % r.size, iov_len := sizeof_MD * desc_length }]) ∨
    (r.size < desc_offset % r.size + desc_length ∧
      desc_gather_list sizeof_MD r desc_offset desc_length =
        [{ iov_base := desc_offset % r.size,
           iov_len := sizeof_MD * (r.size - desc_offset % r.size) },
         { iov_base := 0,
           iov_len := sizeof_MD * (desc_length - (r.size - desc_offset % r.size)) }]) := by
  have hS := r.size_lt_u64 h_exp
  have hm : desc_offset % r.size < r.size := Nat.mod_lt _ r.size_pos
  have hlast := last_slot_mod r.size desc_offset desc_length (r.size_dvd_u64 h_exp) h_pos
  unfold desc_gather_list
  simp only [r.and_size_mask, r.slot_eq_mod, hlast]
  by_cases hfit : desc_offset % r.size + desc_length ≤ r.size
  · left
    have : (desc_offset % r.size + desc_length - 1) % r.size =
        desc_offset % r.size + desc_length - 1 := Nat.mod_eq_of_lt (by omega)
    rw [this, if_pos (by omega)]
    refine ⟨hfit, ?_⟩
    have e0 : u64_mul sizeof_MD desc_length = sizeof_MD * desc_length :=
      Nat.mod_eq_of_lt h_bytes
    rw [e0]
  · right
    have hz : (desc_offset % r.size + desc_length - 1) % r.size =
        desc_offset % r.size + desc_length - 1 - r.size := by
      rw [Nat.mod_eq_sub_mod (by omega)]
      exact Nat.mod_eq_of_lt (by omega)
    rw [hz, if_neg (by omega)]
    refine ⟨by omega, ?_⟩
    have e1 : u64_sub r.size (desc_offset % r.size) = r.size - desc_offset % r.size := by
      unfold u64_sub UINT64_MOD at *; omega
    have e2 : u64_add (u64_sub desc_length r.size) (desc_offset % r.size) =
        desc_length - (r.size - desc_offset % r.size) := by
      unfold u64_add u64_sub UINT64_MOD at *; omega
    have e3 : u64_mul sizeof_MD (r.size - desc_offset % r.size) =
        sizeof_MD * (r.size - desc_offset % r.size) :=
      Nat.mod_eq_of_lt (lt_of_le_of_lt (Nat.mul_le_mul_left _ (by omega)) h_bytes)
    have e4 : u64_mul sizeof_MD (desc_length - (r.size - desc_offset % r.size)) =
        sizeof_MD * (desc_length - (r.size - desc_offset % r.size)) :=
      Nat.mod_eq_of_lt (lt_of_le_of_lt (Nat.mul_le_mul_left _ (by omega)) h_bytes)
    rw [e1, e2, e3, e4]

theorem desc_gather_list_spec (sizeof_MD : Nat) (r : RingBuffer MicrosliceDescriptor)
    (desc_offset desc_length : Nat)
    (h_exp : r.size_exponent < 64) (h_pos : 1 ≤ desc_length) (h_len : desc_length ≤ r.size)
    (h_sz : 1 ≤ sizeof_MD) (h_bytes : sizeof_MD * desc_length < UINT64_MOD) :
    gathered_descriptors sizeof_MD r (desc_gather_list sizeof_MD r desc_offset desc_length) =
      (List.range desc_length).map (fun i => r.buf ((desc_offset + i) % r.size)) ∧
    ((desc_gather_list sizeof_MD r desc_offset desc_length).map iovec.iov_len).sum =
      desc_length * sizeof_MD ∧
    ((desc_gather_list sizeof_MD r desc_offset desc_length).length = 2 ↔
      r.size < desc_offset % r.size + desc_length) ∧
    ((desc_gather_list sizeof_MD r desc_offset desc_length).length = 1 ↔
      desc_offset % r.size + desc_length ≤ r.size) := by
  have hm : desc_offset % r.size < r.size := Nat.mod_lt _ r.size_pos
  have hslot : ∀ i, (desc_offset + i) % r.size = (desc_offset % r.size + i) % r.size := by
    intro i
    exact (Nat.mod_modEq desc_offset r.size).symm.add_right i
  have hdiv : ∀ k, sizeof_MD * k / sizeof_MD = k := fun k =>
    Nat.mul_div_cancel_left k (by omega)
  rcases desc_gather_list_cases sizeof_MD r desc_offset desc_length h_exp h_pos h_len
    h_bytes with ⟨hfit, hl⟩ | ⟨hwrap, hl⟩
  · rw [hl]
    refine ⟨?_, ?_, ?_, ?_⟩
    · simp only [gathered_descriptors, List.append_nil, hdiv]
      apply map_range'_eq
      intro i hi
      rw [hslot i, Nat.mod_eq_of_lt (show desc_offset % r.size + i < r.size by omega)]
    · simp only [List.map_cons, List.map_nil, List.sum_cons, List.sum_nil, Nat.add_zero]
      exact Nat.mul_comm _ _
    · exact ⟨fun h => absurd (show (1 : Nat) = 2 from h) (by decide), fun h => by omega⟩
    · exact ⟨fun _ => hfit, fun _ => rfl⟩
  · rw [hl]
    refine ⟨?_, ?_, ?_, ?_⟩
    · simp only [gathered_descriptors, List.append_nil, hdiv]
      have hsplit : desc_length =
          (r.size - desc_offset % r.size) +
            (desc_length - (r.size - desc_offset % r.size)) := by
        omega
      conv_rhs => rw [hsplit, map_range_add]
      congr 1
      · apply map_range'_eq
        intro i hi
        rw [hslot i, Nat.mod_eq_of_lt (show desc_offset % r.size + i < r.size by omega)]
      · apply map_range'_eq
        intro i hi
        rw [hslot (r.size - desc_offset % r.size + i)]
        have : desc_offset % r.size + (r.size - desc_offset % r.size + i) = i + r.size := by
          omega
        rw [this, Nat.add_mod_right, Nat.mod_eq_of_lt (show i < r.size by omega)]
        simp
    · simp only [List.map_cons, List.map_nil, List.sum_cons, List.sum_nil, Nat.add_zero]
      rw [← Nat.mul_add, Nat.mul_comm]
      congr 1
      omega
    · exact ⟨fun _ => hwrap, fun _ => rfl⟩
    · exact ⟨fun h => absurd (show (2 : Nat) = 1 from h) (by decide), fun h => by omega⟩

/-- C27 (descriptor segments across the wrap). For every `desc_offset` and every
`desc_length` with `1 <= desc_length <=` size of the descriptor ring (a power of two
that fits `size_t`), with `sizeof(MicrosliceDescriptor) >= 1` and the byte length
inside `size_t`, `post_send_data` submits one write whose descriptor gather segments
(the first `num_desc_sge` segments), concatenated in order, are exactly the ring
slots at the logical indices `desc_offset, ..., desc_offset + desc_length - 1`, each
taken modulo the ring size; their byte lengths sum to
`desc_length * sizeof(MicrosliceDescriptor)`; and there are two segments exactly when
`desc_offset mod size + desc_length > size`, one otherwise. -/
theorem desc_wrap_correctness (ids : RequestIdentifier) (sizeof_MD : Nat)
    (ds : InputBufferReadInterface) (s : InputChannelSender)
    (timeslice cn desc_offset desc_length data_offset data_length skip : Nat)
    (h_conn : cn < s.conn_.length)
    (h_exp : ds.desc_send_buffer.size_exponent < 64)
    (h_pos : 1 ≤ desc_length) (h_len : desc_length ≤ ds.desc_send_buffer.size)
    (h_sz : 1 ≤ sizeof_MD) (h_bytes : sizeof_MD * desc_length < UINT64_MOD) :
    ∃ s' w, post_send_data ids sizeof_MD ds s timeslice cn desc_offset desc_length
        data_offset data_length skip = .ok s' ∧
      s'.submitted = s.submitted ++ [w] ∧
      gathered_descriptors sizeof_MD ds.desc_send_buffer (w.sge.take w.num_desc_sge) =
        (List.range desc_length).map
          (fun i => ds.desc_send_buffer.buf ((desc_offset + i) % ds.desc_send_buffer.size)) ∧
      ((w.sge.take w.num_desc_sge).map iovec.iov_len).sum = desc_length * sizeof_MD ∧
      (w.num_desc_sge = 2 ↔
        ds.desc_send_buffer.size < desc_offset % ds.desc_send_buffer.size + desc_length) ∧
      (w.num_desc_sge = 1 ↔
        desc_offset % ds.desc_send_buffer.size + desc_length ≤ ds.desc_send_buffer.size) := by
  obtain ⟨c, hc⟩ : ∃ c, s.conn_[cn]? = some c := ⟨_, List.getElem?_eq_getElem h_conn⟩
  refine ⟨_, _, post_send_data_ok ids sizeof_MD ds s timeslice cn desc_offset desc_length
    data_offset data_length skip c hc, rfl, ?_⟩
  simp only [List.take_left]
  exact desc_gather_list_spec sizeof_MD ds.desc_send_buffer desc_offset desc_length h_exp
    h_pos h_len h_sz h_bytes

/-- An instance of C27: 101 descriptors from index 1000 on in a ring of 1024 give two
descriptor segments of 24 and 77 descriptors of 32 bytes. -/
theorem desc_wrap_correctness_witness :
    (∃ s' w, post_send_data scenario_ids 32 scenario_data_source S1_sender 0 0 1000 101
        0 200 0 = .ok s' ∧
      s'.submitted = S1_sender.submitted ++ [w] ∧
      gathered_descriptors 32 scenario_data_source.desc_send_buffer
          (w.sge.take w.num_desc_sge) =
        (List.range 101).map
          (fun i => scenario_data_source.desc_send_buffer.buf
            ((1000 + i) % scenario_data_source.desc_send_buffer.size)) ∧
      ((w.sge.take w.num_desc_sge).map iovec.iov_len).sum = 101 * 32 ∧
      (w.num_desc_sge = 2 ↔
        scenario_data_source.desc_send_buffer.size <
          1000 % scenario_data_source.desc_send_buffer.size + 101) ∧
      (w.num_desc_sge = 1 ↔
        1000 % scenario_data_source.desc_send_buffer.size + 101 ≤
          scenario_data_source.desc_send_buffer.size)) ∧
    (desc_gather_list 32 scenario_data_source.desc_send_buffer 1000 101).map
      iovec.iov_len = [24 * 32, 77 * 32] :=
  ⟨desc_wrap_correctness scenario_ids 32 scenario_data_source S1_sender 0 0 1000 101 0
      200 0 (by decide) (by decide) (by decide) (by decide) (by decide) (by decide),
    by decide⟩


theorem SizedMap.get_eq_none_iff {V : Type} (m : SizedMap V) (key : Nat) :
    m.get key = none ↔ key ∉ m.map_.map Prod.fst := by
  unfold SizedMap.get
  rw [Option.map_eq_none', List.find?_eq_none]
  constructor
  · intro h hmem
    obtain ⟨e, he, hk⟩ := List.mem_map.mp hmem
    exact h e he (by simp [hk])
  · intro h e he hk
    exact h (List.mem_map.mpr ⟨e, he, by simpa using hk⟩)

theorem SizedMap.contains_iff {V : Type} (m : SizedMap V) (key : Nat) :
    m.contains key = true ↔ key ∈ m.map_.map Prod.fst := by
  unfold SizedMap.contains
  rw [Option.isSome_iff_ne_none, Ne, SizedMap.get_eq_none_iff, not_not]

theorem SizedMap.contains_eq_false_iff {V : Type} (m : SizedMap V) (key : Nat) :
    m.contains key = false ↔ m.get key = none := by
  unfold SizedMap.contains
  cases m.get key <;> simp

theorem SizedMap.find_insert_ordered_self {V : Type} (key : Nat) (val : V) :
    ∀ l : List (Nat × V), key ∉ l.map Prod.fst →
      (SizedMap.insert_ordered key val l).find? (fun e => e.1 == key) = some (key, val)
  | [], _ => by simp [SizedMap.insert_ordered]
  | e :: rest, h => by
    have hne : e.1 ≠ key := fun he => h (by simp [he])
    have hrest : key ∉ rest.map Prod.fst := fun hm => h (by simp at hm ⊢; exact Or.inr hm)
    unfold SizedMap.insert_ordered
    split
    · simp
    · rw [List.find?_cons_of_neg _ (by simpa using hne)]
      exact SizedMap.find_insert_ordered_self key val rest hrest

theorem SizedMap.find_insert_ordered_other {V : Type} (key : Nat) (val : V) (k : Nat)
    (hk : k ≠ key) :
    ∀ l : List (Nat × V),
      (SizedMap.insert_ordered key val l).find? (fun e => e.1 == k) =
        l.find? (fun e => e.1 == k)
  | [] => by
    unfold SizedMap.insert_ordered
    rw [List.find?_cons_of_neg _ (by simpa using Ne.symm hk)]
  | e :: rest => by
    unfold SizedMap.insert_ordered
    split
    · rw [List.find?_cons_of_neg _ (by simpa using Ne.symm hk)]
    · by_cases he : e.1 = k
      · rw [List.find?_cons_of_pos _ (by simpa using he),
          List.find?_cons_of_pos _ (by simpa using he)]
      · rw [List.find?_cons_of_neg _ (by simpa using he),
          List.find?_cons_of_neg _ (by simpa using he)]
        exact SizedMap.find_insert_ordered_other key val k hk rest

theorem SizedMap.keys_insert_ordered {V : Type} (key : Nat) (val : V) :
    ∀ l : List (Nat × V),
      ((SizedMap.insert_ordered key val l).map Prod.fst).Perm (key :: l.map Prod.fst)
  | [] => by simp [SizedMap.insert_ordered]
  | e :: rest => by
    unfold SizedMap.insert_ordered
    split
    · simp
    · simp only [List.map_cons]
      exact ((SizedMap.keys_insert_ordered key val rest).cons e.1).trans
        (List.Perm.swap key e.1 _)

/-- The map after `add` of a key that is not there, below the capacity. -/
theorem SizedMap.add_new {V : Type} (m : SizedMap V) (key : Nat) (val : V)
    (h_new : m.get key = none) (h_cap : m.map_.length < m.MAX_MAP_SIZE_) :
    (∀ k, (m.add key val).get k = if k = key then some val else m.get k) ∧
    ((m.add key val).map_.map Prod.fst).Perm (key :: m.map_.map Prod.fst) ∧
    (m.add key val).MAX_MAP_SIZE_ = m.MAX_MAP_SIZE_ := by
  have hc : m.contains key = false := (m.contains_eq_false_iff key).mpr h_new
  have hk : key ∉ m.map_.map Prod.fst := (m.get_eq_none_iff key).mp h_new
  have hadd : m.add key val =
      { m with map_ := SizedMap.insert_ordered key val m.map_ } := by
    unfold SizedMap.add
    rw [hc, if_neg (by decide), if_neg (Nat.ne_of_lt h_cap)]
  rw [hadd]
  refine ⟨?_, SizedMap.keys_insert_ordered key val m.map_, rfl⟩
  intro k
  unfold SizedMap.get
  by_cases h : k = key
  · subst h
    rw [if_pos rfl]
    show Option.map Prod.snd
      ((SizedMap.insert_ordered k val m.map_).find? (fun e => e.1 == k)) = some val
    rw [SizedMap.find_insert_ordered_self k val m.map_ hk]
    rfl
  · rw [if_neg h]
    show Option.map Prod.snd
      ((SizedMap.insert_ordered key val m.map_).find? (fun e => e.1 == k)) = _
    rw [SizedMap.find_insert_ordered_other key val k h m.map_]

/-- The map after `add` of a key that is there: nothing changes. -/
theorem SizedMap.add_old {V : Type} (m : SizedMap V) (key : Nat) (val : V)
    (h_old : m.contains key = true) : m.add key val = m := by
  unfold SizedMap.add
  rw [if_pos h_old]

theorem SizedMap.find_update {V : Type} (key : Nat) (val : V) (k : Nat) :
    ∀ l : List (Nat × V),
      ((l.map (fun e => if e.1 = key then (e.1, val) else e)).find?
          (fun e => e.1 == k)).map Prod.snd =
        if k = key ∧ k ∈ l.map Prod.fst then some val
        else (l.find? (fun e => e.1 == k)).map Prod.snd
  | [] => by simp
  | e :: rest => by
    have ih := SizedMap.find_update key val k rest
    simp only [List.map_cons]
    by_cases hek : e.1 = k
    · have h1 : (if e.1 = key then (e.1, val) else e).1 = k := by
        split <;> exact hek
      rw [List.find?_cons_of_pos _ (by simpa using h1),
        List.find?_cons_of_pos _ (by simpa using hek)]
      by_cases hkey : k = key
      · rw [if_pos (hek.trans hkey),
          if_pos (show k = key ∧ k ∈ e.1 :: rest.map Prod.fst from ⟨hkey, by simp [hek]⟩)]
        rfl
      · rw [if_neg (fun h => hkey (hek.symm.trans h)),
          if_neg (show ¬ (k = key ∧ k ∈ e.1 :: rest.map Prod.fst) from fun h => hkey h.1)]
    · have h1 : (if e.1 = key then (e.1, val) else e).1 ≠ k := by
        split <;> exact hek
      rw [List.find?_cons_of_neg _ (by simpa using h1),
        List.find?_cons_of_neg _ (by simpa using hek), ih]
      have : (k ∈ e.1 :: rest.map Prod.fst) ↔ k ∈ rest.map Prod.fst := by
        simp [Ne.symm hek]
      simp only [this]

/-- The map after `update` of a key that is there. -/
theorem SizedMap.update_old {V : Type} (m : SizedMap V) (key : Nat) (val : V)
    (h_old : m.contains key = true) :
    (∀ k, (m.update key val).get k = if k = key then some val else m.get k) ∧
    (m.update key val).map_.map Prod.fst = m.map_.map Prod.fst ∧
    (m.update key val).MAX_MAP_SIZE_ = m.MAX_MAP_SIZE_ := by
  have hk : key ∈ m.map_.map Prod.fst := (m.contains_iff key).mp h_old
  refine ⟨?_, ?_, rfl⟩
  · intro k
    unfold SizedMap.get SizedMap.update
    simp only
    rw [SizedMap.find_update key val k m.map_]
    by_cases h : k = key
    · subst h
      rw [if_pos ⟨rfl, hk⟩, if_pos rfl]
    · rw [if_neg (fun h' => h h'.1), if_neg h]
  · unfold SizedMap.update
    simp only [List.map_map]
    apply List.map_congr_left
    intro e _
    simp only [Function.comp]
    split <;> rfl


/-! ### The history of contributions -/

theorem Double.to_u64_of_u64 (d : Nat) (h : d < 2 ^ 53) :
    (Double.of_u64 d).to_u64 = some d := by
  unfold Double.of_u64 Double.round
  rw [if_pos (by simpa using h)]
  unfold Double.to_u64
  simp only [le_refl, if_true, Int.toNat_zero, pow_zero, mul_one]
  rw [if_pos ⟨Int.ofNat_nonneg d, by omega⟩]
  simp

theorem contributed_append (evs : List (Nat × Nat × Int × Nat)) (e : Nat × Nat × Int × Nat)
    (i T : Nat) :
    contributed (evs ++ [e]) i T = (contributed evs i T || (e.1 == i && e.2.1 == T)) := by
  unfold contributed
  simp

theorem reported_duration_append_old (evs : List (Nat × Nat × Int × Nat))
    (e : Nat × Nat × Int × Nat) (i T : Nat) (h : contributed evs i T = true) :
    reported_duration (evs ++ [e]) i T = reported_duration evs i T := by
  unfold contributed at h
  unfold reported_duration
  rw [List.find?_append]
  obtain ⟨x, hx, hp⟩ := List.any_eq_true.mp h
  cases hf : evs.find? (fun e => e.1 == i && e.2.1 == T) with
  | none =>
    exfalso
    rw [List.find?_eq_none] at hf
    exact hf x hx hp
  | some y => rfl

theorem reported_duration_append_new (evs : List (Nat × Nat × Int × Nat))
    (e : Nat × Nat × Int × Nat) (i T : Nat) (h : contributed evs i T = false) :
    reported_duration (evs ++ [e]) i T =
      if e.1 = i ∧ e.2.1 = T then e.2.2.2 else 0 := by
  unfold contributed at h
  unfold reported_duration
  rw [List.find?_append]
  have hf : evs.find? (fun e => e.1 == i && e.2.1 == T) = none := by
    rw [List.find?_eq_none]
    intro x hx hp
    have : evs.any (fun e => e.1 == i && e.2.1 == T) = true :=
      List.any_eq_true.mpr ⟨x, hx, hp⟩
    rw [h] at this
    exact absurd this (by decide)
  rw [hf]
  by_cases hc : e.1 = i ∧ e.2.1 = T
  · rw [if_pos hc]
    simp [hc.1, hc.2]
  · rw [if_neg hc]
    have : (e.1 == i && e.2.1 == T) = false := by
      rw [Bool.and_eq_false_iff]
      rcases not_and_or.mp hc with h1 | h2
      · exact Or.inl (by simpa using h1)
      · exact Or.inr (by simpa using h2)
    simp [this]

theorem countP_flip_one (p q : Nat → Bool) (i : Nat) :
    ∀ l : List Nat, l.Nodup → i ∈ l → p i = false → q i = true →
      (∀ j, j ≠ i → q j = p j) → l.countP q = l.countP p + 1
  | [], _, hi, _, _, _ => by simp at hi
  | x :: rest, hnd, hi, hp, hq, hother => by
    rw [List.nodup_cons] at hnd
    simp only [List.countP_cons]
    by_cases hx : x = i
    · subst hx
      have hrest : rest.countP q = rest.countP p := by
        apply List.countP_congr
        intro j hj
        have : j ≠ x := fun h => hnd.1 (h ▸ hj)
        rw [hother j this]
      rw [hrest, hp, hq]
      simp
    · have hi' : i ∈ rest := by
        rcases List.mem_cons.mp hi with h | h
        · exact absurd h.symm hx
        · exact h
      rw [countP_flip_one p q i rest hnd.2 hi' hp hq hother, hother x hx]
      omega

theorem contributors_append (evs : List (Nat × Nat × Int × Nat))
    (e : Nat × Nat × Int × Nat) (N T : Nat) :
    contributors (evs ++ [e]) N T =
      if e.2.1 = T ∧ e.1 < N ∧ contributed evs e.1 T = false then contributors evs N T + 1
      else contributors evs N T := by
  unfold contributors
  by_cases hc : e.2.1 = T ∧ e.1 < N ∧ contributed evs e.1 T = false
  · rw [if_pos hc]
    apply countP_flip_one _ _ e.1 _ (List.nodup_range N) (List.mem_range.mpr hc.2.1) hc.2.2
    · rw [contributed_append, hc.2.2]
      simp [hc.1]
    · intro j hj
      rw [contributed_append]
      have : (e.1 == j) = false := by simpa using hj.symm
      simp [this]
  · rw [if_neg hc]
    apply List.countP_congr
    intro j hj
    rw [contributed_append]
    have hjN : j < N := List.mem_range.mp hj
    by_cases h1 : e.1 = j ∧ e.2.1 = T
    · have hcj : contributed evs j T = true := by
        by_contra hne
        apply hc
        refine ⟨h1.2, h1.1 ▸ hjN, ?_⟩
        rw [h1.1]
        simpa using hne
      simp [hcj]
    · have : (e.1 == j && e.2.1 == T) = false := by
        rw [Bool.and_eq_false_iff]
        rcases not_and_or.mp h1 with h | h
        · exact Or.inl (by simpa using h)
        · exact Or.inr (by simpa using h)
      simp [this]

theorem contributors_le (evs : List (Nat × Nat × Int × Nat)) (N T : Nat) :
    contributors evs N T ≤ N := by
  unfold contributors
  exact le_trans (List.countP_le_length _) (by simp)

theorem contributors_eq_iff (evs : List (Nat × Nat × Int × Nat)) (N T : Nat) :
    contributors evs N T = N ↔ ∀ i, i < N → contributed evs i T = true := by
  unfold contributors
  have : (List.range N).countP (fun i => contributed evs i T) = (List.range N).length ↔
      ∀ i ∈ List.range N, contributed evs i T = true := List.countP_eq_length
  rw [List.length_range] at this
  rw [this]
  constructor
  · intro h i hi
    exact h i (List.mem_range.mpr hi)
  · intro h i hi
    exact h i (List.mem_range.mp hi)

theorem nodup_subset_length_le (l all_ts : List Nat) (hnd : l.Nodup)
    (hsub : ∀ k ∈ l, k ∈ all_ts) : l.length ≤ all_ts.dedup.length := by
  have hs : l ⊆ all_ts.dedup := fun k hk => List.mem_dedup.mpr (hsub k hk)
  exact (List.subperm_of_subset hnd hs).length_le


theorem reported_duration_of_not_contributed (evs : List (Nat × Nat × Int × Nat)) (i T : Nat)
    (h : contributed evs i T = false) : reported_duration evs i T = 0 := by
  unfold contributed at h
  unfold reported_duration
  have hf : evs.find? (fun e => e.1 == i && e.2.1 == T) = none := by
    rw [List.find?_eq_none]
    intro x hx hp
    have : evs.any (fun e => e.1 == i && e.2.1 == T) = true :=
      List.any_eq_true.mpr ⟨x, hx, hp⟩
    rw [h] at this
    exact absurd this (by decide)
  rw [hf]

/-- A repeated contribution changes nothing of the history. -/
theorem history_append_old (evs : List (Nat × Nat × Int × Nat))
    (e : Nat × Nat × Int × Nat) (N : Nat) (hc : contributed evs e.1 e.2.1 = true) :
    (∀ i T, contributed (evs ++ [e]) i T = contributed evs i T) ∧
    (∀ i T, reported_duration (evs ++ [e]) i T = reported_duration evs i T) ∧
    (∀ T, contributors (evs ++ [e]) N T = contributors evs N T) ∧
    (∀ T, total_reported (evs ++ [e]) N T = total_reported evs N T) := by
  have h1 : ∀ i T, contributed (evs ++ [e]) i T = contributed evs i T := by
    intro i T
    rw [contributed_append]
    by_cases h : e.1 = i ∧ e.2.1 = T
    · rw [← h.1, ← h.2, hc]
      rfl
    · have : (e.1 == i && e.2.1 == T) = false := by
        rw [Bool.and_eq_false_iff]
        rcases not_and_or.mp h with h | h
        · exact Or.inl (by simpa using h)
        · exact Or.inr (by simpa using h)
      rw [this, Bool.or_false]
  have h2 : ∀ i T, reported_duration (evs ++ [e]) i T = reported_duration evs i T := by
    intro i T
    cases hci : contributed evs i T with
    | true => exact reported_duration_append_old evs e i T hci
    | false =>
      rw [reported_duration_append_new evs e i T hci,
        reported_duration_of_not_contributed evs i T hci]
      rw [if_neg]
      rintro ⟨ha, hb⟩
      rw [ha, hb, hci] at hc
      exact absurd hc (by decide)
  refine ⟨h1, h2, ?_, ?_⟩
  · intro T
    rw [contributors_append, if_neg]
    rintro ⟨ha, -, hb⟩
    rw [← ha, hc] at hb
    exact absurd hb (by decide)
  · intro T
    unfold total_reported
    simp only [h2]

/-- A new contribution of timeslice `e.2.1` by input `e.1`. -/
theorem history_append_new (evs : List (Nat × Nat × Int × Nat))
    (e : Nat × Nat × Int × Nat) (N : Nat) (hc : contributed evs e.1 e.2.1 = false)
    (hi : e.1 < N) :
    (∀ i T, contributed (evs ++ [e]) i T =
      if i = e.1 ∧ T = e.2.1 then true else contributed evs i T) ∧
    (∀ i T, reported_duration (evs ++ [e]) i T =
      if i = e.1 ∧ T = e.2.1 then e.2.2.2 else reported_duration evs i T) ∧
    (∀ T, contributors (evs ++ [e]) N T =
      if T = e.2.1 then contributors evs N T + 1 else contributors evs N T) ∧
    (∀ T, T ≠ e.2.1 → total_reported (evs ++ [e]) N T = total_reported evs N T) := by
  have h1 : ∀ i T, contributed (evs ++ [e]) i T =
      if i = e.1 ∧ T = e.2.1 then true else contributed evs i T := by
    intro i T
    rw [contributed_append]
    by_cases h : i = e.1 ∧ T = e.2.1
    · rw [if_pos h, h.1, h.2]
      simp
    · rw [if_neg h]
      have : (e.1 == i && e.2.1 == T) = false := by
        rw [Bool.and_eq_false_iff]
        rcases not_and_or.mp h with h | h
        · exact Or.inl (by simpa using Ne.symm h)
        · exact Or.inr (by simpa using Ne.symm h)
      rw [this, Bool.or_false]
  have h2 : ∀ i T, reported_duration (evs ++ [e]) i T =
      if i = e.1 ∧ T = e.2.1 then e.2.2.2 else reported_duration evs i T := by
    intro i T
    by_cases h : i = e.1 ∧ T = e.2.1
    · rw [if_pos h, h.1, h.2, reported_duration_append_new evs e e.1 e.2.1 hc,
        if_pos ⟨rfl, rfl⟩]
    · rw [if_neg h]
      cases hci : contributed evs i T with
      | true => exact reported_duration_append_old evs e i T hci
      | false =>
        rw [reported_duration_append_new evs e i T hci,
          reported_duration_of_not_contributed evs i T hci]
        rw [if_neg]
        rintro ⟨ha, hb⟩
        exact h ⟨ha.symm, hb.symm⟩
  refine ⟨h1, h2, ?_, ?_⟩
  · intro T
    rw [contributors_append]
    by_cases hT : T = e.2.1
    · rw [if_pos hT, if_pos ⟨hT.symm, hi, by rw [hT]; exact hc⟩]
    · rw [if_neg hT, if_neg (fun h => hT h.1.symm)]
  · intro T hT
    unfold total_reported
    congr 1
    congr 1
    apply List.map_congr_left
    intro i _
    rw [h2, if_neg (fun h => hT h.2)]

theorem total_duration_loop_sum (T : Nat) :
    ∀ (l : List InputSchedulerData) (acc : Nat) (vals : List Nat),
      acc < UINT64_MOD →
      l.map (fun d => (d.ts_sent_info_.get T).map Prod.snd) = vals.map some →
      total_duration_loop T l acc = .ok ((acc + vals.sum) % UINT64_MOD)
  | [], acc, vals, hacc, h => by
    cases vals with
    | nil =>
      unfold total_duration_loop
      rw [List.sum_nil, Nat.add_zero, Nat.mod_eq_of_lt hacc]
    | cons v vs => simp at h
  | d :: rest, acc, vals, hacc, h => by
    cases vals with
    | nil => simp at h
    | cons v vs =>
      simp only [List.map_cons, List.cons.injEq] at h
      obtain ⟨hv, hrest⟩ := h
      unfold total_duration_loop
      cases hg : d.ts_sent_info_.get T with
      | none => rw [hg] at hv; simp at hv
      | some p =>
        rw [hg] at hv
        simp only [Option.map_some', Option.some.injEq] at hv
        simp only
        rw [total_duration_loop_sum T rest (u64_add acc p.2) vs
          (Nat.mod_lt _ (by decide)) hrest, hv]
        unfold u64_add
        congr 1
        rw [List.sum_cons, Nat.add_mod, Nat.mod_mod, ← Nat.add_mod]
        congr 1
        omega


/-- The call `increament_acked_ts(T)` when `c0` inputs have been counted for `T`. -/
theorem increament_acked_ts_eq (s1 : TimesliceScheduler) (T c0 : Nat)
    (h : s1.acked_ts_count_.get T = if c0 = 0 then none else some c0)
    (h32 : c0 + 1 < 2 ^ 32) :
    s1.increament_acked_ts T =
      if c0 + 1 = s1.input_node_count_ then
        TimesliceScheduler.calculate_total_ts_duration
          { s1 with
            acked_ts_count_ :=
              if c0 = 0 then s1.acked_ts_count_.add T 1
              else s1.acked_ts_count_.update T (c0 + 1) } T
      else
        .ok { s1 with
          acked_ts_count_ :=
            if c0 = 0 then s1.acked_ts_count_.add T 1
            else s1.acked_ts_count_.update T (c0 + 1) } := by
  unfold TimesliceScheduler.increament_acked_ts
  by_cases hz : c0 = 0
  · rw [if_pos hz] at h
    have hcont : s1.acked_ts_count_.contains T = false :=
      (s1.acked_ts_count_.contains_eq_false_iff T).mpr h
    subst hz
    simp only [h, hcont, if_true, Bool.false_eq_true, if_false, Nat.zero_add]
  · rw [if_neg hz] at h
    have hcont : s1.acked_ts_count_.contains T = true := by
      unfold SizedMap.contains
      rw [h]
      rfl
    have hmod : (c0 + 1) % 2 ^ 32 = c0 + 1 := Nat.mod_eq_of_lt h32
    simp only [h, hcont, if_true, hz, if_false, hmod]

/-- The call `calculate_total_ts_duration(T)` when every input has a duration for
`T`. -/
theorem calculate_total_ts_duration_eq (s : TimesliceScheduler) (T total : Nat)
    (hlen : s.input_node_count_ ≤ s.sender_info_.length)
    (hloop : total_duration_loop T (s.sender_info_.take s.input_node_count_) 0 =
      .ok total) :
    s.calculate_total_ts_duration T =
      .ok { s with
        ts_duration_ := s.ts_duration_.add T total,
        min_ts_duration_ :=
          if s.min_ts_duration_ = MINUS_ONE ∨ total < s.min_ts_duration_ then total
          else s.min_ts_duration_,
        completed_ts_ := true } := by
  unfold TimesliceScheduler.calculate_total_ts_duration
  rw [hloop]
  simp only
  rw [if_neg (by omega)]

/-- The counter map after `increament_acked_ts(T)`. -/
theorem acked_ts_count_step (m : SizedMap Nat) (T c0 : Nat) (all_ts : List Nat)
    (h : m.get T = if c0 = 0 then none else some c0)
    (h_nd : (m.map_.map Prod.fst).Nodup)
    (h_sub : ∀ k ∈ m.map_.map Prod.fst, k ∈ all_ts)
    (h_max : m.MAX_MAP_SIZE_ = 100)
    (hT : T ∈ all_ts) (h_cap : all_ts.dedup.length ≤ 100) :
    (∀ k, (if c0 = 0 then m.add T 1 else m.update T (c0 + 1)).get k =
      if k = T then some (c0 + 1) else m.get k) ∧
    ((if c0 = 0 then m.add T 1 else m.update T (c0 + 1)).map_.map Prod.fst).Nodup ∧
    (∀ k ∈ (if c0 = 0 then m.add T 1 else m.update T (c0 + 1)).map_.map Prod.fst,
      k ∈ all_ts) ∧
    (if c0 = 0 then m.add T 1 else m.update T (c0 + 1)).MAX_MAP_SIZE_ = 100 := by
  by_cases hz : c0 = 0
  · rw [if_pos hz] at h
    simp only [hz, if_true]
    have hnotin := (m.get_eq_none_iff T).mp h
    have hlen := nodup_subset_length_le (T :: m.map_.map Prod.fst) all_ts
      (List.nodup_cons.mpr ⟨hnotin, h_nd⟩)
      (by
        intro k hk
        rcases List.mem_cons.mp hk with h1 | h1
        · rw [h1]; exact hT
        · exact h_sub k h1)
    simp only [List.length_cons, List.length_map] at hlen
    obtain ⟨hg, hk, hm⟩ := m.add_new T 1 h (by rw [h_max]; omega)
    refine ⟨hg, ?_, ?_, hm.trans h_max⟩
    · exact hk.nodup_iff.mpr (List.nodup_cons.mpr ⟨hnotin, h_nd⟩)
    · intro k hkm
      rcases List.mem_cons.mp (hk.subset hkm) with h1 | h1
      · rw [h1]; exact hT
      · exact h_sub k h1
  · rw [if_neg hz] at h
    simp only [hz, if_false]
    have hcont : m.contains T = true := by
      unfold SizedMap.contains
      rw [h]
      rfl
    obtain ⟨hg, hk, hm⟩ := m.update_old T (c0 + 1) hcont
    refine ⟨hg, ?_, ?_, hm.trans h_max⟩
    · rw [hk]; exact h_nd
    · rw [hk]; exact h_sub


/-- A call of `add_input_ts_info` for a repeated contribution returns the scheduler
unchanged. -/
theorem add_input_ts_info_repeated (s : TimesliceScheduler) (i T : Nat) (t : Int)
    (duration : Double) (d : InputSchedulerData) (hd : s.sender_info_[i]? = some d)
    (hcont : d.ts_sent_info_.contains T = true) :
    s.add_input_ts_info i T t duration = .ok s := by
  unfold TimesliceScheduler.add_input_ts_info
  rw [hd]
  simp only
  rw [if_pos hcont]

/-- A call of `add_input_ts_info` for a new contribution, whose duration converts to
the `uint64_t` value `dur`, goes on to `increament_acked_ts`. -/
theorem add_input_ts_info_new (s : TimesliceScheduler) (i T : Nat) (t : Int)
    (duration : Double) (dur : Nat) (d : InputSchedulerData)
    (hd : s.sender_info_[i]? = some d)
    (hcont : d.ts_sent_info_.contains T = false) (h_conv : duration.to_u64 = some dur) :
    s.add_input_ts_info i T t duration =
      TimesliceScheduler.increament_acked_ts
        { s with
          sender_info_ := s.sender_info_.set i
            { d with
              ts_sent_info_ := d.ts_sent_info_.add T (t, dur),
              min_duration :=
                if d.min_duration = MINUS_ONE ∨
                    duration.lt (Double.of_u64 d.min_duration) then dur
                else d.min_duration } } T := by
  unfold TimesliceScheduler.add_input_ts_info
  rw [hd]
  simp only
  rw [if_neg (by rw [hcont]; decide), h_conv]

/-- The map of an input after a new contribution. -/
theorem ts_sent_info_step (m : SizedMap (Int × Nat)) (T : Nat) (v : Int × Nat)
    (all_ts : List Nat) (history_size : Nat)
    (h : m.get T = none)
    (h_nd : (m.map_.map Prod.fst).Nodup)
    (h_sub : ∀ k ∈ m.map_.map Prod.fst, k ∈ all_ts)
    (h_max : m.MAX_MAP_SIZE_ = history_size)
    (hT : T ∈ all_ts) (h_cap : all_ts.dedup.length ≤ history_size) :
    (∀ k, (m.add T v).get k = if k = T then some v else m.get k) ∧
    ((m.add T v).map_.map Prod.fst).Nodup ∧
    (∀ k ∈ (m.add T v).map_.map Prod.fst, k ∈ all_ts) ∧
    (m.add T v).MAX_MAP_SIZE_ = history_size := by
  have hnotin := (m.get_eq_none_iff T).mp h
  have hlen := nodup_subset_length_le (T :: m.map_.map Prod.fst) all_ts
    (List.nodup_cons.mpr ⟨hnotin, h_nd⟩)
    (by
      intro k hk
      rcases List.mem_cons.mp hk with h1 | h1
      · rw [h1]; exact hT
      · exact h_sub k h1)
  simp only [List.length_cons, List.length_map] at hlen
  obtain ⟨hg, hk, hm⟩ := m.add_new T v h (by rw [h_max]; omega)
  refine ⟨hg, ?_, ?_, hm.trans h_max⟩
  · exact hk.nodup_iff.mpr (List.nodup_cons.mpr ⟨hnotin, h_nd⟩)
  · intro k hkm
    rcases List.mem_cons.mp (hk.subset hkm) with h1 | h1
    · rw [h1]; exact hT
    · exact h_sub k h1


/-- The fields of the history after a new contribution, before the counters are
updated. -/
theorem add_input_ts_info_new_fields (s : TimesliceScheduler) (i T : Nat) (t : Int)
    (duration : Double) (dur : Nat) (d : InputSchedulerData)
    (hd : s.sender_info_[i]? = some d)
    (hcont : d.ts_sent_info_.contains T = false) (h_conv : duration.to_u64 = some dur) :
    ∃ (d1 : InputSchedulerData) (s1 : TimesliceScheduler),
      s.add_input_ts_info i T t duration = s1.increament_acked_ts T ∧
      d1.ts_sent_info_ = d.ts_sent_info_.add T (t, dur) ∧
      s1.sender_info_ = s.sender_info_.set i d1 ∧
      s1.input_node_count_ = s.input_node_count_ ∧
      s1.acked_ts_count_ = s.acked_ts_count_ ∧
      s1.ts_duration_ = s.ts_duration_ :=
  ⟨_, _, add_input_ts_info_new s i T t duration dur d hd hcont h_conv, rfl, rfl, rfl, rfl,
    rfl⟩

/-- The fields of the history after `increament_acked_ts(T)` when `c0` inputs have
been counted for `T` and not all inputs have contributed. -/
theorem increament_acked_ts_fields (s1 : TimesliceScheduler) (T c0 : Nat)
    (h : s1.acked_ts_count_.get T = if c0 = 0 then none else some c0)
    (h32 : c0 + 1 < 2 ^ 32) :
    ∃ s2 : TimesliceScheduler,
      s1.increament_acked_ts T =
        (if c0 + 1 = s1.input_node_count_ then s2.calculate_total_ts_duration T
          else .ok s2) ∧
      s2.sender_info_ = s1.sender_info_ ∧
      s2.input_node_count_ = s1.input_node_count_ ∧
      s2.acked_ts_count_ =
        (if c0 = 0 then s1.acked_ts_count_.add T 1
          else s1.acked_ts_count_.update T (c0 + 1)) ∧
      s2.ts_duration_ = s1.ts_duration_ :=
  ⟨_, increament_acked_ts_eq s1 T c0 h h32, rfl, rfl, rfl, rfl⟩

/-- The fields of the history after `calculate_total_ts_duration(T)`. -/
theorem calculate_total_ts_duration_fields (s : TimesliceScheduler) (T total : Nat)
    (hlen : s.input_node_count_ ≤ s.sender_info_.length)
    (hloop : total_duration_loop T (s.sender_info_.take s.input_node_count_) 0 =
      .ok total) :
    ∃ s3 : TimesliceScheduler, s.calculate_total_ts_duration T = .ok s3 ∧
      s3.sender_info_ = s.sender_info_ ∧
      s3.input_node_count_ = s.input_node_count_ ∧
      s3.acked_ts_count_ = s.acked_ts_count_ ∧
      s3.ts_duration_ = s.ts_duration_.add T total :=
  ⟨_, calculate_total_ts_duration_eq s T total hlen hloop, rfl, rfl, rfl, rfl⟩

/-- One call of `add_input_ts_info`, with a duration that converts to the `uint64_t`
value stored in the contribution `e`, keeps the invariant of the history. -/
theorem add_input_ts_info_step (N history_size : Nat) (all_ts : List Nat)
    (evs : List (Nat × Nat × Int × Nat)) (s : TimesliceScheduler)
    (e : Nat × Nat × Int × Nat) (duration : Double)
    (hN32 : N < 2 ^ 32)
    (h_cap : all_ts.dedup.length ≤ 100) (h_cap_sent : all_ts.dedup.length ≤ history_size)
    (hinv : HistoryInv N history_size all_ts evs s)
    (hi : e.1 < N) (h_conv : duration.to_u64 = some e.2.2.2) (hT : e.2.1 ∈ all_ts) :
    ∃ s', s.add_input_ts_info e.1 e.2.1 e.2.2.1 duration = .ok s' ∧
      HistoryInv N history_size all_ts (evs ++ [e]) s' ∧
      (contributed evs e.1 e.2.1 = true → s' = s) := by
  obtain ⟨d, hd⟩ : ∃ d, s.sender_info_[e.1]? = some d :=
    ⟨_, List.getElem?_eq_getElem (by rw [hinv.len]; exact hi)⟩
  have hsent := hinv.sent e.1 d e.2.1 hd
  cases hc : contributed evs e.1 e.2.1 with
  | true =>
    rw [hc, if_pos rfl] at hsent
    have hcont : d.ts_sent_info_.contains e.2.1 = true := by
      unfold SizedMap.contains
      cases hg : d.ts_sent_info_.get e.2.1 with
      | none => rw [hg] at hsent; simp at hsent
      | some p => rfl
    obtain ⟨h1, h2, h3, h4⟩ := history_append_old evs e N hc
    refine ⟨s, add_input_ts_info_repeated s e.1 e.2.1 e.2.2.1 _ d hd hcont, ?_, fun _ => rfl⟩
    exact
      { count_eq := hinv.count_eq
        len := hinv.len
        sent := by
          intro i d' T h
          rw [h1, h2]
          exact hinv.sent i d' T h
        sent_keys := hinv.sent_keys
        acked := by
          intro T
          rw [h3]
          exact hinv.acked T
        acked_keys := hinv.acked_keys
        complete := by
          intro T
          rw [h3, h4]
          exact hinv.complete T
        complete_keys := hinv.complete_keys }
  | false =>
    rw [hc, if_neg (by decide)] at hsent
    have hget : d.ts_sent_info_.get e.2.1 = none := by
      cases hg : d.ts_sent_info_.get e.2.1 with
      | none => rfl
      | some p => rw [hg] at hsent; simp at hsent
    have hcont : d.ts_sent_info_.contains e.2.1 = false :=
      (d.ts_sent_info_.contains_eq_false_iff e.2.1).mpr hget
    obtain ⟨hk_nd, hk_sub, hk_max⟩ := hinv.sent_keys e.1 d hd
    obtain ⟨hs_get, hs_nd, hs_sub, hs_max⟩ := ts_sent_info_step d.ts_sent_info_ e.2.1
      (e.2.2.1, e.2.2.2) all_ts history_size hget hk_nd hk_sub hk_max hT h_cap_sent
    obtain ⟨h1, h2, h3, h4⟩ := history_append_new evs e N hc hi
    have hc0 : contributors evs N e.2.1 + 1 ≤ N := by
      have := contributors_le (evs ++ [e]) N e.2.1
      rw [h3, if_pos rfl] at this
      exact this
    obtain ⟨ha_get, ha_nd, ha_sub, ha_max⟩ := acked_ts_count_step s.acked_ts_count_ e.2.1
      (contributors evs N e.2.1) all_ts (hinv.acked e.2.1) hinv.acked_keys.1
      hinv.acked_keys.2.1 hinv.acked_keys.2.2 hT h_cap
    obtain ⟨d1, s1, hrun1, hd1, hs1_info, hs1_count, hs1_acked, hs1_dur⟩ :=
      add_input_ts_info_new_fields s e.1 e.2.1 e.2.2.1 duration e.2.2.2 d hd hcont h_conv
    obtain ⟨s2, hrun2, hs2_info, hs2_count, hs2_acked, hs2_dur⟩ :=
      increament_acked_ts_fields s1 e.2.1 (contributors evs N e.2.1)
        (by rw [hs1_acked]; exact hinv.acked e.2.1) (by omega)
    rw [hs1_info] at hs2_info
    rw [hs1_count, hinv.count_eq] at hs2_count
    rw [hs1_acked] at hs2_acked
    rw [hs1_dur] at hs2_dur
    rw [hrun1, hrun2, hs1_count, hinv.count_eq]
    -- the facts about the inputs and the counters, common to both branches
    have h_len : s2.sender_info_.length = N := by
      rw [hs2_info, List.length_set]
      exact hinv.len
    have h_sent : ∀ (i : Nat) (d' : InputSchedulerData) (T : Nat),
        s2.sender_info_[i]? = some d' →
        (d'.ts_sent_info_.get T).map Prod.snd =
          if contributed (evs ++ [e]) i T then some (reported_duration (evs ++ [e]) i T)
          else none := by
      intro i d' T h
      rw [hs2_info] at h
      rw [h1, h2]
      by_cases hie : i = e.1
      · subst hie
        rw [List.getElem?_set_self (by rw [hinv.len]; exact hi)] at h
        injection h with h
        subst h
        rw [hd1, hs_get]
        by_cases hTe : T = e.2.1
        · subst hTe
          simp
        · simp only [hTe, and_false, if_false]
          exact hinv.sent _ d T hd
      · rw [List.getElem?_set_ne (Ne.symm hie)] at h
        simp only [hie, false_and, if_false]
        exact hinv.sent i d' T h
    have h_sent_keys : ∀ (i : Nat) (d' : InputSchedulerData),
        s2.sender_info_[i]? = some d' →
        (d'.ts_sent_info_.map_.map Prod.fst).Nodup ∧
        (∀ k ∈ d'.ts_sent_info_.map_.map Prod.fst, k ∈ all_ts) ∧
        d'.ts_sent_info_.MAX_MAP_SIZE_ = history_size := by
      intro i d' h
      rw [hs2_info] at h
      by_cases hie : i = e.1
      · subst hie
        rw [List.getElem?_set_self (by rw [hinv.len]; exact hi)] at h
        injection h with h
        subst h
        rw [hd1]
        exact ⟨hs_nd, hs_sub, hs_max⟩
      · rw [List.getElem?_set_ne (Ne.symm hie)] at h
        exact hinv.sent_keys i d' h
    have h_acked : ∀ T, s2.acked_ts_count_.get T =
        if contributors (evs ++ [e]) N T = 0 then none
        else some (contributors (evs ++ [e]) N T) := by
      intro T
      rw [hs2_acked, ha_get, h3]
      by_cases hTe : T = e.2.1
      · rw [if_pos hTe, if_pos hTe, if_neg (by omega), hTe]
      · rw [if_neg hTe, if_neg hTe]
        exact hinv.acked T
    have h_acked_keys : (s2.acked_ts_count_.map_.map Prod.fst).Nodup ∧
        (∀ k ∈ s2.acked_ts_count_.map_.map Prod.fst, k ∈ all_ts) ∧
        s2.acked_ts_count_.MAX_MAP_SIZE_ = 100 := by
      rw [hs2_acked]
      exact ⟨ha_nd, ha_sub, ha_max⟩
    have h_old_none : s.ts_duration_.get e.2.1 = none := by
      rw [hinv.complete e.2.1, if_neg (by omega)]
    by_cases hfull : contributors evs N e.2.1 + 1 = N
    · -- the timeslice is complete
      rw [if_pos hfull]
      have h_all : ∀ i, i < N → contributed (evs ++ [e]) i e.2.1 = true := by
        apply (contributors_eq_iff (evs ++ [e]) N e.2.1).mp
        rw [h3, if_pos rfl]
        exact hfull
      have hloop := total_duration_loop_sum e.2.1 (s2.sender_info_.take N) 0
        ((List.range N).map (fun i => reported_duration (evs ++ [e]) i e.2.1))
        (by decide)
        (by
          rw [List.take_of_length_le (by rw [h_len])]
          apply List.ext_getElem
          · simp [h_len]
          · intro j hj1 hj2
            have hjN : j < N := by simpa [h_len] using hj1
            simp only [List.getElem_map, List.getElem_range]
            have := h_sent j _ e.2.1 (List.getElem?_eq_getElem (by rw [h_len]; exact hjN))
            rw [this, h_all j hjN, if_pos rfl])
      rw [Nat.zero_add] at hloop
      obtain ⟨hc_nd, hc_sub, hc_max⟩ := hinv.complete_keys
      have hnotin := (s.ts_duration_.get_eq_none_iff e.2.1).mp h_old_none
      have hlen := nodup_subset_length_le (e.2.1 :: s.ts_duration_.map_.map Prod.fst) all_ts
        (List.nodup_cons.mpr ⟨hnotin, hc_nd⟩)
        (by
          intro k hk
          rcases List.mem_cons.mp hk with h5 | h5
          · rw [h5]; exact hT
          · exact hc_sub k h5)
      simp only [List.length_cons, List.length_map] at hlen
      obtain ⟨hg, hk, hm⟩ := s.ts_duration_.add_new e.2.1
        (total_reported (evs ++ [e]) N e.2.1) h_old_none (by rw [hc_max]; omega)
      obtain ⟨s3, hrun3, hs3_info, hs3_count, hs3_acked, hs3_dur⟩ :=
        calculate_total_ts_duration_fields s2 e.2.1 (total_reported (evs ++ [e]) N e.2.1)
          (by rw [h_len, hs2_count])
          (by rw [hs2_count]; exact hloop)
      rw [hs2_dur] at hs3_dur
      refine ⟨s3, hrun3, ?_, fun h => absurd h (by decide)⟩
      exact
        { count_eq := hs3_count.trans hs2_count
          len := by rw [hs3_info]; exact h_len
          sent := by rw [hs3_info]; exact h_sent
          sent_keys := by rw [hs3_info]; exact h_sent_keys
          acked := by rw [hs3_acked]; exact h_acked
          acked_keys := by rw [hs3_acked]; exact h_acked_keys
          complete := by
            intro T
            rw [hs3_dur, hg, h3]
            by_cases hTe : T = e.2.1
            · subst hTe
              rw [if_pos rfl, if_pos rfl, if_pos hfull]
            · rw [if_neg hTe, if_neg hTe, h4 T hTe]
              exact hinv.complete T
          complete_keys := by
            rw [hs3_dur]
            refine ⟨hk.nodup_iff.mpr (List.nodup_cons.mpr ⟨hnotin, hc_nd⟩), ?_,
              hm.trans hc_max⟩
            intro k hkm
            rcases List.mem_cons.mp (hk.subset hkm) with h5 | h5
            · rw [h5]; exact hT
            · exact hc_sub k h5 }
    · -- the timeslice is not complete yet
      rw [if_neg hfull]
      refine ⟨s2, rfl, ?_, fun h => absurd h (by decide)⟩
      exact
        { count_eq := hs2_count
          len := h_len
          sent := h_sent
          sent_keys := h_sent_keys
          acked := h_acked
          acked_keys := h_acked_keys
          complete := by
            intro T
            rw [hs2_dur, h3]
            by_cases hTe : T = e.2.1
            · subst hTe
              rw [if_pos rfl, if_neg hfull]
              exact h_old_none
            · rw [if_neg hTe, h4 T hTe]
              exact hinv.complete T
          complete_keys := by rw [hs2_dur]; exact hinv.complete_keys }


theorem contributors_nil (N T : Nat) : contributors [] N T = 0 := by
  unfold contributors contributed
  rw [List.countP_eq_zero]
  intro i _
  simp

/-- The constructed scheduler has an empty history. -/
theorem init_history_inv (L history_size c N IL : Nat) (all_ts : List Nat) (hN : 1 ≤ N) :
    HistoryInv N history_size all_ts [] (TimesliceScheduler.init L history_size c N IL) where
  count_eq := rfl
  len := List.length_replicate _ _
  sent := by
    intro i d T h
    have hd : d = InputSchedulerData.init history_size := by
      have hm : d ∈ List.replicate N (InputSchedulerData.init history_size) :=
        List.getElem?_mem h
      exact (List.mem_replicate.mp hm).2
    subst hd
    rfl
  sent_keys := by
    intro i d h
    have hd : d = InputSchedulerData.init history_size := by
      have hm : d ∈ List.replicate N (InputSchedulerData.init history_size) :=
        List.getElem?_mem h
      exact (List.mem_replicate.mp hm).2
    subst hd
    exact ⟨List.nodup_nil, by intro k hk; simp [InputSchedulerData.init, SizedMap.empty] at hk,
      rfl⟩
  acked := by
    intro T
    rw [contributors_nil, if_pos rfl]
    rfl
  acked_keys := ⟨List.nodup_nil, by
    intro k hk
    simp [TimesliceScheduler.init, SizedMap.empty] at hk, rfl⟩
  complete := by
    intro T
    rw [contributors_nil, if_neg (by omega)]
    rfl
  complete_keys := ⟨List.nodup_nil, by
    intro k hk
    simp [TimesliceScheduler.init, SizedMap.empty] at hk, rfl⟩

theorem stored_contributions_cons (e : Nat × Nat × Int × Double)
    (rest : List (Nat × Nat × Int × Double)) (dur : Nat) (h : e.2.2.2.to_u64 = some dur) :
    stored_contributions (e :: rest) =
      (e.1, e.2.1, e.2.2.1, dur) :: stored_contributions rest := by
  unfold stored_contributions
  rw [List.map_cons, h]
  rfl

/-- A sequence of calls of `add_input_ts_info` whose durations convert to `uint64_t`
returns and keeps the invariant of the history, for the contributions as stored. -/
theorem add_input_ts_infos_inv (N history_size : Nat) (all_ts : List Nat)
    (hN32 : N < 2 ^ 32)
    (h_cap : all_ts.dedup.length ≤ 100) (h_cap_sent : all_ts.dedup.length ≤ history_size) :
    ∀ (rest : List (Nat × Nat × Int × Double)) (evs : List (Nat × Nat × Int × Nat))
      (s : TimesliceScheduler),
      HistoryInv N history_size all_ts evs s →
      (∀ e ∈ rest, e.1 < N ∧ e.2.2.2.to_u64.isSome = true ∧ e.2.1 ∈ all_ts) →
      ∃ s', s.add_input_ts_infos rest = .ok s' ∧
        HistoryInv N history_size all_ts (evs ++ stored_contributions rest) s'
  | [], evs, s, hinv, _ => by
    refine ⟨s, rfl, ?_⟩
    unfold stored_contributions
    rw [List.map_nil, List.append_nil]
    exact hinv
  | e :: rest, evs, s, hinv, h => by
    obtain ⟨hi, hsome, hT⟩ := h e (List.mem_cons_self _ _)
    obtain ⟨dur, hdur⟩ := Option.isSome_iff_exists.mp hsome
    obtain ⟨s1, hs1, hinv1, -⟩ := add_input_ts_info_step N history_size all_ts evs s
      (e.1, e.2.1, e.2.2.1, dur) e.2.2.2 hN32 h_cap h_cap_sent hinv hi hdur hT
    obtain ⟨s', hs', hinv'⟩ := add_input_ts_infos_inv N history_size all_ts hN32 h_cap
      h_cap_sent rest (evs ++ [(e.1, e.2.1, e.2.2.1, dur)]) s1 hinv1
      (fun e' he' => h e' (List.mem_cons_of_mem _ he'))
    refine ⟨s', ?_, ?_⟩
    · obtain ⟨i, T, t, duration⟩ := e
      unfold TimesliceScheduler.add_input_ts_infos
      simp only at hs1
      rw [hs1]
      exact hs'
    · rw [stored_contributions_cons e rest dur hdur]
      rw [List.append_assoc] at hinv'
      exact hinv'

/-- C25 (amended). After any sequence `calls` of `add_input_ts_info` calls by the
`N >= 1` inputs (any `double` durations that convert to `uint64_t`, distinct
timeslices within the capacities of the history maps), from the constructed scheduler:
the calls return; a timeslice `T` has an entry in `ts_duration_` if and only if every
one of the `N` inputs has contributed `T`, and then the entry is the sum, in
`uint64_t`, of the durations the `N` inputs reported in their first contribution of
`T`, each converted to `uint64_t` (its fraction discarded);
`get_last_complete_ts` returns `MINUS_ONE` or a timeslice with such an entry, the
latter as soon as one timeslice is complete; and a call for an (input, timeslice)
that is already recorded returns the scheduler unchanged. -/
theorem complete_iff_all_contributed (L history_size c N IL : Nat)
    (calls : List (Nat × Nat × Int × Double))
    (hN : 1 ≤ N) (hN32 : N < 2 ^ 32)
    (h_idx : ∀ e ∈ calls, e.1 < N)
    (h_dur : ∀ e ∈ calls, e.2.2.2.to_u64.isSome = true)
    (h_cap : (calls.map (fun e => e.2.1)).dedup.length ≤ 100)
    (h_cap_sent : (calls.map (fun e => e.2.1)).dedup.length ≤ history_size) :
    ∃ s, (TimesliceScheduler.init L history_size c N IL).add_input_ts_infos calls = .ok s ∧
      (∀ T, s.ts_duration_.contains T = true ↔
        ∀ i, i < N → contributed (stored_contributions calls) i T = true) ∧
      (∀ T, (∀ i, i < N → contributed (stored_contributions calls) i T = true) →
        s.ts_duration_.get T = some (total_reported (stored_contributions calls) N T)) ∧
      (s.get_last_complete_ts = MINUS_ONE ∨
        s.ts_duration_.contains s.get_last_complete_ts = true) ∧
      ((∃ T, ∀ i, i < N → contributed (stored_contributions calls) i T = true) →
        s.ts_duration_.contains s.get_last_complete_ts = true) ∧
      (∀ (s0 : TimesliceScheduler) (i T : Nat) (t : Int) (duration : Double)
        (d : InputSchedulerData), s0.sender_info_[i]? = some d →
        d.ts_sent_info_.contains T = true →
        s0.add_input_ts_info i T t duration = .ok s0) := by
  obtain ⟨s, hs, hinv⟩ := add_input_ts_infos_inv N history_size
    (calls.map (fun e => e.2.1)) hN32 h_cap h_cap_sent calls [] _
    (init_history_inv L history_size c N IL _ hN)
    (fun e he => ⟨h_idx e he, h_dur e he, List.mem_map.mpr ⟨e, he, rfl⟩⟩)
  rw [List.nil_append] at hinv
  generalize stored_contributions calls = evs at hinv ⊢
  have h_get : ∀ T, (∀ i, i < N → contributed evs i T = true) →
      s.ts_duration_.get T = some (total_reported evs N T) := by
    intro T hall
    rw [hinv.complete T, if_pos ((contributors_eq_iff evs N T).mpr hall)]
  have h_iff : ∀ T, s.ts_duration_.contains T = true ↔
      ∀ i, i < N → contributed evs i T = true := by
    intro T
    constructor
    · intro hcont
      apply (contributors_eq_iff evs N T).mp
      by_contra hne
      have := hinv.complete T
      rw [if_neg hne] at this
      rw [(s.ts_duration_.contains_eq_false_iff T).mpr this] at hcont
      exact absurd hcont (by decide)
    · intro hall
      unfold SizedMap.contains
      rw [h_get T hall]
      rfl
  have h_last : s.ts_duration_.map_ ≠ [] →
      s.ts_duration_.contains s.get_last_complete_ts = true := by
    intro hne
    unfold TimesliceScheduler.get_last_complete_ts SizedMap.get_last_key
    cases hl : s.ts_duration_.map_.getLast? with
    | none => exact absurd (List.getLast?_eq_none_iff.mp hl) hne
    | some p =>
      simp only [Option.map_some']
      rw [SizedMap.contains_iff]
      exact List.mem_map.mpr ⟨p, List.mem_of_getLast?_eq_some hl, rfl⟩
  refine ⟨s, hs, h_iff, h_get, ?_, ?_, ?_⟩
  · by_cases hne : s.ts_duration_.map_ = []
    · left
      unfold TimesliceScheduler.get_last_complete_ts SizedMap.get_last_key
      rw [hne]
      rfl
    · exact Or.inr (h_last hne)
  · rintro ⟨T, hall⟩
    apply h_last
    intro hempty
    have hcont := (h_iff T).mpr hall
    rw [SizedMap.contains_iff, hempty] at hcont
    simp at hcont
  · intro s0 i T t duration d hd hcont
    exact add_input_ts_info_repeated s0 i T t duration d hd hcont

/-- An instance of the amended C25: two inputs contribute timeslice 7 with 30 and 50
microseconds, input 0 repeats its contribution with 99; timeslice 7 is complete with
the total 80. -/
theorem complete_iff_all_contributed_witness :
    ∃ s, (TimesliceScheduler.init 10 100 0 2 5).add_input_ts_infos
        (contribution_calls scenario_contributions) = .ok s ∧
      s.ts_duration_.contains 7 = true ∧
      s.ts_duration_.get 7 = some 80 := by
  obtain ⟨s, hs, h_iff, h_get, -⟩ := complete_iff_all_contributed 10 100 0 2 5
    (contribution_calls scenario_contributions) (by decide) (by decide) (by decide)
    (by decide) (by decide) (by decide)
  have hall : ∀ i, i < 2 →
      contributed (stored_contributions (contribution_calls scenario_contributions)) i 7 =
        true := by decide
  have htotal : total_reported
      (stored_contributions (contribution_calls scenario_contributions)) 2 7 = 80 := by
    decide
  exact ⟨s, hs, (h_iff 7).mpr hall, by rw [h_get 7 hall, htotal]⟩

/-- C25 fails as stated for durations with a fraction. Two inputs report 1.5
microseconds each for timeslice 7, so the sum of the reported durations is 3; each
duration is stored as the `uint64_t` 1, and the recorded duration of the complete
timeslice 7 is 2. -/
theorem recorded_duration_truncates :
    scenario_fractional_calls.map (fun c => c.2.2.2) =
      [{ mantissa := 3, exponent := -1 }, { mantissa := 3, exponent := -1 }] ∧
    (Double.add { mantissa := 3, exponent := -1 } { mantissa := 3, exponent := -1 }).to_u64 =
      some 3 ∧
    ((TimesliceScheduler.init 10 100 0 2 5).add_input_ts_infos
      scenario_fractional_calls).toOption.map (fun s => s.ts_duration_.get 7) =
      some (some 2) ∧
    ((TimesliceScheduler.init 10 100 0 2 5).add_input_ts_infos
      scenario_fractional_calls).toOption.map (fun s => s.get_last_complete_ts) =
      some 7 := by
  refine ⟨by decide, by decide, by decide, by decide⟩


/-! ### The pacer: previous input, gaps between inputs, statistics -/

/-- C23 (code at the failing input). For compute node 0 and three inputs,
`(compute_index_ - 1) % input_node_count_` is computed in `uint64_t`:
`compute_index_ - 1` wraps to `2^64 - 1`, whose remainder modulo 3 is 0, whereas
`(0 - 1) mod 3` is 2. With four inputs the result is 3, and for compute node 2 of three
it is 1. -/
theorem last_input_node_wraps :
    scenario_three_inputs.last_input_node = .ok 0 ∧
    ((0 : Int) - 1) % 3 = 2 ∧
    (TimesliceScheduler.init 10 100 0 4 5).last_input_node = .ok 3 ∧
    (TimesliceScheduler.init 10 100 2 3 5).last_input_node = .ok 1 := by
  refine ⟨rfl, by decide, rfl, rfl⟩

/-- C26 (code at the failing input). With the two complete timeslices 0 and 1 of
durations 1 and 3, `get_variance_ts_duration(1)` returns 0: the loop adds the
deviations `1 - 2` and `3 - 2` themselves, not their squares, in `uint64_t`. The mean
of the squared deviations is 1. For timeslice 5, which is not in the history, the
function returns `MINUS_ONE`. -/
theorem variance_not_squared :
    scenario_two_durations.ts_duration_.map_ = [(0, 1), (1, 3)] ∧
    (scenario_two_durations.get_variance_ts_duration 10 1).toOption.map Prod.fst = some 0 ∧
    spec_variance [1, 3] = 1 ∧
    (scenario_two_durations.get_variance_ts_duration 10 5).toOption.map Prod.fst =
      some MINUS_ONE := by
  refine ⟨by decide, by decide, by decide, by decide⟩


theorem Double.round_exact (m e : Int) (h : m.natAbs < 2 ^ 53) :
    Double.round m e = { mantissa := m, exponent := e } := by
  unfold Double.round
  rw [if_pos h]


/-- C22 (code at the failing input). With the complete timeslices 0, 1 and 2 of
durations 100, 100 and 50 (one input, `INTERVAL_LENGTH = 1`), the interval 1 has the
actual duration 150 and the interval 0 the duration 200, so the previous interval of
`k = 2` is complete and not longer than the one before: `get_adjusted_theta(2)`
returns 0 and not -0.1, and `get_adjusted_ts_duration(2)` returns `min_ts_duration_`
= 50 unchanged. The previous interval of `k = 3` is incomplete (`MINUS_ONE`):
`get_adjusted_theta(3)` returns 0.1 and not 0. -/
theorem adjusted_theta_test_inverted :
    scenario_three_durations.ts_duration_.map_ = [(0, 100), (1, 100), (2, 50)] ∧
    scenario_three_durations.min_ts_duration_ = 50 ∧
    (scenario_three_durations.get_actual_interval_duration 1).toOption.map Prod.fst =
      some 150 ∧
    (scenario_three_durations.get_actual_interval_duration 0).toOption.map Prod.fst =
      some 200 ∧
    (scenario_three_durations.get_adjusted_theta 2).toOption.map Prod.fst =
      some Double.zero ∧
    (scenario_three_durations.get_adjusted_ts_duration 10 2).toOption.map Prod.fst =
      some 50 ∧
    (scenario_three_durations.get_actual_interval_duration 2).toOption.map Prod.fst =
      some MINUS_ONE ∧
    (scenario_three_durations.get_adjusted_theta 3).toOption.map Prod.fst =
      some Double.tenth := by
  refine ⟨by decide, by decide, by decide, by decide, by decide, by decide, by decide,
    by decide⟩


/-! ### The cursor chain along a run of the main loop -/

/-- The indices the loop of `on_completion` passes over hold entries greater than
`ts`. -/
theorem ack_walk_passed (ack : RingBuffer Nat) (ts : Nat) :
    ∀ fuel a k', ack_walk ack ts fuel a = some k' → a + fuel < UINT64_MOD →
      ∀ j, a < j → j < k' → ack.at_ j > ts := by
  intro fuel
  induction fuel with
  | zero => intro a k' h; simp [ack_walk] at h
  | succ fuel ih =>
    intro a k' h hlt j haj hjk
    have hnext : (a + 1) % UINT64_MOD = a + 1 := Nat.mod_eq_of_lt (by omega)
    simp only [ack_walk, hnext] at h
    split at h
    · rename_i hgt
      by_cases hj : j = a + 1
      · rw [hj]; exact hgt
      · exact ih (a + 1) k' h (by omega) j (by omega) hjk
    · simp at h
      omega

theorem RingBuffer.slot_assign {α : Type} (r : RingBuffer α) (n : Nat) (v : α) (x : Nat) :
    (r.assign n v).slot x = r.slot x := rfl

theorem RingBuffer.size_assign {α : Type} (r : RingBuffer α) (n : Nat) (v : α) :
    (r.assign n v).size = r.size := rfl

/-- What a returning write completion for a submitted timeslice does to the cursors,
in a state of the run that satisfies the invariant: the new acked timeslice `a` is not
before the old one and not after `timeslice`. -/
theorem write_completion_cursors (ids : RequestIdentifier) (ds : InputBufferReadInterface)
    (msg : ComputeNodeStatusMessage) (st : RunState) (s' : InputChannelSender) (wr_id : Nat)
    (hinv : CursorInv st)
    (h_kind : wr_id &&& 0xFF = ids.ID_WRITE_DESC)
    (h_submitted : wr_id >>> 24 < st.timeslice)
    (h : on_completion ids ds msg st.sender wr_id = .ok s') :
    ∃ a, a ≤ st.timeslice ∧ st.sender.acked_desc_ ≤ a * st.sender.timeslice_size_ ∧
      s'.acked_desc_ = a * st.sender.timeslice_size_ ∧
      s'.acked_data_ = (ds.desc_buffer.at_ (a * st.sender.timeslice_size_)).offset ∧
      ((s'.cached_acked_desc_ = s'.acked_desc_ ∧ s'.cached_acked_data_ = s'.acked_data_) ∨
        (s'.cached_acked_desc_ = st.sender.cached_acked_desc_ ∧
          s'.cached_acked_data_ = st.sender.cached_acked_data_)) ∧
      s'.ack_.size = st.sender.ack_.size ∧
      (∀ j, s'.ack_.buf j ≠ 0 →
        s'.ack_.buf j < st.timeslice ∧ s'.ack_.slot (s'.ack_.buf j) = j) ∧
      s'.timeslice_size_ = st.sender.timeslice_size_ ∧
      s'.overlap_size_ = st.sender.overlap_size_ ∧
      s'.max_timeslice_number_ = st.sender.max_timeslice_number_ ∧
      s'.sent_desc_ = st.sender.sent_desc_ ∧
      s'.sent_data_ = st.sender.sent_data_ ∧
      s'.write_index_desc_ = st.sender.write_index_desc_ := by
  obtain ⟨c, a, ack', hc, htsz, hw⟩ := on_completion_write_desc_inv ids ds msg h_kind h
  obtain ⟨s'', hs'', hack, hdesc, hdata, -, f1, f2, f3, -, -, f4, f5, f6, -, -⟩ :=
    on_completion_write_desc ids ds msg h_kind hc htsz hw
  have hss : s' = s'' := by
    rw [h] at hs''
    injection hs''
  subst hss
  have hpub := on_completion_publish ids ds msg h_kind h
  obtain ⟨k, hkT, hk⟩ := hinv.acked
  have htsz_pos := hinv.tsz_pos
  have hle_max := hinv.le_max
  have h64 := hinv.h64
  have hrange := hinv.ack_range
  have hdiv : st.sender.acked_desc_ / st.sender.timeslice_size_ = k := by
    rw [hk]
    exact Nat.mul_div_cancel k (by omega)
  rw [hdiv] at hw
  have hmulT : st.timeslice * st.sender.timeslice_size_ ≤
      st.sender.max_timeslice_number_ * st.sender.timeslice_size_ :=
    Nat.mul_le_mul_right _ hle_max
  -- the new acked timeslice and the new ack ring
  have hcore : k ≤ a ∧ a ≤ st.timeslice ∧ ack'.size = st.sender.ack_.size ∧
      (∀ j, ack'.buf j ≠ 0 → ack'.buf j < st.timeslice ∧ ack'.slot (ack'.buf j) = j) := by
    by_cases hts : wr_id >>> 24 = k
    · rw [if_pos hts] at hw
      cases hwalk : ack_walk st.sender.ack_ (wr_id >>> 24) st.sender.ack_.size k with
      | none =>
        rw [hwalk] at hw
        simp at hw
      | some a0 =>
        rw [hwalk] at hw
        simp only [Option.map_some', Option.some.injEq, Prod.mk.injEq] at hw
        obtain ⟨ha, hack'⟩ := hw
        subst ha
        subst hack'
        have hb := ack_walk_bound st.sender.ack_ _ st.sender.ack_.size k a0 hwalk (by omega)
        have hp := ack_walk_passed st.sender.ack_ _ st.sender.ack_.size k a0 hwalk (by omega)
        refine ⟨by omega, ?_, rfl, hinv.slots⟩
        by_contra hgt
        have hgtT := hp st.timeslice (by omega) (by omega)
        unfold RingBuffer.at_ at hgtT
        have hne : st.sender.ack_.buf (st.sender.ack_.slot st.timeslice) ≠ 0 := by omega
        obtain ⟨hv, hslot⟩ := hinv.slots _ hne
        rw [RingBuffer.slot_eq_mod, RingBuffer.slot_eq_mod] at hslot
        have hfar : ¬ st.timeslice <
            st.sender.ack_.buf (st.timeslice % st.sender.ack_.size) + st.sender.ack_.size := by
          intro hlt
          rw [RingBuffer.slot_eq_mod] at hv
          have := eq_of_mod_eq_of_close hslot (le_of_lt hv) hlt
          omega
        rw [RingBuffer.slot_eq_mod] at hgtT
        omega
    · rw [if_neg hts] at hw
      simp only [Option.some.injEq, Prod.mk.injEq] at hw
      obtain ⟨ha, hack'⟩ := hw
      subst ha
      subst hack'
      refine ⟨le_refl _, hkT, rfl, ?_⟩
      intro j hj
      unfold RingBuffer.assign at hj ⊢
      simp only at hj ⊢
      by_cases hjs : j = st.sender.ack_.slot (wr_id >>> 24)
      · rw [if_pos hjs]
        exact ⟨h_submitted, hjs.symm⟩
      · rw [if_neg hjs] at hj ⊢
        exact hinv.slots j hj
  obtain ⟨hka, haT, hsize, hslots⟩ := hcore
  have hmula : a * st.sender.timeslice_size_ ≤
      st.timeslice * st.sender.timeslice_size_ := Nat.mul_le_mul_right _ haT
  have hmulk : k * st.sender.timeslice_size_ ≤ a * st.sender.timeslice_size_ :=
    Nat.mul_le_mul_right _ hka
  have hmod : (a * st.sender.timeslice_size_) % UINT64_MOD = a * st.sender.timeslice_size_ :=
    Nat.mod_eq_of_lt (by omega)
  rw [hmod] at hdesc hdata
  refine ⟨a, haT, by omega, hdesc, hdata, ?_, by rw [hack]; exact hsize,
    by rw [hack]; exact hslots, f1, f2, f3, f4, f5, f6⟩
  by_cases hcond :
      s'.acked_data_ ≥ (st.sender.cached_acked_data_ + st.sender.min_acked_data_) % UINT64_MOD ∨
      s'.acked_desc_ ≥ (st.sender.cached_acked_desc_ + st.sender.min_acked_desc_) % UINT64_MOD
  · exact Or.inl (hpub.1 hcond).2
  · exact Or.inr (hpub.2 hcond).2

/-- The invariant of the descriptor cursors depends on the fields it mentions only. -/
theorem cursor_inv_of_eq {st st' : RunState} (hinv : CursorInv st)
    (h1 : st'.timeslice = st.timeslice)
    (e1 : st'.sender.timeslice_size_ = st.sender.timeslice_size_)
    (e2 : st'.sender.overlap_size_ = st.sender.overlap_size_)
    (e3 : st'.sender.max_timeslice_number_ = st.sender.max_timeslice_number_)
    (e4 : st'.sender.ack_ = st.sender.ack_)
    (e5 : st'.sender.acked_desc_ = st.sender.acked_desc_)
    (e6 : st'.sender.sent_desc_ = st.sender.sent_desc_)
    (e7 : st.sender.write_index_desc_ ≤ st'.sender.write_index_desc_)
    (e8 : st'.sender.write_index_desc_ ≤ st'.written)
    (e9 : st'.sender.cached_acked_desc_ = st.sender.cached_acked_desc_) :
    CursorInv st' := by
  have hseen := hinv.seen
  have havail := hinv.avail
  refine ⟨?_, ?_, ?_, ?_, ?_, ?_, ?_, ?_, ?_, ?_, ?_⟩
  · rw [e1]; exact hinv.tsz_pos
  · rw [e1, e2]; exact hinv.h32
  · rw [e1, e2, e3]; exact hinv.h64
  · rw [e3, e4]; exact hinv.ack_range
  · rw [h1, e3]; exact hinv.le_max
  · rw [h1, e1, e5]; exact hinv.acked
  · rw [h1, e1, e2, e6]; exact hinv.sent
  · rw [e6]; omega
  · exact e8
  · rw [e9, e5]; exact hinv.cached
  · rw [h1, e4]; exact hinv.slots

/-- A call of `try_send_timeslice` by the main loop keeps the invariant of the
descriptor cursors. -/
theorem cursor_inv_send (ids : RequestIdentifier) (sizeof_MD : Nat)
    (ds : InputBufferReadInterface) (st st' : RunState) (b : Bool)
    (hinv : CursorInv st)
    (h_loop : st.timeslice < st.sender.max_timeslice_number_)
    (h_producer : st.written ≤ ds.write_index.desc)
    (h : try_send_timeslice ids sizeof_MD ds st.sender st.timeslice = .ok (b, st'.sender))
    (h_timeslice :
      st'.timeslice = if b then (st.timeslice + 1) % UINT64_MOD else st.timeslice)
    (h_written : st'.written = ds.write_index.desc) :
    CursorInv st' := by
  have hmul : (st.timeslice + 1) * st.sender.timeslice_size_ ≤
      st.sender.max_timeslice_number_ * st.sender.timeslice_size_ :=
    Nat.mul_le_mul_right _ (by omega)
  rw [Nat.add_mul, Nat.one_mul] at hmul
  have h64 := hinv.h64
  have htsz := hinv.tsz_pos
  have hmax : st.sender.max_timeslice_number_ ≤
      st.sender.max_timeslice_number_ * st.sender.timeslice_size_ :=
    Nat.le_mul_of_pos_right _ (by omega)
  have hseen := hinv.seen
  have havail := hinv.avail
  have hend := ts_desc_end_eq st.sender st.timeslice hinv.h32 (by omega)
  have href : st.sender.write_index_desc_ ≤
        refreshed_write_index ds st.sender st.timeslice ∧
      refreshed_write_index ds st.sender st.timeslice ≤ ds.write_index.desc := by
    unfold refreshed_write_index
    split <;> omega
  rcases try_send_timeslice_inv ids sizeof_MD ds st.sender st'.sender st.timeslice b h with
    ⟨hb, hs'⟩ | ⟨hb, c, hc, -, -, hs'⟩
  · subst hb
    simp only [Bool.false_eq_true, if_false] at h_timeslice
    exact cursor_inv_of_eq hinv h_timeslice (by rw [hs']) (by rw [hs']) (by rw [hs'])
      (by rw [hs']) (by rw [hs']) (by rw [hs']) (by rw [hs']; exact href.1)
      (by rw [hs', h_written]; exact href.2) (by rw [hs'])
  · subst hb
    have hT1 : (st.timeslice + 1) % UINT64_MOD = st.timeslice + 1 :=
      Nat.mod_eq_of_lt (by omega)
    simp only [if_true, hT1] at h_timeslice
    obtain ⟨h_avail, -⟩ :=
      try_send_timeslice_true_inv ids sizeof_MD ds st.sender st'.sender st.timeslice c hc h
    obtain ⟨k, hkT, hk⟩ := hinv.acked
    refine ⟨?_, ?_, ?_, ?_, ?_, ?_, ?_, ?_, ?_, ?_, ?_⟩
    · rw [hs']; exact hinv.tsz_pos
    · rw [hs']; exact hinv.h32
    · rw [hs']; exact hinv.h64
    · rw [hs']; exact hinv.ack_range
    · rw [h_timeslice, hs']; exact h_loop
    · rw [h_timeslice, hs']; exact ⟨k, by omega, hk⟩
    · right
      rw [h_timeslice, hs']
      refine ⟨by omega, ?_⟩
      show ts_desc_end st.sender st.timeslice = _
      rw [hend.2.2, Nat.add_mul, Nat.one_mul]
    · rw [hs']; exact h_avail
    · rw [hs', h_written]; exact href.2
    · rw [hs']; exact hinv.cached
    · intro j hj
      rw [hs'] at hj ⊢
      rw [h_timeslice]
      obtain ⟨hlt, hslot⟩ := hinv.slots j hj
      exact ⟨Nat.lt_succ_of_lt hlt, hslot⟩

/-- A write completion for a submitted timeslice keeps the invariant of the descriptor
cursors. -/
theorem cursor_inv_write_completion (ids : RequestIdentifier)
    (ds : InputBufferReadInterface) (msg : ComputeNodeStatusMessage) (st st' : RunState)
    (wr_id : Nat) (hinv : CursorInv st)
    (h_kind : wr_id &&& 0xFF = ids.ID_WRITE_DESC)
    (h_submitted : wr_id >>> 24 < st.timeslice)
    (h_producer : st.written ≤ ds.write_index.desc)
    (h : on_completion ids ds msg st.sender wr_id = .ok st'.sender)
    (h_timeslice : st'.timeslice = st.timeslice)
    (h_written : st'.written = ds.write_index.desc) :
    CursorInv st' := by
  obtain ⟨a, haT, hka, hdesc, -, hcached, hsize, hslots, f1, f2, f3, f4, -, f6⟩ :=
    write_completion_cursors ids ds msg st st'.sender wr_id hinv h_kind h_submitted h
  have hseen := hinv.seen
  have hc := hinv.cached
  refine ⟨?_, ?_, ?_, ?_, ?_, ?_, ?_, ?_, ?_, ?_, ?_⟩
  · rw [f1]; exact hinv.tsz_pos
  · rw [f1, f2]; exact hinv.h32
  · rw [f1, f2, f3]; exact hinv.h64
  · rw [f3, hsize]; exact hinv.ack_range
  · rw [h_timeslice, f3]; exact hinv.le_max
  · rw [h_timeslice, f1]; exact ⟨a, haT, hdesc⟩
  · rw [h_timeslice, f1, f2, f4]; exact hinv.sent
  · rw [f4, f6]; exact hinv.avail
  · rw [f6, h_written]; omega
  · rcases hcached with ⟨h1, -⟩ | ⟨h1, -⟩
    · rw [h1]
    · rw [h1, hdesc]; omega
  · rw [h_timeslice]; exact hslots

/-- Any other completion keeps the invariant of the descriptor cursors. -/
theorem cursor_inv_other_completion (ids : RequestIdentifier)
    (ds : InputBufferReadInterface) (msg : ComputeNodeStatusMessage) (st st' : RunState)
    (wr_id : Nat) (hinv : CursorInv st)
    (h_kind : wr_id &&& 0xFF ≠ ids.ID_WRITE_DESC)
    (h : on_completion ids ds msg st.sender wr_id = .ok st'.sender)
    (h_timeslice : st'.timeslice = st.timeslice)
    (h_written : st'.written = st.written) :
    CursorInv st' := by
  obtain ⟨e4, e5, -, e9, -, -, e1, e2, e3, -, -, e6, -, e7, -, -⟩ :=
    on_completion_other ids ds msg h_kind h
  have hseen := hinv.seen
  exact cursor_inv_of_eq hinv h_timeslice e1 e2 e3 e4 e5 e6 (by omega)
    (by rw [e7, h_written]; exact hseen) e9

/-- Every step of a run keeps the invariant of the descriptor cursors. -/
theorem run_step_cursor_inv (ids : RequestIdentifier) (sizeof_MD : Nat)
    (stream : Nat → MicrosliceDescriptor) (st st' : RunState)
    (hstep : RunStep ids sizeof_MD stream st st') (hinv : CursorInv st) : CursorInv st' := by
  rcases hstep with ⟨ds, _, _, b, h_loop, h_producer, -, h, h_timeslice, h_written⟩ |
    ⟨ds, msg, _, _, wr_id, h_kind, h_submitted, h_producer, -, h, h_timeslice, h_written⟩ |
    ⟨ds, msg, _, _, wr_id, h_kind, h, h_timeslice, h_written⟩
  · exact cursor_inv_send ids sizeof_MD ds st st' b hinv h_loop h_producer h h_timeslice
      h_written
  · exact cursor_inv_write_completion ids ds msg st st' wr_id hinv h_kind h_submitted
      h_producer h h_timeslice h_written
  · exact cursor_inv_other_completion ids ds msg st st' wr_id hinv h_kind h h_timeslice
      h_written

/-- The state in which the main loop starts satisfies the invariant of the descriptor
cursors. -/
theorem init_cursor_inv (data_source : InputBufferReadInterface)
    (timeslice_size overlap_size max_timeslice_number ack_size_exponent : Nat)
    (conn : List InputChannelConnection)
    (h_tsz : 1 ≤ timeslice_size) (h32 : timeslice_size + overlap_size < 2 ^ 32)
    (h64 : max_timeslice_number * timeslice_size + overlap_size < UINT64_MOD)
    (h_ack : max_timeslice_number + 2 ^ ack_size_exponent < UINT64_MOD) :
    CursorInv (RunState.init data_source timeslice_size overlap_size max_timeslice_number
      ack_size_exponent conn) := by
  refine ⟨h_tsz, h32, h64, h_ack, Nat.zero_le _, ⟨0, le_refl _, (Nat.zero_mul _).symm⟩,
    Or.inl ⟨rfl, rfl⟩, le_refl _, le_refl _, le_refl _, ?_⟩
  intro j hj
  exact absurd rfl hj


theorem stream_offsets_mono (stream : Nat → MicrosliceDescriptor)
    (h_mono : ∀ i, (stream i).offset ≤ (stream (i + 1)).offset) (i j : Nat) (hij : i ≤ j) :
    (stream i).offset ≤ (stream j).offset := by
  induction j with
  | zero =>
    have h0 : i = 0 := by omega
    rw [h0]
  | succ j ih =>
    by_cases hj : i = j + 1
    · rw [hj]
    · exact le_trans (ih (by omega)) (h_mono j)

/-- The invariant of the data cursors depends on the fields it mentions only. -/
theorem data_inv_of_eq {stream : Nat → MicrosliceDescriptor} {st st' : RunState}
    (hinv : DataInv stream st)
    (h1 : st'.timeslice = st.timeslice)
    (e1 : st'.sender.timeslice_size_ = st.sender.timeslice_size_)
    (e2 : st'.sender.overlap_size_ = st.sender.overlap_size_)
    (e3 : st'.sender.acked_desc_ = st.sender.acked_desc_)
    (e4 : st'.sender.acked_data_ = st.sender.acked_data_)
    (e5 : st'.sender.sent_data_ = st.sender.sent_data_)
    (e6 : st'.sender.cached_acked_data_ = st.sender.cached_acked_data_)
    (e7 : st'.sender.max_timeslice_number_ = st.sender.max_timeslice_number_) :
    DataInv stream st' := by
  refine ⟨?_, ?_, ?_, ?_, ?_, ?_⟩
  · rw [e2]; exact hinv.ovl_pos
  · rw [e7, e1, e2]; exact hinv.range
  · rw [e6, e4]; exact hinv.cached
  · rw [e4, e5]; exact hinv.acked
  · rw [e4, e3]; exact hinv.acked_le
  · rw [h1, e1, e2, e5]; exact hinv.sent_eq

/-- A call of `try_send_timeslice` by the main loop keeps the invariant of the data
cursors, on a stream with non-decreasing offsets. -/
theorem data_inv_send (ids : RequestIdentifier) (sizeof_MD : Nat)
    (stream : Nat → MicrosliceDescriptor)
    (ds : InputBufferReadInterface) (st st' : RunState) (b : Bool)
    (h_mono : ∀ i, (stream i).offset ≤ (stream (i + 1)).offset)
    (hinv : CursorInv st) (hdata : DataInv stream st)
    (h_loop : st.timeslice < st.sender.max_timeslice_number_)
    (h_producer : st.written ≤ ds.write_index.desc)
    (h_ring : shows_stream stream ds st.sender)
    (h : try_send_timeslice ids sizeof_MD ds st.sender st.timeslice = .ok (b, st'.sender))
    (h_timeslice :
      st'.timeslice = if b then (st.timeslice + 1) % UINT64_MOD else st.timeslice) :
    DataInv stream st' := by
  have hmul : (st.timeslice + 1) * st.sender.timeslice_size_ ≤
      st.sender.max_timeslice_number_ * st.sender.timeslice_size_ :=
    Nat.mul_le_mul_right _ (by omega)
  rw [Nat.add_mul, Nat.one_mul] at hmul
  have h64 := hinv.h64
  have htsz := hinv.tsz_pos
  have hmax : st.sender.max_timeslice_number_ ≤
      st.sender.max_timeslice_number_ * st.sender.timeslice_size_ :=
    Nat.le_mul_of_pos_right _ (by omega)
  have hseen := hinv.seen
  have hcached := hinv.cached
  have hend := ts_desc_end_eq st.sender st.timeslice hinv.h32 (by omega)
  have href : refreshed_write_index ds st.sender st.timeslice ≤ ds.write_index.desc := by
    unfold refreshed_write_index
    split <;> omega
  rcases try_send_timeslice_inv ids sizeof_MD ds st.sender st'.sender st.timeslice b h with
    ⟨hb, hs'⟩ | ⟨hb, c, hc, -, -, hs'⟩
  · subst hb
    simp only [Bool.false_eq_true, if_false] at h_timeslice
    exact data_inv_of_eq hdata h_timeslice (by rw [hs']) (by rw [hs']) (by rw [hs']) (by rw [hs'])
      (by rw [hs']) (by rw [hs']) (by rw [hs'])
  · subst hb
    have hT1 : (st.timeslice + 1) % UINT64_MOD = st.timeslice + 1 :=
      Nat.mod_eq_of_lt (by omega)
    simp only [if_true, hT1] at h_timeslice
    obtain ⟨h_avail, -⟩ :=
      try_send_timeslice_true_inv ids sizeof_MD ds st.sender st'.sender st.timeslice c hc h
    obtain ⟨k, hkT, hk⟩ := hinv.acked
    have hmulk : k * st.sender.timeslice_size_ ≤
        st.timeslice * st.sender.timeslice_size_ := Nat.mul_le_mul_right _ hkT
    -- the last descriptor of the timeslice
    have hlast : u64_sub (ts_desc_end st.sender st.timeslice) 1 =
        st.timeslice * st.sender.timeslice_size_ + st.sender.timeslice_size_ +
          st.sender.overlap_size_ - 1 := by
      rw [hend.2.2]
      exact u64_sub_eq _ _ (by omega) (by omega)
    have hshow : ds.desc_buffer.at_ (u64_sub (ts_desc_end st.sender st.timeslice) 1) =
        stream (st.timeslice * st.sender.timeslice_size_ + st.sender.timeslice_size_ +
          st.sender.overlap_size_ - 1) := by
      rw [hlast]
      exact h_ring _ (by omega) (by omega)
    have hsent : ts_data_end ds st.sender st.timeslice =
        (stream (st.timeslice * st.sender.timeslice_size_ + st.sender.timeslice_size_ +
          st.sender.overlap_size_ - 1)).offset +
        (stream (st.timeslice * st.sender.timeslice_size_ + st.sender.timeslice_size_ +
          st.sender.overlap_size_ - 1)).size := by
      unfold ts_data_end u64_add
      rw [hshow]
      exact Nat.mod_eq_of_lt (hdata.range _ (by omega))
    have hle := stream_offsets_mono stream h_mono st.sender.acked_desc_
      (st.timeslice * st.sender.timeslice_size_ + st.sender.timeslice_size_ +
        st.sender.overlap_size_ - 1) (by omega)
    have hal := hdata.acked_le
    refine ⟨?_, ?_, ?_, ?_, ?_, ?_⟩
    · rw [hs']; exact hdata.ovl_pos
    · rw [hs']; exact hdata.range
    · rw [hs']; exact hdata.cached
    · rw [hs']
      show st.sender.acked_data_ ≤ ts_data_end ds st.sender st.timeslice
      rw [hsent]
      omega
    · rw [hs']; exact hdata.acked_le
    · intro _
      rw [h_timeslice, hs']
      show ts_data_end ds st.sender st.timeslice = _
      rw [hsent, Nat.add_mul, Nat.one_mul]


/-- A write completion for a submitted timeslice keeps the invariant of the data
cursors, when the overlap is at least one microslice. -/
theorem data_inv_write_completion (ids : RequestIdentifier)
    (stream : Nat → MicrosliceDescriptor)
    (ds : InputBufferReadInterface) (msg : ComputeNodeStatusMessage) (st st' : RunState)
    (wr_id : Nat)
    (h_mono : ∀ i, (stream i).offset ≤ (stream (i + 1)).offset)
    (hinv : CursorInv st) (hdata : DataInv stream st)
    (h_kind : wr_id &&& 0xFF = ids.ID_WRITE_DESC)
    (h_submitted : wr_id >>> 24 < st.timeslice)
    (h_producer : st.written ≤ ds.write_index.desc)
    (h_ring : shows_stream stream ds st.sender)
    (h : on_completion ids ds msg st.sender wr_id = .ok st'.sender)
    (h_timeslice : st'.timeslice = st.timeslice) :
    DataInv stream st' := by
  obtain ⟨a, haT, hka, hdesc, hdat, hcached, -, -, f1, f2, f3, -, f5, -⟩ :=
    write_completion_cursors ids ds msg st st'.sender wr_id hinv h_kind h_submitted h
  have h_ovl := hdata.ovl_pos
  have hmula : a * st.sender.timeslice_size_ ≤
      st.timeslice * st.sender.timeslice_size_ := Nat.mul_le_mul_right _ haT
  have hseen := hinv.seen
  have havail := hinv.avail
  have hc := hinv.cached
  have hsent : st.sender.sent_desc_ =
      st.timeslice * st.sender.timeslice_size_ + st.sender.overlap_size_ := by
    rcases hinv.sent with ⟨h0, -⟩ | ⟨-, h1⟩
    · omega
    · exact h1
  have hshow : ds.desc_buffer.at_ (a * st.sender.timeslice_size_) =
      stream (a * st.sender.timeslice_size_) := h_ring _ (by omega) (by omega)
  rw [hshow] at hdat
  have hold := stream_offsets_mono stream h_mono st.sender.acked_desc_
    (a * st.sender.timeslice_size_) hka
  have hnew := stream_offsets_mono stream h_mono (a * st.sender.timeslice_size_)
    (st.timeslice * st.sender.timeslice_size_ + st.sender.overlap_size_ - 1) (by omega)
  have hse := hdata.sent_eq (by omega)
  have h1 := hdata.cached
  have h2 := hdata.acked_le
  refine ⟨?_, ?_, ?_, ?_, ?_, ?_⟩
  · rw [f2]; exact h_ovl
  · rw [f3, f1, f2]; exact hdata.range
  · rcases hcached with ⟨-, e⟩ | ⟨-, e⟩
    · rw [e]
    · rw [e, hdat]; omega
  · rw [hdat, f5, hse]; omega
  · rw [hdat, hdesc]
  · intro hT
    rw [h_timeslice] at hT ⊢
    rw [f1, f2, f5]
    exact hdata.sent_eq hT

/-- Every step of a run keeps the invariants of the descriptor and data cursors, on
a stream with non-decreasing offsets. -/
theorem run_step_data_inv (ids : RequestIdentifier) (sizeof_MD : Nat)
    (stream : Nat → MicrosliceDescriptor) (st st' : RunState)
    (h_mono : ∀ i, (stream i).offset ≤ (stream (i + 1)).offset)
    (hstep : RunStep ids sizeof_MD stream st st')
    (hinv : CursorInv st ∧ DataInv stream st) :
    CursorInv st' ∧ DataInv stream st' := by
  obtain ⟨hc, hd⟩ := hinv
  have hc' := run_step_cursor_inv ids sizeof_MD stream st st' hstep hc
  refine ⟨hc', ?_⟩
  rcases hstep with ⟨ds, _, _, b, h_loop, h_producer, h_ring, h, h_timeslice, h_written⟩ |
    ⟨ds, msg, _, _, wr_id, h_kind, h_submitted, h_producer, h_ring, h, h_timeslice,
      h_written⟩ |
    ⟨ds, msg, _, _, wr_id, h_kind, h, h_timeslice, h_written⟩
  · exact data_inv_send ids sizeof_MD stream ds st st' b h_mono hc hd h_loop
      h_producer h_ring h h_timeslice
  · exact data_inv_write_completion ids stream ds msg st st' wr_id h_mono hc hd
      h_kind h_submitted h_producer h_ring h h_timeslice
  · obtain ⟨-, e5, e6, -, e9, -, e1, e2, e3, -, -, -, e7, -, -, -⟩ :=
      on_completion_other ids ds msg h_kind h
    exact data_inv_of_eq hd h_timeslice e1 e2 e5 e6 e7 e9 e3

/-- Every state of a run satisfies the invariant of the descriptor cursors if the
first one does. -/
theorem run_reach_cursor_inv (ids : RequestIdentifier) (sizeof_MD : Nat)
    (stream : Nat → MicrosliceDescriptor) (st0 st : RunState)
    (h_reach : Relation.ReflTransGen (RunStep ids sizeof_MD stream) st0 st)
    (hinv : CursorInv st0) : CursorInv st := by
  induction h_reach with
  | refl => exact hinv
  | tail _ hstep ih => exact run_step_cursor_inv ids sizeof_MD stream _ _ hstep ih

/-- Every state of a run satisfies the invariants of the descriptor and data cursors
if the first one does. -/
theorem run_reach_data_inv (ids : RequestIdentifier) (sizeof_MD : Nat)
    (stream : Nat → MicrosliceDescriptor) (st0 st : RunState)
    (h_mono : ∀ i, (stream i).offset ≤ (stream (i + 1)).offset)
    (h_reach : Relation.ReflTransGen (RunStep ids sizeof_MD stream) st0 st)
    (hinv : CursorInv st0 ∧ DataInv stream st0) :
    CursorInv st ∧ DataInv stream st := by
  induction h_reach with
  | refl => exact hinv
  | tail _ hstep ih => exact run_step_data_inv ids sizeof_MD stream _ _ h_mono hstep ih

/-- The state in which the main loop starts satisfies the invariant of the data
cursors. -/
theorem init_data_inv (stream : Nat → MicrosliceDescriptor)
    (data_source : InputBufferReadInterface)
    (timeslice_size overlap_size max_timeslice_number ack_size_exponent : Nat)
    (conn : List InputChannelConnection)
    (h_ovl : 1 ≤ overlap_size)
    (h_range : ∀ i, i < max_timeslice_number * timeslice_size + overlap_size →
      (stream i).offset + (stream i).size < UINT64_MOD) :
    DataInv stream (RunState.init data_source timeslice_size overlap_size
      max_timeslice_number ack_size_exponent conn) := by
  refine ⟨h_ovl, h_range, le_refl _, le_refl _, Nat.zero_le _, ?_⟩
  intro h
  exact absurd (show 1 ≤ 0 from h) (by decide)

/-- The cursor chain with an overlap. Along a run of the main loop (calls
`try_send_timeslice(timeslice)` in the order of the loop, write completions only for
timeslices that have been submitted, any other completions; the producer's write index
never goes back), with `timeslice_size >= 1` and the indices inside their 32-bit and
64-bit ranges: `cached_acked_desc_ <= acked_desc_ <= sent_desc_ <= producer write
index` in every state. If moreover `overlap_size >= 1`, the descriptor offsets of the
stream are non-decreasing and the microslices that can be sent end inside the 64-bit
range, then `cached_acked_data_ <= acked_data_ <= sent_data_` in every state. -/
theorem cursor_chain (ids : RequestIdentifier) (sizeof_MD : Nat)
    (stream : Nat → MicrosliceDescriptor) (data_source : InputBufferReadInterface)
    (timeslice_size overlap_size max_timeslice_number ack_size_exponent : Nat)
    (conn : List InputChannelConnection) (st : RunState)
    (h_tsz : 1 ≤ timeslice_size) (h32 : timeslice_size + overlap_size < 2 ^ 32)
    (h64 : max_timeslice_number * timeslice_size + overlap_size < UINT64_MOD)
    (h_ack : max_timeslice_number + 2 ^ ack_size_exponent < UINT64_MOD)
    (h_reach : Relation.ReflTransGen (RunStep ids sizeof_MD stream)
      (RunState.init data_source timeslice_size overlap_size max_timeslice_number
        ack_size_exponent conn) st) :
    (st.sender.cached_acked_desc_ ≤ st.sender.acked_desc_ ∧
      st.sender.acked_desc_ ≤ st.sender.sent_desc_ ∧
      st.sender.sent_desc_ ≤ st.written) ∧
    (1 ≤ overlap_size →
      (∀ i, (stream i).offset ≤ (stream (i + 1)).offset) →
      (∀ i, i < max_timeslice_number * timeslice_size + overlap_size →
        (stream i).offset + (stream i).size < UINT64_MOD) →
      st.sender.cached_acked_data_ ≤ st.sender.acked_data_ ∧
      st.sender.acked_data_ ≤ st.sender.sent_data_) := by
  have h0 := init_cursor_inv data_source timeslice_size overlap_size max_timeslice_number
    ack_size_exponent conn h_tsz h32 h64 h_ack
  have hc := run_reach_cursor_inv ids sizeof_MD stream _ st h_reach h0
  refine ⟨⟨hc.cached, ?_, le_trans hc.avail hc.seen⟩, ?_⟩
  · obtain ⟨k, hkT, hk⟩ := hc.acked
    have hmul : k * st.sender.timeslice_size_ ≤
        st.timeslice * st.sender.timeslice_size_ := Nat.mul_le_mul_right _ hkT
    rcases hc.sent with ⟨hT, -⟩ | ⟨-, hs⟩
    · have hk0 : k = 0 := by omega
      rw [hk, hk0, Nat.zero_mul]
      exact Nat.zero_le _
    · rw [hk, hs]
      omega
  · intro h_ovl h_mono h_range
    have hd := (run_reach_data_inv ids sizeof_MD stream _ st h_mono h_reach
      ⟨h0, init_data_inv stream data_source timeslice_size overlap_size
        max_timeslice_number ack_size_exponent conn h_ovl h_range⟩).2
    exact ⟨hd.cached, hd.acked⟩


theorem gap_source_shows (s : InputChannelSender) : shows_stream gap_stream gap_source s := by
  intro i _ hi
  have h3 : i < 3 := hi
  interval_cases i <;> decide

theorem gap_stream_mono (i : Nat) : (gap_stream i).offset ≤ (gap_stream (i + 1)).offset := by
  show 50 * i ≤ 50 * (i + 1)
  omega

/-- The run on `gap_source` with the overlap `overlap_size` (0 or 1): the main loop
sends timeslice 0, then the write completes. -/
theorem gap_run (overlap_size : Nat) (h : overlap_size = 0 ∨ overlap_size = 1) :
    Relation.ReflTransGen (RunStep scenario_ids 32 gap_stream) (gap_init overlap_size)
      (gap_after_completion overlap_size) := by
  rcases h with h | h <;> subst h
  · exact Relation.ReflTransGen.tail
      (Relation.ReflTransGen.single
        (RunStep.send gap_source (gap_init 0) (gap_after_send 0) true (by decide) (by decide)
          (gap_source_shows _) rfl rfl rfl))
      (RunStep.write_completion gap_source scenario_status (gap_after_send 0)
        (gap_after_completion 0) (write_desc_wr_id scenario_ids 0 0) (by decide) (by decide)
        (by decide) (gap_source_shows _) rfl rfl rfl)
  · exact Relation.ReflTransGen.tail
      (Relation.ReflTransGen.single
        (RunStep.send gap_source (gap_init 1) (gap_after_send 1) true (by decide) (by decide)
          (gap_source_shows _) rfl rfl rfl))
      (RunStep.write_completion gap_source scenario_status (gap_after_send 1)
        (gap_after_completion 1) (write_desc_wr_id scenario_ids 0 0) (by decide) (by decide)
        (by decide) (gap_source_shows _) rfl rfl rfl)

/-- C12 (code at the failing input). With `timeslice_size = 1`, `overlap_size = 0`
and a stream whose microslice `i` has 10 bytes at offset `50 * i` (non-decreasing
offsets), the main loop sends timeslice 0 and its write completes (once, after it was
submitted): then `sent_data_` is 10, the end of microslice 0, and `acked_data_` is 50,
the offset of microslice 1, so `acked_data_ <= sent_data_` does not hold, while the
descriptor cursors are 1, 1, 1 and the write index is 3. For the data status that
`report_status` builds in this state, `sending()` fails its
`assert(acked <= sent)`. -/
theorem data_chain_counterexample :
    (∀ i, (gap_stream i).offset ≤ (gap_stream (i + 1)).offset) ∧
    Relation.ReflTransGen (RunStep scenario_ids 32 gap_stream) (gap_init 0)
      (gap_after_completion 0) ∧
    (gap_init 0).sender.overlap_size_ = 0 ∧
    (gap_after_completion 0).sender.acked_desc_ = 1 ∧
    (gap_after_completion 0).sender.sent_desc_ = 1 ∧
    (gap_after_completion 0).written = 3 ∧
    (gap_after_completion 0).sender.sent_data_ = 10 ∧
    (gap_after_completion 0).sender.acked_data_ = 50 ∧
    ¬ ((gap_after_completion 0).sender.acked_data_ ≤
      (gap_after_completion 0).sender.sent_data_) ∧
    (report_status gap_source (gap_after_completion 0).sender 0).2.sending =
      .error .assertion_failed :=
  ⟨gap_stream_mono, gap_run 0 (Or.inl rfl), by decide, by decide, by decide, by decide,
    by decide, by decide, by decide, rfl⟩

/-- An instance of the cursor chain: the same run with `overlap_size = 1`. -/
theorem cursor_chain_witness :
    Relation.ReflTransGen (RunStep scenario_ids 32 gap_stream) (gap_init 1)
      (gap_after_completion 1) ∧
    ((gap_after_completion 1).sender.cached_acked_desc_ ≤
        (gap_after_completion 1).sender.acked_desc_ ∧
      (gap_after_completion 1).sender.acked_desc_ ≤
        (gap_after_completion 1).sender.sent_desc_ ∧
      (gap_after_completion 1).sender.sent_desc_ ≤ (gap_after_completion 1).written) ∧
    ((gap_after_completion 1).sender.cached_acked_data_ ≤
        (gap_after_completion 1).sender.acked_data_ ∧
      (gap_after_completion 1).sender.acked_data_ ≤
        (gap_after_completion 1).sender.sent_data_) ∧
    (gap_after_completion 1).sender.acked_data_ = 50 ∧
    (gap_after_completion 1).sender.sent_data_ = 60 :=
  have h := cursor_chain scenario_ids 32 gap_stream gap_source 1 1 10 2
    [scenario_connection 0 0] (gap_after_completion 1) (by decide) (by decide) (by decide)
    (by decide) (gap_run 1 (Or.inr rfl))
  ⟨gap_run 1 (Or.inr rfl), h.1,
    h.2 (by decide) gap_stream_mono
      (fun i hi => by
        have h11 : i < 11 := hi
        show 50 * i + 10 < 2 ^ 64
        omega),
    by decide, by decide⟩


/-! ### The acknowledgement threshold of an interval -/

/-- Rounding a natural number of at least 54 bits: the mantissa is the quotient by
`2 ^ k` or its successor, where `k` is the number of bits dropped. -/
theorem Double.round_nat (V : Nat) (e : Int) (hV : 2 ^ 53 ≤ V) :
    ∃ q1 : Nat, Double.round (V : Int) e =
        { mantissa := (q1 : Int), exponent := e + ((Nat.log2 V - 52 : Nat) : Int) } ∧
      q1 = (if 2 ^ (Nat.log2 V - 52 - 1) < V % 2 ^ (Nat.log2 V - 52) ∨
          (V % 2 ^ (Nat.log2 V - 52) = 2 ^ (Nat.log2 V - 52 - 1) ∧
            V / 2 ^ (Nat.log2 V - 52) % 2 = 1)
        then V / 2 ^ (Nat.log2 V - 52) + 1 else V / 2 ^ (Nat.log2 V - 52)) := by
  refine ⟨_, ?_, rfl⟩
  unfold Double.round
  have hn : ¬ (V : Int).natAbs < 2 ^ 53 := by
    rw [Int.natAbs_ofNat]; omega
  rw [if_neg hn]
  simp only [Int.natAbs_ofNat]
  have hs : (V : Int).sign = 1 := Int.sign_eq_one_of_pos (by
    have : 0 < V := lt_of_lt_of_le (by norm_num) hV
    exact_mod_cast this)
  rw [hs, Int.one_mul]

/-- The comparison of `0.7`-like constants with a rounded quotient whose exponent is
at most -53. -/
theorem Double.le_shape_low (C q1 k : Nat) (hk : k ≤ 76) :
    Double.le { mantissa := (C : Int), exponent := -53 }
      { mantissa := (q1 : Int), exponent := -129 + (k : Int) } =
      decide (C * 2 ^ (76 - k) ≤ q1) := by
  unfold Double.le
  simp only
  have hmin : min (-53 : Int) (-129 + (k : Int)) = -129 + (k : Int) := min_eq_right (by omega)
  have e1 : ((-53 : Int) - (-129 + (k : Int))).toNat = 76 - k := by omega
  have e2 : ((-129 + (k : Int)) - (-129 + (k : Int))).toNat = 0 := by omega
  rw [hmin, e1, e2, pow_zero, Int.mul_one, decide_eq_decide]
  constructor
  · intro h
    exact_mod_cast h
  · intro h
    exact_mod_cast h

theorem Double.le_shape_high (C q1 k : Nat) (hk : 76 ≤ k) :
    Double.le { mantissa := (C : Int), exponent := -53 }
      { mantissa := (q1 : Int), exponent := -129 + (k : Int) } =
      decide (C ≤ q1 * 2 ^ (k - 76)) := by
  unfold Double.le
  simp only
  have hmin : min (-53 : Int) (-129 + (k : Int)) = -53 := min_eq_left (by omega)
  have e1 : ((-53 : Int) - (-53)).toNat = 0 := by omega
  have e2 : ((-129 + (k : Int)) - (-53)).toNat = k - 76 := by omega
  rw [hmin, e1, e2, pow_zero, Int.mul_one, decide_eq_decide]
  constructor
  · intro h
    exact_mod_cast h
  · intro h
    exact_mod_cast h

/-- The rounded value of `V * 2 ^ -129` is at least the `double` 0.7 exactly when `V`
is at least the midpoint between 0.7 and the `double` before it. -/
theorem Double.seven_tenths_le_round (V : Nat) :
    Double.le Double.seven_tenths (Double.round (V : Int) (-129)) =
      decide (12610078956637387 * 2 ^ 75 ≤ V) := by
  have hC : Double.seven_tenths =
      { mantissa := ((6305039478318694 : Nat) : Int), exponent := -53 } := rfl
  rw [hC]
  by_cases hV : V < 2 ^ 53
  · rw [Double.round_exact _ _ (by rw [Int.natAbs_ofNat]; exact hV)]
    have h0 := Double.le_shape_low 6305039478318694 V 0 (by omega)
    simp only [Nat.cast_zero, Int.add_zero] at h0
    rw [h0, decide_eq_decide]
    constructor <;> intro h <;> omega
  · have hV53 : 2 ^ 53 ≤ V := by omega
    obtain ⟨q1, hround, hq1⟩ := Double.round_nat V (-129) hV53
    rw [hround]
    have hne : V ≠ 0 := by omega
    have hL1 : 2 ^ Nat.log2 V ≤ V := Nat.log2_self_le hne
    have hL2 : V < 2 ^ (Nat.log2 V + 1) := Nat.lt_log2_self
    have hL53 : 53 ≤ Nat.log2 V := by
      by_contra hlt
      have := (Nat.log2_lt hne).1 (show Nat.log2 V < 53 by omega)
      omega
    generalize hLdef : Nat.log2 V = L at *
    obtain ⟨k, hk⟩ : ∃ k, L = k + 52 := ⟨L - 52, by omega⟩
    subst hk
    simp only [Nat.add_sub_cancel] at hq1 ⊢
    have hpow1 : 2 ^ (k + 52) = 2 ^ 52 * 2 ^ k := by rw [Nat.pow_add, Nat.mul_comm]
    have hpow2 : 2 ^ (k + 52 + 1) = 2 ^ 53 * 2 ^ k := by
      rw [show k + 52 + 1 = k + 53 by omega, Nat.pow_add, Nat.mul_comm]
    have hkpos : 0 < 2 ^ k := Nat.pow_pos (by decide)
    have hq_lo : 2 ^ 52 ≤ V / 2 ^ k := by
      rw [Nat.le_div_iff_mul_le hkpos, ← hpow1]
      exact hL1
    have hq_hi : V / 2 ^ k < 2 ^ 53 := by
      rw [Nat.div_lt_iff_lt_mul hkpos, ← hpow2]
      exact hL2
    have hq1_lo : V / 2 ^ k ≤ q1 := by
      rw [hq1]; split <;> omega
    have hq1_hi : q1 ≤ V / 2 ^ k + 1 := by
      rw [hq1]; split <;> omega
    rcases Nat.lt_trichotomy k 76 with hk | hk | hk
    · -- the quotient is below 1/2
      rw [Double.le_shape_low _ _ k (by omega), decide_eq_decide]
      have h2 : 2 ^ 1 ≤ 2 ^ (76 - k) := Nat.pow_le_pow_right (by decide) (by omega)
      have hmul : 6305039478318694 * 2 ^ 1 ≤ 6305039478318694 * 2 ^ (76 - k) :=
        Nat.mul_le_mul_left _ h2
      have hVlt : V < 2 ^ 128 := by
        have : 2 ^ (k + 52 + 1) ≤ 2 ^ 128 := Nat.pow_le_pow_right (by decide) (by omega)
        omega
      constructor <;> intro h <;> omega
    · -- the quotient is in [1/2, 1)
      subst hk
      rw [Double.le_shape_low _ _ 76 (by omega), decide_eq_decide]
      norm_num at hq1 hL1 hL2 ⊢
      rw [hq1]
      constructor
      · intro h
        split at h <;> omega
      · intro h
        split <;> omega
    · -- the quotient is at least 1
      rw [Double.le_shape_high _ _ k (by omega), decide_eq_decide]
      have h2 : 2 ^ 1 ≤ 2 ^ (k - 76) := Nat.pow_le_pow_right (by decide) (by omega)
      have hmul : q1 * 2 ^ 1 ≤ q1 * 2 ^ (k - 76) := Nat.mul_le_mul_left _ h2
      have hVge : 2 ^ 129 ≤ V := by
        have : 2 ^ 129 ≤ 2 ^ (k + 52) := Nat.pow_le_pow_right (by decide) (by omega)
        omega
      constructor <;> intro h <;> omega

/-- The test `(count_acked_ts*1.0)/((end_ts-start_ts+1)*1.0) >= 0.7` for
`count_acked_ts < 2^53` and an interval of at least 1 and less than `2^53`
timeslices, where both conversions to `double` are exact: the rounded quotient is at
least the `double` 0.7 exactly when the quotient is at least the midpoint
`12610078956637387 / 2^54` between 0.7 and the `double` before it. -/
theorem ack_percentage_reached_exact (info : InputIntervalInfo)
    (ha : info.count_acked_ts < 2 ^ 53) (hn1 : 1 ≤ info.interval_length)
    (hn : info.interval_length < 2 ^ 53) :
    info.is_ack_percentage_reached =
      decide (12610078956637387 * info.interval_length ≤ info.count_acked_ts * 2 ^ 54) := by
  unfold InputIntervalInfo.is_ack_percentage_reached
  generalize info.interval_length = n at *
  generalize info.count_acked_ts = a at *
  have hda : Double.mul (Double.of_u64 a) Double.one =
      { mantissa := (a : Int), exponent := 0 } := by
    unfold Double.of_u64
    rw [Double.round_exact _ _ (by rw [Int.natAbs_ofNat]; exact ha)]
    unfold Double.mul Double.one
    simp only [Int.mul_one, Int.add_zero]
    exact Double.round_exact _ _ (by rw [Int.natAbs_ofNat]; exact ha)
  have hdn : Double.mul (Double.of_u64 n) Double.one =
      { mantissa := (n : Int), exponent := 0 } := by
    unfold Double.of_u64
    rw [Double.round_exact _ _ (by rw [Int.natAbs_ofNat]; exact hn)]
    unfold Double.mul Double.one
    simp only [Int.mul_one, Int.add_zero]
    exact Double.round_exact _ _ (by rw [Int.natAbs_ofNat]; exact hn)
  have hn0 : ¬ ((n : Int) = 0) := by omega
  have hsign : (a : Int).sign * (n : Int).sign *
      ((2 * (a * 2 ^ 128 / n) + (if a * 2 ^ 128 % n = 0 then 0 else 1) : Nat) : Int) =
      ((2 * (a * 2 ^ 128 / n) + (if a * 2 ^ 128 % n = 0 then 0 else 1) : Nat) : Int) := by
    have hsn : (n : Int).sign = 1 := Int.sign_eq_one_of_pos (by omega)
    rcases Nat.eq_zero_or_pos a with h0 | hpos
    · subst h0
      simp
    · have hsa : (a : Int).sign = 1 := Int.sign_eq_one_of_pos (by omega)
      rw [hsa, hsn, Int.one_mul, Int.one_mul]
  have hdiv : Double.div { mantissa := (a : Int), exponent := 0 }
      { mantissa := (n : Int), exponent := 0 } =
      some (Double.round
        ((2 * (a * 2 ^ 128 / n) + (if a * 2 ^ 128 % n = 0 then 0 else 1) : Nat) : Int)
        (-129)) := by
    unfold Double.div
    simp only [Int.natAbs_ofNat]
    rw [if_neg hn0, hsign]
    rfl
  rw [hda, hdn, hdiv]
  simp only
  rw [Double.seven_tenths_le_round, decide_eq_decide]
  have hq : ∀ X, X ≤ a * 2 ^ 128 / n ↔ X * n ≤ a * 2 ^ 128 :=
    fun X => Nat.le_div_iff_mul_le (by omega)
  have hX := hq (12610078956637387 * 2 ^ 74)
  constructor
  · intro h
    have h1 : 12610078956637387 * 2 ^ 74 ≤ a * 2 ^ 128 / n := by
      split at h <;> omega
    have h2 := hX.1 h1
    omega
  · intro h
    have h1 : 12610078956637387 * 2 ^ 74 ≤ a * 2 ^ 128 / n := hX.2 (by omega)
    split <;> omega

/-- The test `(count_acked_ts*1.0)/((end_ts-start_ts+1)*1.0) >= 0.7` for
`count_acked_ts < 2^53` and an interval of at least 1 and less than `2^49`
timeslices: it holds exactly when `10 * count_acked_ts >= 7 * interval_length`. -/
theorem ack_percentage_reached_eq (info : InputIntervalInfo)
    (ha : info.count_acked_ts < 2 ^ 53) (hn1 : 1 ≤ info.interval_length)
    (hn : info.interval_length < 2 ^ 49) :
    info.is_ack_percentage_reached =
      decide (7 * info.interval_length ≤ 10 * info.count_acked_ts) := by
  rw [ack_percentage_reached_exact info ha hn1 (by omega), decide_eq_decide]
  constructor <;> intro h <;> omega

/-- C21 (amended). For an interval with `start_ts <= end_ts`, fewer than `2^49`
timeslices and
`count_acked_ts < 2^53` (where the conversions to `double` are exact and the rounding
of the quotient cannot cross the threshold): `is_ack_percentage_reached()` is true
exactly when `10 * count_acked_ts >= 7 * (end_ts - start_ts + 1)`, and
`is_interval_sent_ack_completed()` is true exactly when
`count_sent_ts == end_ts - start_ts + 1` and that threshold is reached. -/
theorem interval_sent_ack_completed_iff (info : InputIntervalInfo)
    (h_le : info.start_ts ≤ info.end_ts)
    (h_len : info.end_ts - info.start_ts + 1 < 2 ^ 49)
    (h_acked : info.count_acked_ts < 2 ^ 53) :
    (info.is_ack_percentage_reached = true ↔
      7 * (info.end_ts - info.start_ts + 1) ≤ 10 * info.count_acked_ts) ∧
    (info.is_interval_sent_ack_completed info.is_ack_percentage_reached = true ↔
      info.count_sent_ts = info.end_ts - info.start_ts + 1 ∧
      7 * (info.end_ts - info.start_ts + 1) ≤ 10 * info.count_acked_ts) := by
  have hlen := interval_length_eq info h_le (by unfold UINT64_MOD; omega)
  have hreach := ack_percentage_reached_eq info h_acked (by omega) (by omega)
  rw [hlen] at hreach
  have h1 : info.is_ack_percentage_reached = true ↔
      7 * (info.end_ts - info.start_ts + 1) ≤ 10 * info.count_acked_ts := by
    rw [hreach, decide_eq_true_iff]
  refine ⟨h1, ?_⟩
  unfold InputIntervalInfo.is_interval_sent_ack_completed
    InputIntervalInfo.is_interval_sent_completed
  rw [Bool.and_eq_true, decide_eq_true_iff, hlen, h1]

theorem interval_sent_ack_completed_iff_witness :
    (scenario_acked_interval 4).is_interval_sent_ack_completed
        (scenario_acked_interval 4).is_ack_percentage_reached = true ∧
    ¬ ((scenario_acked_interval 3).is_interval_sent_ack_completed
        (scenario_acked_interval 3).is_ack_percentage_reached = true) :=
  ⟨(interval_sent_ack_completed_iff (scenario_acked_interval 4) (by decide) (by decide)
      (by decide)).2.mpr ⟨by decide, by decide⟩,
    fun h => absurd
      ((interval_sent_ack_completed_iff (scenario_acked_interval 3) (by decide) (by decide)
        (by decide)).2.mp h).2 (by decide)⟩


/-! ### A descriptor count outside `uint32_t` -/

/-- C8 fails as stated when `timeslice_size_ + overlap_size_` leaves `uint32_t`. With
`timeslice_size = 4294967295` and `overlap_size = 2`, the call
`try_send_timeslice(0)` that returns true submits a write with `desc_length = 1`, not
`timeslice_size + overlap_size = 4294967297`, and leaves `sent_desc_ = 1`. -/
theorem successful_send_counterexample :
    (try_send_timeslice scenario_ids 32 scenario_wrap_source scenario_wrap_sender 0
      ).toOption.map Prod.fst = some true ∧
    (try_send_timeslice scenario_ids 32 scenario_wrap_source scenario_wrap_sender 0
      ).toOption.map (fun r => r.2.submitted.map WriteRequest.desc_length) = some [1] ∧
    (try_send_timeslice scenario_ids 32 scenario_wrap_source scenario_wrap_sender 0
      ).toOption.map (fun r => r.2.sent_desc_) = some 1 ∧
    scenario_wrap_sender.timeslice_size_ + scenario_wrap_sender.overlap_size_ =
      4294967297 := by
  refine ⟨by decide, by decide, by decide, by decide⟩

/-- C13 fails as stated when `timeslice_size_ + overlap_size_` leaves `uint32_t`. With
`timeslice_size = 4294967295 >= 1` and `overlap_size = 2` the descriptor range of
timeslice 0 is `[0]` and that of timeslice 1 is `[4294967295]`: they share no
descriptor, not `overlap_size = 2` of them. -/
theorem consecutive_overlap_counterexample :
    1 ≤ scenario_wrap_sender.timeslice_size_ ∧
    scenario_wrap_sender.overlap_size_ = 2 ∧
    ts_desc_range scenario_wrap_sender 0 = [0] ∧
    ts_desc_range scenario_wrap_sender 1 = [4294967295] ∧
    (∀ i, ¬ (i ∈ ts_desc_range scenario_wrap_sender 0 ∧
      i ∈ ts_desc_range scenario_wrap_sender 1)) := by
  have h0 : ts_desc_range scenario_wrap_sender 0 = [0] := by decide
  have h1 : ts_desc_range scenario_wrap_sender 1 = [4294967295] := by decide
  refine ⟨by decide, by decide, h0, h1, ?_⟩
  intro i h
  rw [h0, h1] at h
  simp only [List.mem_singleton] at h
  omega


/-! ### Timeslices without overlap -/

/-- C4 (code at the failing input). With `timeslice_size = 1` and `overlap_size = 0`,
the main loop sends the timeslices 0, 1, 2 of a stream whose three written
microslices have the non-decreasing offsets 100, 200, 300, and each write completes.
`on_completion` reads `desc_buffer().at(acked_desc_)`, the descriptor after the
acknowledged ones: after the third completion this is descriptor 3, which the
producer has not written. With a descriptor ring of 4 slots the read indices
published are (1, 200), (2, 300), (3, 0): the data component goes back from 300 to 0.
With a descriptor ring of 8 slots, where the read index is published every second
descriptor, the third completion leaves `cached_acked_data_ = 300` above
`acked_data_ = 0`, so that `freeing()` fails its `assert(cached_acked <= acked)` for
the data status that `report_status` builds; and after a fourth microslice has been
written and timeslice 3 sent and completed, the read indices published are (2, 300),
(4, 0). -/
theorem read_index_goes_back :
    (∀ j, j < 3 → ∀ i, i ≤ j →
      (scenario_short_source.desc_buffer.at_ i).offset ≤
        (scenario_short_source.desc_buffer.at_ j).offset) ∧
    scenario_short_source.write_index.desc = 3 ∧
    (main_loop scenario_ids 32 scenario_short_envs
      { timeslice := 0, sender := scenario_short_sender }).toOption.map
        (fun st => st.sender.submitted.map WriteRequest.timeslice) = some [0, 1, 2] ∧
    (main_loop scenario_ids 32 scenario_short_envs
      { timeslice := 0, sender := scenario_short_sender }).toOption.map
        (fun st => st.sender.read_index_calls) =
      some [{ desc := 1, data := 200 }, { desc := 2, data := 300 },
        { desc := 3, data := 0 }] ∧
    ¬ read_index_le { desc := 2, data := 300 } { desc := 3, data := 0 } ∧
    (main_loop scenario_ids 32
      [scenario_lazy_env 3 0, scenario_lazy_env 3 1, scenario_lazy_env 3 2]
      { timeslice := 0, sender := scenario_lazy_sender }).toOption.map
        (fun st => (st.sender.read_index_calls, st.sender.cached_acked_data_,
          st.sender.acked_data_)) =
      some ([{ desc := 2, data := 300 }], 300, 0) ∧
    (main_loop scenario_ids 32
      [scenario_lazy_env 3 0, scenario_lazy_env 3 1, scenario_lazy_env 3 2]
      { timeslice := 0, sender := scenario_lazy_sender }).toOption.map
        (fun st => (report_status (scenario_lazy_source 3) st.sender 0).2.freeing) =
      some (.error .assertion_failed) ∧
    (main_loop scenario_ids 32
      [scenario_lazy_env 3 0, scenario_lazy_env 3 1, scenario_lazy_env 3 2,
        scenario_lazy_env 4 3]
      { timeslice := 0, sender := scenario_lazy_sender }).toOption.map
        (fun st => st.sender.read_index_calls) =
      some [{ desc := 2, data := 300 }, { desc := 4, data := 0 }] := by
  refine ⟨by decide, by decide, by decide, by decide, ?_, by decide, rfl, by decide⟩
  intro h
  exact absurd h.2 (by decide)

/-- C21 fails as stated for very long intervals. For an interval of `2^52` timeslices,
all sent, of which 3152519739159347 are acknowledged, `10 * count_acked_ts` is
31525197391593470, less than `7 * 2^52 = 31525197391593472`; but the quotient lies
within half a unit in the last place below the `double` 0.7 and rounds to it, so
`is_ack_percentage_reached()` and `is_interval_sent_ack_completed()` are true. -/
theorem ack_threshold_counterexample :
    scenario_huge_interval.end_ts - scenario_huge_interval.start_ts + 1 = 2 ^ 52 ∧
    scenario_huge_interval.count_sent_ts = 2 ^ 52 ∧
    scenario_huge_interval.is_ack_percentage_reached = true ∧
    scenario_huge_interval.is_interval_sent_ack_completed
      scenario_huge_interval.is_ack_percentage_reached = true ∧
    ¬ (7 * (scenario_huge_interval.end_ts - scenario_huge_interval.start_ts + 1) ≤
      10 * scenario_huge_interval.count_acked_ts) := by
  have hreach : scenario_huge_interval.is_ack_percentage_reached = true := by
    rw [ack_percentage_reached_exact scenario_huge_interval (by decide) (by decide)
      (by decide)]
    decide
  refine ⟨by decide, by decide, hreach, ?_, by decide⟩
  rw [hreach]
  decide


/-! ### A proposed duration outside `int64_t` -/

end tl_libfabric
